import Mathlib

/-!
# Tag reconciliation helpers of the AWS provider

A shallow embedding of the generated tag helpers
`internal/service/elasticsearch/tags_gen.go` and
`internal/service/gamelift/tags_gen.go`, together with the parts of the
`internal/tags` package (`tftags`) and of the AWS SDK that they call.

A Go map is embedded as an association list without repeated keys; the order
of the list stands for the (unspecified) iteration order of the map.  A Go
`*string` is embedded as `Option String`, `nil` being `none`.  A remote
connection is embedded as a pair of state transformers, one per API operation,
over an arbitrary state type, so that a statement quantified over connections
covers every behaviour of the remote service.
-/

set_option autoImplicit false

/-! ## Go and SDK primitives -/

namespace strings

/-- Go `strings.HasPrefix(s, p)`: `s` begins with `p`. -/
def HasPrefix (s p : String) : Bool :=
  p.data.isPrefixOf s.data

end strings

namespace aws

/-- SDK `aws.StringValue`: the string pointed to, or the empty string for `nil`. -/
def StringValue (v : Option String) : String :=
  match v with
  | some s => s
  | none => ""

/-- SDK `aws.ToString` (SDK v2): the string pointed to, or the empty string for
`nil`. -/
def ToString (v : Option String) : String :=
  match v with
  | some s => s
  | none => ""

/-- SDK `aws.StringSlice`: a slice of pointers to the given strings. -/
def StringSlice (src : List String) : List (Option String) :=
  src.map some

/-- SDK `aws.String`: a pointer to the given string. -/
def String (v : String) : Option String :=
  some v

end aws

/-- A Go `error` value: an error with a fixed text, or the result of
`fmt.Errorf` with one `%w` verb, which keeps the wrapped error, or an error of
the AWS SDK (`awserr.Error`), which carries an error code and a message, or one
of the errors with which a finder reports what it found: `retry.NotFoundError`
with its message (its `LastError` is `nil` wherever the code builds one, and its
`LastRequest` is left out), `tfresource.EmptyResultError`, and
`tfresource.TooManyResultsError` with its count. -/
inductive GoError where
  | errorString (s : String)
  | wrapError (msg : String) (err : GoError)
  | awsError (code message : String)
  | notFoundError (message : String)
  | emptyResultError
  | tooManyResultsError (count : Nat)
  deriving DecidableEq, Repr

namespace GoError

/-- The `Error()` method: the text of the error. -/
def Error : GoError → String
  | errorString s => s
  | wrapError msg _ => msg
  | awsError code message => code ++ ": " ++ message
  | notFoundError message => if message ≠ "" then message else "couldn\x27t find resource"
  | emptyResultError => "empty result"
  | tooManyResultsError count => "too many results: wanted 1, got " ++ toString count

/-- Go `errors.Unwrap`: the wrapped error, `nil` for an error that wraps none. -/
def Unwrap : GoError → Option GoError
  | errorString _ => none
  | wrapError _ err => some err
  | awsError _ _ => none
  | notFoundError _ => none
  | emptyResultError => none
  | tooManyResultsError _ => none

end GoError

namespace fmt

/-- Go `fmt.Errorf(format, identifier, err)` for a format of the shape
`"<text> (%s): %w"`: the text, the identifier in brackets, and the text of the
wrapped error; the result wraps `err`. -/
def Errorf (text identifier : String) (err : GoError) : GoError :=
  GoError.wrapError (text ++ " (" ++ identifier ++ "): " ++ err.Error) err

end fmt

/-! ## Package `internal/tags` -/

namespace tftags

/-- The value bound to key `k` in an association list, the first binding
winning. -/
def lookupEntry (k : String) : List (String × String) → Option String
  | [] => none
  | (k', v) :: rest => if k' = k then some v else lookupEntry k rest

/-- Modelled from the spec: the type `KeyValueTags` of package `internal/tags`,
which is not among the sources.  The spec describes a tag set as "a mapping from
string key to string value, unordered, keys unique within a set". -/
structure KeyValueTags where
  entries : List (String × String)
  nodup : (entries.map Prod.fst).Nodup

namespace KeyValueTags

/-- Go `len(tags)`. -/
def len (tags : KeyValueTags) : Nat :=
  tags.entries.length

/-- Go `tags[k]` with the comma-ok form: the value bound to `k`, if any. -/
def get? (tags : KeyValueTags) (k : String) : Option String :=
  lookupEntry k tags.entries

/-- The empty tag set. -/
def empty : KeyValueTags :=
  ⟨[], List.nodup_nil⟩

/-- Restriction of a tag set to the entries satisfying `p`. -/
def filter (p : String × String → Bool) (tags : KeyValueTags) : KeyValueTags :=
  ⟨tags.entries.filter p,
    tags.nodup.sublist ((List.filter_sublist tags.entries).map Prod.fst)⟩

/-- Modelled from the spec: `KeyValueTags.Keys` of package `internal/tags`, not
among the sources: the keys of the tag set. -/
def Keys (tags : KeyValueTags) : List String :=
  tags.entries.map Prod.fst

/-- Modelled from the spec: `KeyValueTags.Map` of package `internal/tags`, not
among the sources: the tag set as a string-to-string map. -/
def Map (tags : KeyValueTags) : List (String × String) :=
  tags.entries

/-- Modelled from the spec: `KeyValueTags.Removed` of package `internal/tags`,
not among the sources.  The spec: "`removed` = keys present in old but absent in
new". -/
def Removed (tags newTags : KeyValueTags) : KeyValueTags :=
  tags.filter (fun kv => (newTags.get? kv.1).isNone)

/-- Modelled from the spec: `KeyValueTags.Updated` of package `internal/tags`,
not among the sources.  The spec: "`updated` = entries present in new where
either the key is absent from old or the value differs". -/
def Updated (tags newTags : KeyValueTags) : KeyValueTags :=
  newTags.filter (fun kv =>
    match tags.get? kv.1 with
    | none => true
    | some oldV => !(oldV == kv.2))

end KeyValueTags

/-- Modelled from the spec: the constant `AwsTagKeyPrefix` of package
`internal/tags`, not among the sources: the prefix of the keys of the tags that
AWS itself manages. -/
def AwsTagKeyPrefix : String := "aws:"

/-- Modelled from the spec: the constant `ElasticbeanstalkTagKeyPrefix` of
package `internal/tags`, not among the sources. -/
def ElasticbeanstalkTagKeyPrefix : String := "elasticbeanstalk:"

/-- Modelled from the spec: the constant `NameTagKey` of package
`internal/tags`, not among the sources. -/
def NameTagKey : String := "Name"

/-- Modelled from the spec: the constant `RdsTagKeyPrefix` of package
`internal/tags`, not among the sources. -/
def RdsTagKeyPrefix : String := "rds:"

/-- Modelled from the spec: the constant
`ServerlessApplicationRepositoryTagKeyPrefix` of package `internal/tags`, not
among the sources. -/
def ServerlessApplicationRepositoryTagKeyPrefix : String := "serverlessrepo:"

namespace KeyValueTags

/-- Modelled from the spec: `KeyValueTags.IgnoreAws` of package `internal/tags`,
not among the sources; the spec has no sentence on it.  It "returns non-AWS tag
keys": the entries whose key does not begin with `aws:`. -/
def IgnoreAws (tags : KeyValueTags) : KeyValueTags :=
  tags.filter (fun kv => !strings.HasPrefix kv.1 AwsTagKeyPrefix)

/-- Modelled from the spec: `KeyValueTags.IgnoreElasticbeanstalk` of package
`internal/tags`, not among the sources: the entries whose key is neither an AWS
key, nor an Elastic Beanstalk key, nor `Name`. -/
def IgnoreElasticbeanstalk (tags : KeyValueTags) : KeyValueTags :=
  tags.filter (fun kv =>
    !strings.HasPrefix kv.1 AwsTagKeyPrefix
      && !strings.HasPrefix kv.1 ElasticbeanstalkTagKeyPrefix
      && !(kv.1 == NameTagKey))

/-- Modelled from the spec: `KeyValueTags.IgnoreRds` of package `internal/tags`,
not among the sources: the entries whose key is neither an AWS key nor an RDS
key. -/
def IgnoreRds (tags : KeyValueTags) : KeyValueTags :=
  tags.filter (fun kv =>
    !strings.HasPrefix kv.1 AwsTagKeyPrefix && !strings.HasPrefix kv.1 RdsTagKeyPrefix)

/-- Modelled from the spec: `KeyValueTags.IgnoreServerlessApplicationRepository`
of package `internal/tags`, not among the sources. -/
def IgnoreServerlessApplicationRepository (tags : KeyValueTags) : KeyValueTags :=
  tags.filter (fun kv =>
    !strings.HasPrefix kv.1 AwsTagKeyPrefix
      && !strings.HasPrefix kv.1 ServerlessApplicationRepositoryTagKeyPrefix)

/-- Modelled from the spec: `KeyValueTags.IgnoreSystem` of package
`internal/tags`, not among the sources: "returns non-system tag keys; the
ignored keys vary on the specified service".  Three services have a list of
their own, every other service ignores the AWS keys only. -/
def IgnoreSystem (tags : KeyValueTags) (serviceName : String) : KeyValueTags :=
  if serviceName = "elasticbeanstalk" then tags.IgnoreElasticbeanstalk
  else if serviceName = "rds" then tags.IgnoreRds
  else if serviceName = "serverlessrepo" then tags.IgnoreServerlessApplicationRepository
  else tags.IgnoreAws

end KeyValueTags

/-- The tag set with the single entry `k ↦ v`. -/
def KeyValueTags.single (k v : String) : KeyValueTags :=
  ⟨[(k, v)], List.nodup_singleton k⟩

/-- The old tag set of the first scenario of the spec: `k1 ↦ v1, k2 ↦ v2`. -/
def scenarioOld : KeyValueTags :=
  ⟨[("k1", "v1"), ("k2", "v2")], by decide⟩

/-- The new tag set of the first scenario of the spec: `k1 ↦ v1, k3 ↦ v3`. -/
def scenarioNew : KeyValueTags :=
  ⟨[("k1", "v1"), ("k3", "v3")], by decide⟩

/-- Modelled from the spec: `tftags.New` of package `internal/tags`, not among
the sources: the tag set built from a map of strings. -/
def New (i : KeyValueTags) : KeyValueTags :=
  i

end tftags

namespace names

/-- The constant `names.GameLift`: the name of the GameLift service package. -/
def GameLift : String := "gamelift"

end names

/-! ## Package `internal/service/elasticsearch` -/

namespace elasticsearch

/-- SDK type `elasticsearchservice.Tag`. -/
structure Tag where
  Key : Option String
  Value : Option String
  deriving DecidableEq, Repr

/-- SDK type `elasticsearchservice.RemoveTagsInput`. -/
structure RemoveTagsInput where
  ARN : Option String
  TagKeys : List (Option String)
  deriving DecidableEq, Repr

/-- SDK type `elasticsearchservice.AddTagsInput`. -/
structure AddTagsInput where
  ARN : Option String
  TagList : List Tag
  deriving DecidableEq, Repr

/-- The two operations of `*elasticsearchservice.ElasticsearchService` that the
tag helpers call, over a remote state of type `σ`.  An operation returns the
error of the call (`none` for `nil`) and the state of the remote afterwards. -/
structure Conn (σ : Type) where
  RemoveTags : RemoveTagsInput → σ → Option GoError × σ
  AddTags : AddTagsInput → σ → Option GoError × σ

/-- `Tags returns elasticsearch service tags.` -/
def Tags (tags : tftags.KeyValueTags) : List Tag :=
  tags.Map.map (fun kv => { Key := aws.String kv.1, Value := aws.String kv.2 })

/-- `UpdateTags updates elasticsearch service tags.`  The result is the returned
error and the state of the remote when the function returns. -/
def UpdateTags {σ : Type} (conn : Conn σ) (identifier : String)
    (oldTagsMap newTagsMap : tftags.KeyValueTags) (s : σ) : Option GoError × σ :=
  let oldTags := tftags.New oldTagsMap
  let newTags := tftags.New newTagsMap
  let removedTags := oldTags.Removed newTags
  let untag : Option GoError × σ :=
    if removedTags.len > 0 then
      let input : RemoveTagsInput :=
        { ARN := aws.String identifier
          TagKeys := aws.StringSlice removedTags.IgnoreAws.Keys }
      match conn.RemoveTags input s with
      | (some err, s1) => (some (fmt.Errorf "error untagging resource" identifier err), s1)
      | (none, s1) => (none, s1)
    else (none, s)
  match untag with
  | (some err, s1) => (some err, s1)
  | (none, s1) =>
    let updatedTags := oldTags.Updated newTags
    if updatedTags.len > 0 then
      let input : AddTagsInput :=
        { ARN := aws.String identifier
          TagList := Tags updatedTags.IgnoreAws }
      match conn.AddTags input s1 with
      | (some err, s2) => (some (fmt.Errorf "error tagging resource" identifier err), s2)
      | (none, s2) => (none, s2)
    else (none, s1)

/-- One request received by the remote service. -/
inductive Call where
  | RemoveTags (input : RemoveTagsInput)
  | AddTags (input : AddTagsInput)
  deriving DecidableEq, Repr

/-- The connection `conn` with a journal: every request is served by `conn` and
appended to the journal together with the error that `conn` returned for it. -/
def Conn.recorded {σ : Type} (conn : Conn σ) : Conn (σ × List (Call × Option GoError)) where
  RemoveTags := fun input s =>
    ((conn.RemoveTags input s.1).1,
      ((conn.RemoveTags input s.1).2,
        s.2 ++ [(Call.RemoveTags input, (conn.RemoveTags input s.1).1)]))
  AddTags := fun input s =>
    ((conn.AddTags input s.1).1,
      ((conn.AddTags input s.1).2,
        s.2 ++ [(Call.AddTags input, (conn.AddTags input s.1).1)]))

/-- The requests that `UpdateTags` sends over `conn`, in order, each with the
error returned for it, when the remote starts in state `s`. -/
def journal {σ : Type} (conn : Conn σ) (identifier : String)
    (oldTagsMap newTagsMap : tftags.KeyValueTags) (s : σ) : List (Call × Option GoError) :=
  (UpdateTags conn.recorded identifier oldTagsMap newTagsMap (s, [])).2.2

/-- The requests that `UpdateTags` sends over `conn`, in order, when the remote
starts in state `s`. -/
def calls {σ : Type} (conn : Conn σ) (identifier : String)
    (oldTagsMap newTagsMap : tftags.KeyValueTags) (s : σ) : List Call :=
  (journal conn identifier oldTagsMap newTagsMap s).map Prod.fst

/-- The remote tag store of one resource: the value of each key that has one. -/
abbrev TagStore := String → Option String

/-- The store holding exactly the tag set `tags`. -/
def TagStore.ofTags (tags : tftags.KeyValueTags) : TagStore :=
  tags.get?

/-- The store after a remove call: the given keys are deleted. -/
def TagStore.remove (store : TagStore) (keys : List (Option String)) : TagStore :=
  fun k => if some k ∈ keys then none else store k

/-- The store after an add call: each given tag is inserted, or overwrites the
entry of its key, in the order of the list. -/
def TagStore.add (store : TagStore) (tags : List Tag) : TagStore :=
  tags.foldl (fun st tag => Function.update st (aws.StringValue tag.Key) tag.Value) store

/-- The remote whose calls all succeed and act on the tag store of the
resource. -/
def storeConn : Conn TagStore where
  RemoveTags := fun input store => (none, store.remove input.TagKeys)
  AddTags := fun input store => (none, store.add input.TagList)

/-- The request that `UpdateTags` builds for its remove call. -/
def removeInput (identifier : String) (oldTagsMap newTagsMap : tftags.KeyValueTags) :
    RemoveTagsInput :=
  { ARN := aws.String identifier
    TagKeys := aws.StringSlice
      ((tftags.New oldTagsMap).Removed (tftags.New newTagsMap)).IgnoreAws.Keys }

/-- The request that `UpdateTags` builds for its add call. -/
def addInput (identifier : String) (oldTagsMap newTagsMap : tftags.KeyValueTags) :
    AddTagsInput :=
  { ARN := aws.String identifier
    TagList := Tags ((tftags.New oldTagsMap).Updated (tftags.New newTagsMap)).IgnoreAws }

/-- The remove calls of a journal, in order. -/
def removeCalls : List Call → List RemoveTagsInput
  | [] => []
  | Call.RemoveTags input :: rest => input :: removeCalls rest
  | Call.AddTags _ :: rest => removeCalls rest

/-- The add calls of a journal, in order. -/
def addCalls : List Call → List AddTagsInput
  | [] => []
  | Call.RemoveTags _ :: rest => addCalls rest
  | Call.AddTags input :: rest => input :: addCalls rest

/-- A remote without state whose calls all succeed. -/
def okConn : Conn Unit where
  RemoveTags := fun _ s => (none, s)
  AddTags := fun _ s => (none, s)

/-- A remote without state whose calls all fail with the error `e`. -/
def failConn (e : GoError) : Conn Unit where
  RemoveTags := fun _ s => (some e, s)
  AddTags := fun _ s => (some e, s)

end elasticsearch

/-! ## Package `internal/service/gamelift` -/

namespace gamelift

/-- SDK type `gamelift.Tag`. -/
structure Tag where
  Key : Option String
  Value : Option String
  deriving DecidableEq, Repr

/-- SDK type `gamelift.UntagResourceInput`. -/
structure UntagResourceInput where
  ResourceARN : Option String
  TagKeys : List (Option String)
  deriving DecidableEq, Repr

/-- SDK type `gamelift.TagResourceInput`. -/
structure TagResourceInput where
  ResourceARN : Option String
  Tags : List Tag
  deriving DecidableEq, Repr

/-- The two operations of `gameliftiface.GameLiftAPI` that `updateTags` calls,
over a remote state of type `σ`. -/
structure Conn (σ : Type) where
  UntagResourceWithContext : UntagResourceInput → σ → Option GoError × σ
  TagResourceWithContext : TagResourceInput → σ → Option GoError × σ

/-- `Tags returns gamelift service tags.` -/
def Tags (tags : tftags.KeyValueTags) : List Tag :=
  tags.Map.map (fun kv => { Key := aws.String kv.1, Value := aws.String kv.2 })

/-- `updateTags updates gamelift service tags.`  The context only carries
logging fields and is left out. -/
def updateTags {σ : Type} (conn : Conn σ) (identifier : String)
    (oldTagsMap newTagsMap : tftags.KeyValueTags) (s : σ) : Option GoError × σ :=
  let oldTags := tftags.New oldTagsMap
  let newTags := tftags.New newTagsMap
  let removedTags := oldTags.Removed newTags
  let removedTags := removedTags.IgnoreSystem names.GameLift
  let untag : Option GoError × σ :=
    if removedTags.len > 0 then
      let input : UntagResourceInput :=
        { ResourceARN := aws.String identifier
          TagKeys := aws.StringSlice removedTags.Keys }
      match conn.UntagResourceWithContext input s with
      | (some err, s1) => (some (fmt.Errorf "untagging resource" identifier err), s1)
      | (none, s1) => (none, s1)
    else (none, s)
  match untag with
  | (some err, s1) => (some err, s1)
  | (none, s1) =>
    let updatedTags := oldTags.Updated newTags
    let updatedTags := updatedTags.IgnoreSystem names.GameLift
    if updatedTags.len > 0 then
      let input : TagResourceInput :=
        { ResourceARN := aws.String identifier
          Tags := Tags updatedTags }
      match conn.TagResourceWithContext input s1 with
      | (some err, s2) => (some (fmt.Errorf "tagging resource" identifier err), s2)
      | (none, s2) => (none, s2)
    else (none, s1)

/-- One request received by the remote service. -/
inductive Call where
  | UntagResource (input : UntagResourceInput)
  | TagResource (input : TagResourceInput)
  deriving DecidableEq, Repr

/-- The connection `conn` with a journal: every request is appended to the
journal before `conn` serves it. -/
def Conn.recorded {σ : Type} (conn : Conn σ) : Conn (σ × List Call) where
  UntagResourceWithContext := fun input s =>
    ((conn.UntagResourceWithContext input s.1).1,
      ((conn.UntagResourceWithContext input s.1).2, s.2 ++ [Call.UntagResource input]))
  TagResourceWithContext := fun input s =>
    ((conn.TagResourceWithContext input s.1).1,
      ((conn.TagResourceWithContext input s.1).2, s.2 ++ [Call.TagResource input]))

/-- The requests that `updateTags` sends over `conn`, in order, when the remote
starts in state `s`. -/
def calls {σ : Type} (conn : Conn σ) (identifier : String)
    (oldTagsMap newTagsMap : tftags.KeyValueTags) (s : σ) : List Call :=
  (updateTags conn.recorded identifier oldTagsMap newTagsMap (s, [])).2.2

/-- A remote without state whose calls all succeed. -/
def okConn : Conn Unit where
  UntagResourceWithContext := fun _ s => (none, s)
  TagResourceWithContext := fun _ s => (none, s)

end gamelift

/-! ## The two tag helpers side by side -/

/-- A request of a tag helper without its SDK types: a remove call with the
resource and the keys, or an add call with the resource and the entries. -/
inductive TagCall where
  | remove (identifier : String) (keys : List String)
  | add (identifier : String) (entries : List (String × String))
  deriving DecidableEq, Repr

/-- The request of the elasticsearch helper without its SDK types. -/
def elasticsearch.Call.toTagCall : elasticsearch.Call → TagCall
  | elasticsearch.Call.RemoveTags input =>
    TagCall.remove (aws.StringValue input.ARN) (input.TagKeys.map aws.StringValue)
  | elasticsearch.Call.AddTags input =>
    TagCall.add (aws.StringValue input.ARN)
      (input.TagList.map (fun t => (aws.StringValue t.Key, aws.StringValue t.Value)))

/-- The request of the gamelift helper without its SDK types. -/
def gamelift.Call.toTagCall : gamelift.Call → TagCall
  | gamelift.Call.UntagResource input =>
    TagCall.remove (aws.StringValue input.ResourceARN) (input.TagKeys.map aws.StringValue)
  | gamelift.Call.TagResource input =>
    TagCall.add (aws.StringValue input.ResourceARN)
      (input.Tags.map (fun t => (aws.StringValue t.Key, aws.StringValue t.Value)))

/-- A gamelift remote without state whose calls all fail with the error `e`. -/
def gamelift.failConn (e : GoError) : gamelift.Conn Unit where
  UntagResourceWithContext := fun _ s => (some e, s)
  TagResourceWithContext := fun _ s => (some e, s)

/-! ## Error codes of the AWS SDK -/

namespace strings

/-- Go `strings.Contains(s, substr)`: `substr` occurs in `s`. -/
def Contains (s substr : String) : Bool :=
  s.data.tails.any (fun t => substr.data.isPrefixOf t)

end strings

/-- Go `errors.As(err, &awsErr)` for the target type `awserr.Error`: the code
and the message of the first SDK error in the chain of `err`, if there is
one. -/
def GoError.asAwsError : GoError → Option (String × String)
  | GoError.errorString _ => none
  | GoError.wrapError _ err => err.asAwsError
  | GoError.awsError code message => some (code, message)
  | GoError.notFoundError _ => none
  | GoError.emptyResultError => none
  | GoError.tooManyResultsError _ => none

/-- Modelled from the spec: the helper `isAWSErr` of the provider package
(`aws/awserr.go`), not among the sources.  The spec speaks of "an error code
used for conditional retry/skip logic": `err` is an SDK error with the code
`code` whose message contains `message`. -/
def isAWSErr (err : Option GoError) (code message : String) : Bool :=
  match err with
  | none => false
  | some e =>
    match e.asAwsError with
    | some (c, m) => c == code && strings.Contains m message
    | none => false

namespace tfec2

/-- Modelled from the spec: the constant `ErrCodeGatewayNotAttached` of package
`aws/internal/service/ec2`, not among the sources: the code of the transient
error of a gateway that is not yet attached. -/
def ErrCodeGatewayNotAttached : String := "Gateway.NotAttached"

/-- Modelled from the spec: the constant `ErrCodeRouteTableNotFound` of package
`aws/internal/service/ec2`, not among the sources: the code of the error for a
route table that does not exist. -/
def ErrCodeRouteTableNotFound : String := "InvalidRouteTableID.NotFound"

/-- Modelled from the spec: the constant `ErrCodeAssociationNotFound` of package
`aws/internal/service/ec2`, not among the sources: the code of the error for a
route table association that does not exist. -/
def ErrCodeAssociationNotFound : String := "InvalidAssociationID.NotFound"

end tfec2

/-! ## File `aws/resource_aws_route_table.go` -/

namespace resource_aws_route_table

/-- SDK type `ec2.DisableVgwRoutePropagationInput`. -/
structure DisableVgwRoutePropagationInput where
  RouteTableId : Option String
  GatewayId : Option String
  deriving DecidableEq, Repr

/-- SDK type `ec2.EnableVgwRoutePropagationInput`. -/
structure EnableVgwRoutePropagationInput where
  RouteTableId : Option String
  GatewayId : Option String
  deriving DecidableEq, Repr

/-- SDK type `ec2.DisassociateRouteTableInput`. -/
structure DisassociateRouteTableInput where
  AssociationId : Option String
  deriving DecidableEq, Repr

/-- SDK type `ec2.DeleteRouteTableInput`. -/
structure DeleteRouteTableInput where
  RouteTableId : Option String
  deriving DecidableEq, Repr

/-- SDK type `ec2.RouteTableAssociation`, with the field that the code reads. -/
structure RouteTableAssociation where
  RouteTableAssociationId : Option String
  deriving DecidableEq, Repr

/-- SDK type `ec2.RouteTable`, with the field that the code reads: a slice of
pointers to associations, `none` being a `nil` pointer. -/
structure RouteTable where
  Associations : List (Option RouteTableAssociation)
  deriving DecidableEq, Repr

/-- What the update and the delete function reach outside themselves, over a
remote state of type `σ`: four operations of `*ec2.EC2`, the lookup
`finder.RouteTableByID`, the wait `waiter.RouteTableDeleted` (both of package
`aws/internal/service/ec2`, not among the sources, hence left open here), and
`time.Sleep` with its duration in seconds.  An operation returns its results
and the state of the remote afterwards; a `nil` error is `none`. -/
structure Conn (σ : Type) where
  DisableVgwRoutePropagation : DisableVgwRoutePropagationInput → σ → Option GoError × σ
  EnableVgwRoutePropagation : EnableVgwRoutePropagationInput → σ → Option GoError × σ
  RouteTableByID : String → σ → (Option RouteTable × Option GoError) × σ
  DisassociateRouteTable : DisassociateRouteTableInput → σ → Option GoError × σ
  DeleteRouteTable : DeleteRouteTableInput → σ → Option GoError × σ
  RouteTableDeleted : String → σ → Option GoError × σ
  Sleep : Nat → σ → σ

/-- The part of `*schema.ResourceData` that the update and the delete function
use: the identifier, the old and the new value of `propagating_vgws` (what
`d.GetChange` returns), and the value of `propagating_vgws` written with
`d.Set`.  A `*schema.Set` of strings is a list without repetition. -/
structure ResourceData where
  Id : String
  propagating_vgws_old : List String
  propagating_vgws_new : List String
  propagating_vgws : List String
  deriving DecidableEq, Repr

/-- `schema.Set.Difference`: the elements of `a` that are not in `b`. -/
def Difference (a b : List String) : List String :=
  a.filter (fun x => !b.contains x)

/-- `schema.Set.Intersection`: the elements of `a` that are in `b`. -/
def Intersection (a b : List String) : List String :=
  a.filter (fun x => b.contains x)

/-- `schema.Set.Add`: the set with `x` added. -/
def Add (a : List String) (x : String) : List String :=
  if a.contains x then a else a ++ [x]

/-- `d.HasChange("propagating_vgws")`: the old and the new set differ. -/
def HasChange_propagating_vgws (d : ResourceData) : Bool :=
  !((Difference d.propagating_vgws_old d.propagating_vgws_new).isEmpty
    && (Difference d.propagating_vgws_new d.propagating_vgws_old).isEmpty)

/-- The loop `for _, vgw := range remove` of `resourceAwsRouteTableUpdate`
(lines 167-181): the propagation of every obsolete gateway is disabled, and the
first error is returned. -/
def disableLoop {σ : Type} (conn : Conn σ) (d : ResourceData) :
    List String → σ → Option GoError × σ
  | [], s => (none, s)
  | id :: remove, s =>
    match conn.DisableVgwRoutePropagation
      { RouteTableId := aws.String d.Id, GatewayId := aws.String id } s with
    | (some err, s1) => (some err, s1)
    | (none, s1) => disableLoop conn d remove s1

/-- The loop `for i := 0; i < 5; i++` of `resourceAwsRouteTableUpdate` (lines
191-209) for the gateway `id`, with `n` iterations left and `err` the value of
the variable `err`.  A successful call leaves the loop (`break`); after a
failed call with the code `Gateway.NotAttached` the function sleeps 20 seconds
and goes on with the next iteration (`continue`); after any other failed call
the end of the loop body is reached, and the next iteration follows as well. -/
def enableLoop {σ : Type} (conn : Conn σ) (d : ResourceData) (id : String) :
    Nat → Option GoError → σ → Option GoError × σ
  | 0, err, s => (err, s)
  | n + 1, _, s =>
    match conn.EnableVgwRoutePropagation
      { RouteTableId := aws.String d.Id, GatewayId := aws.String id } s with
    | (none, s1) => (none, s1)
    | (some err, s1) =>
      if isAWSErr (some err) tfec2.ErrCodeGatewayNotAttached "" then
        enableLoop conn d id n (some err) (conn.Sleep 20 s1)
      else
        enableLoop conn d id n (some err) s1

/-- The loop `for _, vgw := range add` of `resourceAwsRouteTableUpdate` (lines
188-216): for every new gateway the enable loop runs, its error is returned if
it has one, and otherwise the gateway is added to `propagating_vgws`. -/
def addLoop {σ : Type} (conn : Conn σ) :
    List String → ResourceData → σ → Option GoError × ResourceData × σ
  | [], d, s => (none, d, s)
  | id :: add, d, s =>
    match enableLoop conn d id 5 none s with
    | (some err, s1) => (some err, d, s1)
    | (none, s1) =>
      addLoop conn add { d with propagating_vgws := Add d.propagating_vgws id } s1

/-- `resourceAwsRouteTableUpdate`, lines 156-217: the reconciliation of
`propagating_vgws`.  The remainder of the function (the routes, the tags and
the final read, lines 219-340) is the parameter `rest`. -/
def resourceAwsRouteTableUpdate {σ : Type} (conn : Conn σ) (d : ResourceData)
    (rest : ResourceData → σ → Option GoError × ResourceData × σ) (s : σ) :
    Option GoError × ResourceData × σ :=
  if HasChange_propagating_vgws d then
    let os := d.propagating_vgws_old
    let ns := d.propagating_vgws_new
    let remove := Difference os ns
    let add := Difference ns os
    match disableLoop conn d remove s with
    | (some err, s1) => (some err, d, s1)
    | (none, s1) =>
      let propagatingVGWs := Intersection os ns
      let d1 := { d with propagating_vgws := propagatingVGWs }
      match addLoop conn add d1 s1 with
      | (some err, d2, s2) => (some err, d2, s2)
      | (none, d2, s2) => rest d2 s2
  else rest d s

/-- The loop `for _, a := range routeTable.Associations` of
`resourceAwsRouteTableDelete` (lines 363-379): every association is
disassociated; an error with the code of a missing association is dropped, any
other error is returned.  The result is `some err` when the loop leaves `err`
to the function, and `none` for the run-time panic of the log line (line 364),
which reads `*a.RouteTableAssociationId` before the call: a `nil` pointer `a`
to the association, or a `nil` identifier in it, stops the program there. -/
def disassociateLoop {σ : Type} (conn : Conn σ) :
    List (Option RouteTableAssociation) → σ → Option (Option GoError) × σ
  | [], s => (some none, s)
  | none :: _, s => (none, s)
  | some a :: associations, s =>
    match a.RouteTableAssociationId with
    | none => (none, s)
    | some _ =>
      match conn.DisassociateRouteTable { AssociationId := a.RouteTableAssociationId } s with
      | (err, s1) =>
        let err :=
          if err ≠ none then
            if isAWSErr err tfec2.ErrCodeAssociationNotFound "" then none else err
          else err
        match err with
        | some e => (some (some e), s1)
        | none => disassociateLoop conn associations s1

/-- `resourceAwsRouteTableDelete` (lines 343-405): `some err` when the function
returns `err`, so `some none` when it returns `nil`, and `none` when it stops
with the run-time panic of its loop.  Of the log lines only the one of the loop
is kept, for the pointer it reads. -/
def resourceAwsRouteTableDelete {σ : Type} (conn : Conn σ) (d : ResourceData) (s : σ) :
    Option (Option GoError) × σ :=
  match conn.RouteTableByID d.Id s with
  | ((routeTable, err), s1) =>
    if isAWSErr err tfec2.ErrCodeRouteTableNotFound "" then (some none, s1)
    else
      match err with
      | some e =>
        (some (some (GoError.errorString
          ("error reading Route Table (" ++ d.Id ++ "): " ++ e.Error))), s1)
      | none =>
        match routeTable with
        | none => (some none, s1)
        | some rt =>
          match disassociateLoop conn rt.Associations s1 with
          | (none, s2) => (none, s2)
          | (some (some e), s2) => (some (some e), s2)
          | (some none, s2) =>
            match conn.DeleteRouteTable { RouteTableId := aws.String d.Id } s2 with
            | (err, s3) =>
              if isAWSErr err tfec2.ErrCodeRouteTableNotFound "" then (some none, s3)
              else
                match err with
                | some e =>
                  (some (some (GoError.errorString
                    ("error deleting Route Table (" ++ d.Id ++ "): " ++ e.Error))), s3)
                | none =>
                  match conn.RouteTableDeleted d.Id s3 with
                  | (err, s4) =>
                    if isAWSErr err tfec2.ErrCodeRouteTableNotFound "" then (some none, s4)
                    else
                      match err with
                      | some e =>
                        (some (some (GoError.errorString
                          ("error waiting for Route Table (" ++ d.Id ++ ") to delete: "
                            ++ e.Error))), s4)
                      | none => (some none, s4)

/-- One step that the update or the delete function takes outside itself: a
request with the results returned for it, or a sleep. -/
inductive Event where
  | DisableVgwRoutePropagation (input : DisableVgwRoutePropagationInput) (err : Option GoError)
  | EnableVgwRoutePropagation (input : EnableVgwRoutePropagationInput) (err : Option GoError)
  | RouteTableByID (id : String) (routeTable : Option RouteTable) (err : Option GoError)
  | DisassociateRouteTable (input : DisassociateRouteTableInput) (err : Option GoError)
  | DeleteRouteTable (input : DeleteRouteTableInput) (err : Option GoError)
  | RouteTableDeleted (id : String) (err : Option GoError)
  | Sleep (seconds : Nat)
  deriving DecidableEq, Repr

/-- The connection `conn` with a journal: every step is taken by `conn` and
appended to the journal together with its results. -/
def Conn.recorded {σ : Type} (conn : Conn σ) : Conn (σ × List Event) where
  DisableVgwRoutePropagation := fun input s =>
    ((conn.DisableVgwRoutePropagation input s.1).1,
      ((conn.DisableVgwRoutePropagation input s.1).2,
        s.2 ++ [Event.DisableVgwRoutePropagation input
          (conn.DisableVgwRoutePropagation input s.1).1]))
  EnableVgwRoutePropagation := fun input s =>
    ((conn.EnableVgwRoutePropagation input s.1).1,
      ((conn.EnableVgwRoutePropagation input s.1).2,
        s.2 ++ [Event.EnableVgwRoutePropagation input
          (conn.EnableVgwRoutePropagation input s.1).1]))
  RouteTableByID := fun id s =>
    ((conn.RouteTableByID id s.1).1,
      ((conn.RouteTableByID id s.1).2,
        s.2 ++ [Event.RouteTableByID id (conn.RouteTableByID id s.1).1.1
          (conn.RouteTableByID id s.1).1.2]))
  DisassociateRouteTable := fun input s =>
    ((conn.DisassociateRouteTable input s.1).1,
      ((conn.DisassociateRouteTable input s.1).2,
        s.2 ++ [Event.DisassociateRouteTable input (conn.DisassociateRouteTable input s.1).1]))
  DeleteRouteTable := fun input s =>
    ((conn.DeleteRouteTable input s.1).1,
      ((conn.DeleteRouteTable input s.1).2,
        s.2 ++ [Event.DeleteRouteTable input (conn.DeleteRouteTable input s.1).1]))
  RouteTableDeleted := fun id s =>
    ((conn.RouteTableDeleted id s.1).1,
      ((conn.RouteTableDeleted id s.1).2,
        s.2 ++ [Event.RouteTableDeleted id (conn.RouteTableDeleted id s.1).1]))
  Sleep := fun seconds s => (conn.Sleep seconds s.1, s.2 ++ [Event.Sleep seconds])

/-- The errors returned by the `EnableVgwRoutePropagation` calls of a journal,
in order. -/
def enableResults : List Event → List (Option GoError)
  | [] => []
  | Event.EnableVgwRoutePropagation _ err :: rest => err :: enableResults rest
  | _ :: rest => enableResults rest

/-- A remote whose state is the number of `EnableVgwRoutePropagation` calls
received so far: the call number `i` (from 0) fails with `errs[i]` when that is
an error and succeeds otherwise; every other operation succeeds, and the lookup
finds the route table `rt`. -/
def scriptedConn (errs : List (Option GoError)) (rt : Option RouteTable) : Conn Nat where
  DisableVgwRoutePropagation := fun _ s => (none, s)
  EnableVgwRoutePropagation := fun _ s => ((errs.get? s).join, s + 1)
  RouteTableByID := fun _ s => ((rt, none), s)
  DisassociateRouteTable := fun _ s => (none, s)
  DeleteRouteTable := fun _ s => (none, s)
  RouteTableDeleted := fun _ s => (none, s)
  Sleep := fun _ s => s

/-- A remote without state that answers the lookup with `lookup`, every
`DisassociateRouteTable` call with `disassociate`, the `DeleteRouteTable` call
with `delete` and the wait with `wait`. -/
def fixedConn (lookup : Option RouteTable × Option GoError)
    (disassociate delete wait : Option GoError) : Conn Unit where
  DisableVgwRoutePropagation := fun _ s => (none, s)
  EnableVgwRoutePropagation := fun _ s => (none, s)
  RouteTableByID := fun _ s => (lookup, s)
  DisassociateRouteTable := fun _ s => (disassociate, s)
  DeleteRouteTable := fun _ s => (delete, s)
  RouteTableDeleted := fun _ s => (wait, s)
  Sleep := fun _ s => s

end resource_aws_route_table

namespace resource_aws_route_table

/-- The enable loop for the gateway `id`, from its first iteration, run against
`conn` with a journal: the error left in `err`, the state of the remote and the
journal. -/
def enableRun {σ : Type} (conn : Conn σ) (d : ResourceData) (id : String) (s : σ) :
    Option GoError × σ × List Event :=
  enableLoop conn.recorded d id 5 none (s, [])

/-- The delete function run against `conn` with a journal: its result, the
state of the remote and the journal. -/
def deleteRun {σ : Type} (conn : Conn σ) (d : ResourceData) (s : σ) :
    Option (Option GoError) × σ × List Event :=
  resourceAwsRouteTableDelete conn.recorded d (s, [])

/-- What the log line of the delete loop reads for the element `a` of the
slice of associations, `*a.RouteTableAssociationId` (line 364): the identifier,
or `none` when `a` or the identifier in it is `nil`, where the read is a
run-time panic. -/
def loggedAssociationId (a : Option RouteTableAssociation) : Option String :=
  match a with
  | none => none
  | some a => a.RouteTableAssociationId

/-- The `EnableVgwRoutePropagation` calls of a journal, in order: the request
and the error returned for it. -/
def enableCalls : List Event → List (EnableVgwRoutePropagationInput × Option GoError)
  | [] => []
  | Event.EnableVgwRoutePropagation input err :: rest => (input, err) :: enableCalls rest
  | _ :: rest => enableCalls rest

/-- The remainder `rest` of the update function over a remote with a journal:
it leaves the journal as it is. -/
def liftRest {σ : Type} (rest : ResourceData → σ → Option GoError × ResourceData × σ)
    (d : ResourceData) (s : σ × List Event) :
    Option GoError × ResourceData × (σ × List Event) :=
  ((rest d s.1).1, (rest d s.1).2.1, ((rest d s.1).2.2, s.2))

/-- The calls that the runs of the enable loop make for a route table: for
every run, given by its gateway and by the errors that its calls returned, one
request per error, for that gateway. -/
def runCalls (routeTableId : String) (runs : List (String × List (Option GoError))) :
    List (EnableVgwRoutePropagationInput × Option GoError) :=
  runs.flatMap (fun run =>
    run.2.map (fun err =>
      ({ RouteTableId := some routeTableId, GatewayId := some run.1 }, err)))

/-- A route table resource whose configuration adds the gateway `vgw-1`. -/
def addsOneGateway : ResourceData :=
  { Id := "rtb-1"
    propagating_vgws_old := []
    propagating_vgws_new := ["vgw-1"]
    propagating_vgws := [] }

/-- A remainder of the update function that does nothing and succeeds. -/
def noRest {σ : Type} (d : ResourceData) (s : σ) : Option GoError × ResourceData × σ :=
  (none, d, s)

end resource_aws_route_table

/-! ## Diagnostics of the plugin SDK -/

namespace diag

/-- SDK type `diag.Severity`. -/
inductive Severity where
  | Error
  | Warning
  deriving DecidableEq, Repr

/-- SDK type `diag.Diagnostic`. -/
structure Diagnostic where
  Severity : Severity
  Summary : String
  Detail : String
  deriving DecidableEq, Repr

/-- SDK type `diag.Diagnostics`. -/
abbrev Diagnostics := List Diagnostic

/-- SDK method `Diagnostics.HasError`: some diagnostic is an error. -/
def Diagnostics.HasError (diags : Diagnostics) : Bool :=
  diags.any (fun x => decide (x.Severity = Severity.Error))

end diag

namespace sdkdiag

/-- Modelled from the spec: `sdkdiag.AppendErrorf` of package
`internal/errs/sdkdiag`, not among the sources: the diagnostics with one error
appended, whose summary is the formatted message `msg`. -/
def AppendErrorf (diags : diag.Diagnostics) (msg : String) : diag.Diagnostics :=
  diags ++ [{ Severity := diag.Severity.Error, Summary := msg, Detail := "" }]

end sdkdiag

/-! ## File `internal/service/batch/job_definition.go` -/

namespace batch

/-- SDK constant `batch.JobDefinitionTypeContainer`. -/
def JobDefinitionTypeContainer : String := "container"

/-- SDK constant `batch.JobDefinitionTypeMultinode`. -/
def JobDefinitionTypeMultinode : String := "multinode"

/-- SDK type `batch.KeyValuePair`. -/
structure KeyValuePair where
  Name : Option String
  Value : Option String
  deriving DecidableEq, Repr

/-- SDK type `batch.ContainerProperties`, with the field that the code reads. -/
structure ContainerProperties where
  Environment : List KeyValuePair
  deriving DecidableEq, Repr

/-- SDK type `batch.NodeRangeProperty`, with the field that the code reads; the
container is a pointer. -/
structure NodeRangeProperty where
  Container : Option ContainerProperties
  deriving DecidableEq, Repr

/-- SDK type `batch.NodeProperties`, with the field that the code reads. -/
structure NodeProperties where
  NodeRangeProperties : List NodeRangeProperty
  deriving DecidableEq, Repr

/-- SDK type `batch.RegisterJobDefinitionInput`; its field `Type` is `Type_` here.
The pod properties, the retry
strategy and the timeout are kept as the text that the expanding functions
return. -/
structure RegisterJobDefinitionInput where
  JobDefinitionName : Option String
  PropagateTags : Option Bool
  Tags : List (String × String)
  Type_ : Option String
  ContainerProperties : Option ContainerProperties
  EksProperties : Option String
  NodeProperties : Option NodeProperties
  Parameters : List (String × Option String)
  PlatformCapabilities : List (Option String)
  RetryStrategy : Option String
  Timeout : Option String
  SchedulingPriority : Option Int
  deriving DecidableEq, Repr

/-- One element of the list attribute `eks_properties`: its `pod_properties`, a
list of blocks, each kept as text. -/
structure EksPropertiesBlock where
  pod_properties : List String
  deriving DecidableEq, Repr

/-- The attributes of `*schema.ResourceData` that `resourceJobDefinitionCreate`
reads, and the identifier that it sets.  The blocks of `retry_strategy` and of
`timeout` are kept as text, `none` for a `nil` element. -/
structure ResourceData where
  Id : String
  name : String
  type : String
  propagate_tags : Bool
  node_properties : String
  container_properties : String
  eks_properties : List EksPropertiesBlock
  parameters : List (String × String)
  platform_capabilities : List String
  retry_strategy : List (Option String)
  timeout : List (Option String)
  scheduling_priority : Int
  deriving DecidableEq, Repr

/-- What `resourceJobDefinitionCreate` reaches outside itself, over a remote
state of type `σ`: the functions that decode the JSON documents and expand the
blocks, the tags of the context, the `RegisterJobDefinition` operation, which
returns the ARN of the output and an error, and the read function that ends the
creation. -/
structure Env (σ : Type) where
  expandJobContainerProperties : String → Option ContainerProperties × Option GoError
  expandJobNodeProperties : String → Option NodeProperties × Option GoError
  expandEksPodProperties : String → String × Option GoError
  expandRetryStrategy : String → String
  expandJobTimeout : String → String
  getTagsIn : List (String × String)
  RegisterJobDefinitionWithContext :
    RegisterJobDefinitionInput → σ → (Option String × Option GoError) × σ
  resourceJobDefinitionRead : ResourceData → σ → diag.Diagnostics × σ

/-- Go `%q` for a string without characters to escape: the string in double
quotes. -/
def quoted (s : String) : String :=
  "\"" ++ s ++ "\""

/-- `removeEmptyEnvironmentVariables`: one warning is appended for every
environment variable with an empty value. -/
def removeEmptyEnvironmentVariables (diags : diag.Diagnostics)
    (environment : List KeyValuePair) : diag.Diagnostics :=
  environment.foldl (fun acc env =>
    if aws.StringValue env.Value = "" then
      acc ++ [{ Severity := diag.Severity.Warning
                Summary := "Ignoring environment variable"
                Detail := "The environment variable " ++ quoted (aws.StringValue env.Name)
                  ++ " has an empty value, which is ignored by the Batch service" }]
    else acc) diags

/-- The loop `for _, node := range props.NodeRangeProperties` of
`resourceJobDefinitionCreate` (lines 510-512); `none` stands for the run-time
panic on a node without container. -/
def removeEmptyNodeEnvironmentVariables (diags : diag.Diagnostics) :
    List NodeRangeProperty → Option diag.Diagnostics
  | [] => some diags
  | node :: rest =>
    match node.Container with
    | none => none
    | some container =>
      removeEmptyNodeEnvironmentVariables
        (removeEmptyEnvironmentVariables diags container.Environment) rest

/-- The end of `resourceJobDefinitionCreate` (lines 517-545): the remaining
attributes are copied into the request, the job definition is registered, and
the resource is read back. -/
def registerAndRead {σ : Type} (env : Env σ) (d : ResourceData) (diags : diag.Diagnostics)
    (input : RegisterJobDefinitionInput) (s : σ) : diag.Diagnostics × ResourceData × σ :=
  let input :=
    if d.parameters ≠ [] then
      { input with Parameters := d.parameters.map (fun kv => (kv.1, aws.String kv.2)) }
    else input
  let input :=
    if d.platform_capabilities ≠ [] then
      { input with PlatformCapabilities := aws.StringSlice d.platform_capabilities }
    else input
  let input :=
    match d.retry_strategy with
    | some v :: _ => { input with RetryStrategy := some (env.expandRetryStrategy v) }
    | _ => input
  let input :=
    match d.timeout with
    | some v :: _ => { input with Timeout := some (env.expandJobTimeout v) }
    | _ => input
  let input :=
    if d.scheduling_priority ≠ 0 then
      { input with SchedulingPriority := some d.scheduling_priority }
    else input
  match env.RegisterJobDefinitionWithContext input s with
  | ((_, some err), s1) =>
    (sdkdiag.AppendErrorf diags
      ("creating Batch Job Definition (" ++ d.name ++ "): " ++ err.Error), d, s1)
  | ((arn, none), s1) =>
    let d1 := { d with Id := aws.StringValue arn }
    match env.resourceJobDefinitionRead d1 s1 with
    | (readDiags, s2) => (diags ++ readDiags, d1, s2)

/-- The part of `resourceJobDefinitionCreate` for `eks_properties` in a job
definition of type `container` (lines 480-493), followed by the end of the
function. -/
def expandEksAndRegister {σ : Type} (env : Env σ) (d : ResourceData) (diags : diag.Diagnostics)
    (input : RegisterJobDefinitionInput) (s : σ) : diag.Diagnostics × ResourceData × σ :=
  match d.eks_properties with
  | eksProps :: _ =>
    match eksProps.pod_properties with
    | podProps :: _ =>
      if aws.StringValue input.Type_ = JobDefinitionTypeContainer then
        match env.expandEksPodProperties podProps with
        | (_, some err) =>
          (sdkdiag.AppendErrorf diags
            ("creating Batch Job Definition (" ++ d.name ++ "): " ++ err.Error), d, s)
        | (props, none) =>
          registerAndRead env d diags { input with EksProperties := some props } s
      else registerAndRead env d diags input s
    | [] => registerAndRead env d diags input s
  | [] => registerAndRead env d diags input s

/-- `resourceJobDefinitionCreate` (lines 451-546).  `d.GetOk` holds of an
attribute that has a non-zero value: a non-empty string, a non-empty list.  The
two tests of the type are exclusive, since the two type names differ, and are
written as one chain here.  The result is `none` for a run-time panic (the nil
dereference of decoded properties that are `null`). -/
def resourceJobDefinitionCreate {σ : Type} (env : Env σ) (d : ResourceData) (s : σ) :
    Option (diag.Diagnostics × ResourceData × σ) :=
  let diags : diag.Diagnostics := []
  let name := d.name
  let jobDefinitionType := d.type
  let input : RegisterJobDefinitionInput :=
    { JobDefinitionName := aws.String name
      PropagateTags := some d.propagate_tags
      Tags := env.getTagsIn
      Type_ := aws.String jobDefinitionType
      ContainerProperties := none
      EksProperties := none
      NodeProperties := none
      Parameters := []
      PlatformCapabilities := []
      RetryStrategy := none
      Timeout := none
      SchedulingPriority := none }
  if jobDefinitionType = JobDefinitionTypeContainer then
    if d.node_properties ≠ "" then
      some (sdkdiag.AppendErrorf diags
        ("No `node_properties` can be specified when `type` is " ++ quoted jobDefinitionType),
        d, s)
    else if d.container_properties ≠ "" then
      match env.expandJobContainerProperties d.container_properties with
      | (_, some err) =>
        some (sdkdiag.AppendErrorf diags
          ("creating Batch Job Definition (" ++ name ++ "): " ++ err.Error), d, s)
      | (none, none) =>
        if aws.StringValue input.Type_ = JobDefinitionTypeContainer then none
        else some (expandEksAndRegister env d diags input s)
      | (some props, none) =>
        if aws.StringValue input.Type_ = JobDefinitionTypeContainer then
          some (expandEksAndRegister env d
            (removeEmptyEnvironmentVariables diags props.Environment)
            { input with ContainerProperties := some props } s)
        else some (expandEksAndRegister env d diags input s)
    else some (expandEksAndRegister env d diags input s)
  else if jobDefinitionType = JobDefinitionTypeMultinode then
    if d.container_properties ≠ "" then
      some (sdkdiag.AppendErrorf diags
        ("No `container_properties` can be specified when `type` is "
          ++ quoted jobDefinitionType), d, s)
    else if d.eks_properties ≠ [] then
      some (sdkdiag.AppendErrorf diags
        ("No `eks_properties` can be specified when `type` is " ++ quoted jobDefinitionType),
        d, s)
    else if d.node_properties ≠ "" then
      match env.expandJobNodeProperties d.node_properties with
      | (_, some err) =>
        some (sdkdiag.AppendErrorf diags
          ("creating Batch Job Definition (" ++ name ++ "): " ++ err.Error), d, s)
      | (none, none) => none
      | (some props, none) =>
        match removeEmptyNodeEnvironmentVariables diags props.NodeRangeProperties with
        | none => none
        | some diags =>
          some (registerAndRead env d diags { input with NodeProperties := some props } s)
    else some (registerAndRead env d diags input s)
  else some (registerAndRead env d diags input s)

/-- The environment `env` with a journal: every `RegisterJobDefinition` request
is appended to the journal before `env` serves it. -/
def Env.recorded {σ : Type} (env : Env σ) : Env (σ × List RegisterJobDefinitionInput) where
  expandJobContainerProperties := env.expandJobContainerProperties
  expandJobNodeProperties := env.expandJobNodeProperties
  expandEksPodProperties := env.expandEksPodProperties
  expandRetryStrategy := env.expandRetryStrategy
  expandJobTimeout := env.expandJobTimeout
  getTagsIn := env.getTagsIn
  RegisterJobDefinitionWithContext := fun input s =>
    ((env.RegisterJobDefinitionWithContext input s.1).1,
      ((env.RegisterJobDefinitionWithContext input s.1).2, s.2 ++ [input]))
  resourceJobDefinitionRead := fun d s =>
    ((env.resourceJobDefinitionRead d s.1).1, ((env.resourceJobDefinitionRead d s.1).2, s.2))

/-- An environment without state whose decoding functions return empty
properties and whose registration succeeds with the ARN `arn`. -/
def plainEnv : Env Unit where
  expandJobContainerProperties := fun _ => (some { Environment := [] }, none)
  expandJobNodeProperties := fun _ => (some { NodeRangeProperties := [] }, none)
  expandEksPodProperties := fun raw => (raw, none)
  expandRetryStrategy := fun raw => raw
  expandJobTimeout := fun raw => raw
  getTagsIn := []
  RegisterJobDefinitionWithContext := fun _ s => ((some "arn", none), s)
  resourceJobDefinitionRead := fun _ s => ([], s)

/-- A job definition resource of the given type with the given properties and
nothing else. -/
def jobDefinition (type node_properties container_properties : String)
    (eks_properties : List EksPropertiesBlock) : ResourceData :=
  { Id := ""
    name := "job"
    type := type
    propagate_tags := false
    node_properties := node_properties
    container_properties := container_properties
    eks_properties := eks_properties
    parameters := []
    platform_capabilities := []
    retry_strategy := []
    timeout := []
    scheduling_priority := 0 }

end batch

/-! ## File `internal/service/iam/role.go` -/

namespace iam

/-- Framework type `types.String` (also the custom string types `fwtypes.ARN`
and `fwtypes.IAMPolicy`): null, unknown, or a known value. -/
inductive FwString where
  | null
  | unknown
  | value (s : String)
  deriving DecidableEq, Repr

/-- Method `ValueString`: the known value, or the empty string. -/
def FwString.ValueString : FwString → String
  | FwString.value s => s
  | _ => ""

/-- Method `IsNull`. -/
def FwString.IsNull : FwString → Bool
  | FwString.null => true
  | _ => false

/-- Method `Equal`: same state and same value. -/
def FwString.Equal (a b : FwString) : Bool :=
  decide (a = b)

/-- Method `String`: the value in double quotes, or a marker for null and
unknown. -/
def FwString.String : FwString → String
  | FwString.value s => "\"" ++ s ++ "\""
  | FwString.null => "<null>"
  | FwString.unknown => "<unknown>"

/-- Framework type `types.Int64`. -/
inductive FwInt64 where
  | null
  | unknown
  | value (i : Int)
  deriving DecidableEq, Repr

/-- Method `ValueInt64`: the known value, or zero. -/
def FwInt64.ValueInt64 : FwInt64 → Int
  | FwInt64.value i => i
  | _ => 0

/-- Method `Equal`: same state and same value. -/
def FwInt64.Equal (a b : FwInt64) : Bool :=
  decide (a = b)

/-- Framework type `types.Bool`. -/
inductive FwBool where
  | null
  | unknown
  | value (b : Bool)
  deriving DecidableEq, Repr

/-- Framework type `types.Map` with string elements. -/
inductive FwMap where
  | null
  | unknown
  | value (elements : List (String × String))
  deriving DecidableEq, Repr

/-- Method `Equal`: same state and same elements. -/
def FwMap.Equal (a b : FwMap) : Bool :=
  decide (a = b)

/-- The type `resourceIamRoleData`. -/
structure resourceIamRoleData where
  ARN : FwString
  AssumeRolePolicy : FwString
  CreateDate : FwString
  ID : FwString
  Description : FwString
  ForceDetachPolicies : FwBool
  MaxSessionDuration : FwInt64
  Name : FwString
  NamePrefix : FwString
  Path : FwString
  PermissionsBoundary : FwString
  Tags : FwMap
  TagsAll : FwMap
  InlinePolicies : FwMap
  deriving DecidableEq, Repr

/-- SDK type `iam.UpdateAssumeRolePolicyInput`. -/
structure UpdateAssumeRolePolicyInput where
  RoleName : Option String
  PolicyDocument : Option String
  deriving DecidableEq, Repr

/-- SDK type `iam.UpdateRoleDescriptionInput`. -/
structure UpdateRoleDescriptionInput where
  RoleName : Option String
  Description : Option String
  deriving DecidableEq, Repr

/-- SDK type `iam.UpdateRoleInput`. -/
structure UpdateRoleInput where
  RoleName : Option String
  MaxSessionDuration : Option Int
  deriving DecidableEq, Repr

/-- SDK type `iam.PutRolePermissionsBoundaryInput`. -/
structure PutRolePermissionsBoundaryInput where
  PermissionsBoundary : Option String
  RoleName : Option String
  deriving DecidableEq, Repr

/-- SDK type `iam.DeleteRolePermissionsBoundaryInput`. -/
structure DeleteRolePermissionsBoundaryInput where
  RoleName : Option String
  deriving DecidableEq, Repr

/-- What `resourceIamRole.Update` reaches outside itself, over a remote state of
type `σ`.  `UpdateAssumeRolePolicy` stands for the call made through
`tfresource.RetryWhen`, with the error that `RetryWhen` returns in the end.
`roleUpdateTags`, `errs.IsUnsupportedOperationInPartitionError` (for the
partition of the connection), `create.ProblemStandardMessage` (for its three
last arguments), `create.NamePrefixFromName`, `structure.NormalizeJsonString`
and `resp.State.Set` are not among the sources and are left open. -/
structure Env (σ : Type) where
  NormalizeJsonString : String → String × Option GoError
  UpdateAssumeRolePolicy : UpdateAssumeRolePolicyInput → σ → Option GoError × σ
  UpdateRoleDescription : UpdateRoleDescriptionInput → σ → Option GoError × σ
  UpdateRole : UpdateRoleInput → σ → Option GoError × σ
  PutRolePermissionsBoundary : PutRolePermissionsBoundaryInput → σ → Option GoError × σ
  DeleteRolePermissionsBoundary : DeleteRolePermissionsBoundaryInput → σ → Option GoError × σ
  roleUpdateTags : String → FwMap → FwMap → σ → Option GoError × σ
  IsUnsupportedOperationInPartitionError : Option GoError → Bool
  ProblemStandardMessage : String → String → GoError → String
  NamePrefixFromName : String → Option String
  StateSet : resourceIamRoleData → diag.Diagnostics

/-- Framework type `resource.UpdateRequest`: the plan and the prior state as
`req.Plan.Get` and `req.State.Get` decode them, each with the diagnostics of
its decoding. -/
structure UpdateRequest where
  Plan : resourceIamRoleData
  PlanDiagnostics : diag.Diagnostics
  State : resourceIamRoleData
  StateDiagnostics : diag.Diagnostics
  deriving DecidableEq, Repr

/-- Framework type `resource.UpdateResponse`: the diagnostics, and the state
written with `resp.State.Set`, `none` when `Update` wrote none. -/
structure UpdateResponse where
  Diagnostics : diag.Diagnostics
  State : Option resourceIamRoleData
  deriving DecidableEq, Repr

/-- Framework method `Diagnostics.AddError`. -/
def AddError (diags : diag.Diagnostics) (summary detail : String) : diag.Diagnostics :=
  diags ++ [{ Severity := diag.Severity.Error, Summary := summary, Detail := detail }]

/-- `flex.StringToFramework`: null for a `nil` pointer. -/
def StringToFramework : Option String → FwString
  | none => FwString.null
  | some s => FwString.value s

/-- The end of `Update` (lines 658-662): the name prefix is set in the plan and
the plan is written as the new state. -/
def updateFinish {σ : Type} (env : Env σ) (plan : resourceIamRoleData)
    (diags : diag.Diagnostics) (s : σ) : UpdateResponse × σ :=
  let plan := { plan with
    NamePrefix := StringToFramework (env.NamePrefixFromName plan.Name.ValueString) }
  ({ Diagnostics := diags ++ env.StateSet plan, State := some plan }, s)

/-- The tags step of `Update` (lines 633-656), followed by the end. -/
def updateTagsStep {σ : Type} (env : Env σ) (plan state : resourceIamRoleData)
    (diags : diag.Diagnostics) (s : σ) : UpdateResponse × σ :=
  if !plan.TagsAll.Equal state.TagsAll then
    match env.roleUpdateTags plan.ID.ValueString state.TagsAll plan.TagsAll s with
    | (err, s1) =>
      if env.IsUnsupportedOperationInPartitionError err then
        ({ Diagnostics := diags, State := none }, s1)
      else if err ≠ none then
        ({ Diagnostics := diags, State := none }, s1)
      else updateFinish env plan diags s1
  else updateFinish env plan diags s

/-- The permissions boundary step of `Update` (lines 602-631), followed by the
later steps. -/
def updatePermissionsBoundaryStep {σ : Type} (env : Env σ) (plan state : resourceIamRoleData)
    (diags : diag.Diagnostics) (s : σ) : UpdateResponse × σ :=
  if !plan.PermissionsBoundary.Equal state.PermissionsBoundary then
    if !plan.PermissionsBoundary.IsNull then
      match env.PutRolePermissionsBoundary
        { PermissionsBoundary := aws.String plan.PermissionsBoundary.ValueString
          RoleName := aws.String state.ID.ValueString } s with
      | (some _, s1) => ({ Diagnostics := diags, State := none }, s1)
      | (none, s1) =>
        updateTagsStep env plan
          { state with PermissionsBoundary := plan.PermissionsBoundary } diags s1
    else
      match env.DeleteRolePermissionsBoundary
        { RoleName := aws.String state.ID.ValueString } s with
      | (some _, s1) => ({ Diagnostics := diags, State := none }, s1)
      | (none, s1) =>
        updateTagsStep env plan
          { state with PermissionsBoundary := plan.PermissionsBoundary } diags s1
  else updateTagsStep env plan state diags s

/-- The session duration step of `Update` (lines 585-600), followed by the later
steps. -/
def updateMaxSessionDurationStep {σ : Type} (env : Env σ) (plan state : resourceIamRoleData)
    (diags : diag.Diagnostics) (s : σ) : UpdateResponse × σ :=
  if !plan.MaxSessionDuration.Equal state.MaxSessionDuration then
    match env.UpdateRole
      { RoleName := aws.String state.ID.ValueString
        MaxSessionDuration := some plan.MaxSessionDuration.ValueInt64 } s with
    | (some _, s1) => ({ Diagnostics := diags, State := none }, s1)
    | (none, s1) =>
      updatePermissionsBoundaryStep env plan
        { state with MaxSessionDuration := plan.MaxSessionDuration } diags s1
  else updatePermissionsBoundaryStep env plan state diags s

/-- The description step of `Update` (lines 563-583), followed by the later
steps. -/
def updateDescriptionStep {σ : Type} (env : Env σ) (plan state : resourceIamRoleData)
    (diags : diag.Diagnostics) (s : σ) : UpdateResponse × σ :=
  if !plan.Description.Equal state.Description then
    match env.UpdateRoleDescription
      { RoleName := aws.String state.ID.ValueString
        Description := aws.String plan.Description.ValueString } s with
    | (some err, s1) =>
      ({ Diagnostics := AddError diags
            (env.ProblemStandardMessage state.ID.String plan.Description.String err) err.Error
         State := none }, s1)
    | (none, s1) =>
      updateMaxSessionDurationStep env plan
        { state with Description := plan.Description } diags s1
  else updateMaxSessionDurationStep env plan state diags s

/-- The method `resourceIamRole.Update` (lines 519-663).  The lines printed to
the standard output are left out. -/
def Update {σ : Type} (env : Env σ) (req : UpdateRequest) (s : σ) : UpdateResponse × σ :=
  let plan := req.Plan
  let state := req.State
  let diags : diag.Diagnostics := [] ++ req.PlanDiagnostics ++ req.StateDiagnostics
  if diags.HasError then ({ Diagnostics := diags, State := none }, s)
  else if !plan.AssumeRolePolicy.Equal state.AssumeRolePolicy then
    match env.NormalizeJsonString plan.AssumeRolePolicy.ValueString with
    | (_, some _) => ({ Diagnostics := diags, State := none }, s)
    | (assumeRolePolicy, none) =>
      match env.UpdateAssumeRolePolicy
        { RoleName := aws.String state.ID.ValueString
          PolicyDocument := aws.String assumeRolePolicy } s with
      | (some _, s1) => ({ Diagnostics := diags, State := none }, s1)
      | (none, s1) => updateDescriptionStep env plan state diags s1
  else updateDescriptionStep env plan state diags s

/-- One request of `Update` with the error returned for it. -/
inductive Event where
  | UpdateAssumeRolePolicy (input : UpdateAssumeRolePolicyInput) (err : Option GoError)
  | UpdateRoleDescription (input : UpdateRoleDescriptionInput) (err : Option GoError)
  | UpdateRole (input : UpdateRoleInput) (err : Option GoError)
  | PutRolePermissionsBoundary (input : PutRolePermissionsBoundaryInput) (err : Option GoError)
  | DeleteRolePermissionsBoundary (input : DeleteRolePermissionsBoundaryInput)
      (err : Option GoError)
  | roleUpdateTags (identifier : String) (oldTags newTags : FwMap) (err : Option GoError)
  deriving DecidableEq, Repr

/-- The environment `env` with a journal: every request is served by `env` and
appended to the journal together with the error returned for it. -/
def Env.recorded {σ : Type} (env : Env σ) : Env (σ × List Event) where
  NormalizeJsonString := env.NormalizeJsonString
  UpdateAssumeRolePolicy := fun input s =>
    ((env.UpdateAssumeRolePolicy input s.1).1,
      ((env.UpdateAssumeRolePolicy input s.1).2,
        s.2 ++ [Event.UpdateAssumeRolePolicy input (env.UpdateAssumeRolePolicy input s.1).1]))
  UpdateRoleDescription := fun input s =>
    ((env.UpdateRoleDescription input s.1).1,
      ((env.UpdateRoleDescription input s.1).2,
        s.2 ++ [Event.UpdateRoleDescription input (env.UpdateRoleDescription input s.1).1]))
  UpdateRole := fun input s =>
    ((env.UpdateRole input s.1).1,
      ((env.UpdateRole input s.1).2, s.2 ++ [Event.UpdateRole input (env.UpdateRole input s.1).1]))
  PutRolePermissionsBoundary := fun input s =>
    ((env.PutRolePermissionsBoundary input s.1).1,
      ((env.PutRolePermissionsBoundary input s.1).2,
        s.2 ++ [Event.PutRolePermissionsBoundary input
          (env.PutRolePermissionsBoundary input s.1).1]))
  DeleteRolePermissionsBoundary := fun input s =>
    ((env.DeleteRolePermissionsBoundary input s.1).1,
      ((env.DeleteRolePermissionsBoundary input s.1).2,
        s.2 ++ [Event.DeleteRolePermissionsBoundary input
          (env.DeleteRolePermissionsBoundary input s.1).1]))
  roleUpdateTags := fun identifier oldTags newTags s =>
    ((env.roleUpdateTags identifier oldTags newTags s.1).1,
      ((env.roleUpdateTags identifier oldTags newTags s.1).2,
        s.2 ++ [Event.roleUpdateTags identifier oldTags newTags
          (env.roleUpdateTags identifier oldTags newTags s.1).1]))
  IsUnsupportedOperationInPartitionError := env.IsUnsupportedOperationInPartitionError
  ProblemStandardMessage := env.ProblemStandardMessage
  NamePrefixFromName := env.NamePrefixFromName
  StateSet := env.StateSet

/-- An environment without state in which every remote call fails with the
error `boom`, every JSON document is valid, and no error is one of an
unsupported operation. -/
def failingEnv : Env Unit where
  NormalizeJsonString := fun doc => (doc, none)
  UpdateAssumeRolePolicy := fun _ s => (some (GoError.errorString "boom"), s)
  UpdateRoleDescription := fun _ s => (some (GoError.errorString "boom"), s)
  UpdateRole := fun _ s => (some (GoError.errorString "boom"), s)
  PutRolePermissionsBoundary := fun _ s => (some (GoError.errorString "boom"), s)
  DeleteRolePermissionsBoundary := fun _ s => (some (GoError.errorString "boom"), s)
  roleUpdateTags := fun _ _ _ s => (some (GoError.errorString "boom"), s)
  IsUnsupportedOperationInPartitionError := fun _ => false
  ProblemStandardMessage := fun id value err =>
    "unexpected error reading IAM " ++ id ++ " (" ++ value ++ "): " ++ err.Error
  NamePrefixFromName := fun _ => none
  StateSet := fun _ => []

/-- The prior state of a role named `role`. -/
def priorRole : resourceIamRoleData :=
  { ARN := FwString.value "arn:aws:iam::123456789012:role/role"
    AssumeRolePolicy := FwString.value "policy"
    CreateDate := FwString.value "2024-01-01T00:00:00Z"
    ID := FwString.value "role"
    Description := FwString.value "old"
    ForceDetachPolicies := FwBool.value false
    MaxSessionDuration := FwInt64.value 3600
    Name := FwString.value "role"
    NamePrefix := FwString.null
    Path := FwString.value "/"
    PermissionsBoundary := FwString.value "arn:aws:iam::123456789012:policy/old"
    Tags := FwMap.null
    TagsAll := FwMap.value []
    InlinePolicies := FwMap.null }

/-- The update request with the prior state `priorRole` and the plan `plan`,
both decoded without diagnostics. -/
def requestFor (plan : resourceIamRoleData) : UpdateRequest :=
  { Plan := plan, PlanDiagnostics := [], State := priorRole, StateDiagnostics := [] }

end iam

/-! ## More of the Go package `strings` -/

namespace strings

/-- The pieces of a list of characters between the occurrences of the non-empty
separator `sep`, found from left to right; `skip` is the number of characters
still to pass over at the front because they belong to a separator already
found. -/
def splitChars (sep : List Char) : List Char → Nat → List (List Char)
  | [], _ => [[]]
  | _ :: cs, skip + 1 => splitChars sep cs skip
  | c :: cs, 0 =>
    if sep.isPrefixOf (c :: cs) then
      [] :: splitChars sep cs (sep.length - 1)
    else
      match splitChars sep cs 0 with
      | piece :: pieces => (c :: piece) :: pieces
      | [] => [[c]]

/-- Go `strings.Split(s, sep)`: the substrings of `s` between the occurrences of
`sep`; with an empty `sep`, the characters of `s`. -/
def Split (s sep : String) : List String :=
  if sep.data = [] then s.data.map (fun c => String.mk [c])
  else (splitChars sep.data s.data 0).map String.mk

/-- The position of the last occurrence of `sep` in a list of characters. -/
def lastIndexChars (sep : List Char) : List Char → Option Nat
  | [] => if sep = [] then some 0 else none
  | c :: cs =>
    match lastIndexChars sep cs with
    | some i => some (i + 1)
    | none => if sep.isPrefixOf (c :: cs) then some 0 else none

/-- Go `strings.LastIndex(s, substr)`: the position of the last occurrence of
`substr` in `s`, or -1.  Positions count characters here; the slices below are
taken with the same count. -/
def LastIndex (s substr : String) : Int :=
  match lastIndexChars substr.data s.data with
  | some i => (i : Int)
  | none => -1

/-- Go slice `s[:i]`. -/
def sliceTo (s : String) (i : Int) : String :=
  String.mk (s.data.take i.toNat)

/-- Go slice `s[i:]`. -/
def sliceFrom (s : String) (i : Int) : String :=
  String.mk (s.data.drop i.toNat)

end strings

/-! ## Package `aws/internal/service/cloudwatchevents` -/

namespace tfevents

/-- Modelled from the spec: the constant `DefaultEventBusName` of file `id.go`
of the package, not among the sources; the test expects the bus `default` for
an identifier of one part. -/
def DefaultEventBusName : String := "default"

/-- Modelled from the spec: the constant `ruleIDSeparator` of file `id.go`, not
among the sources: the test identifiers join the bus and the rule with `/`. -/
def ruleIDSeparator : String := "/"

/-- A character allowed in a part of a partner event bus name: a letter, a
digit, `.`, `-` or `_`. -/
def busNameChar (c : Char) : Bool :=
  c.isAlphanum || c == '.' || c == '-' || c == '_'

/-- Modelled from the spec: `partnerEventBusPattern.MatchString` of file
`id.go`, not among the sources.  The test accepts the bus
`aws.partner/example.com/Test` and rejects `abc.partner/TestEventBus/TestRule`
and `test/aws.partner/example.com/Test`: the name is `aws.partner` followed by
two or more parts, each a `/` and one or more allowed characters. -/
def partnerEventBusPattern.MatchString (s : String) : Bool :=
  match strings.Split s "/" with
  | first :: parts =>
    first == "aws.partner" && decide (2 ≤ parts.length) &&
      parts.all (fun part => !part.data.isEmpty && part.data.all busNameChar)
  | [] => false

/-- Modelled from the spec: `RuleParseID` of file `id.go`, not among the
sources, after the cases of `TestRuleParseID`: an identifier of one non-empty
part is a rule on the default bus; an identifier of two non-empty parts is a
bus and a rule; an identifier of more parts is cut at its last `/` and is
accepted when the front is a partner event bus name and the rule is not empty;
every other identifier is an error, returned with two empty strings. -/
def RuleParseID (id : String) : String × String × Option GoError :=
  let parts := strings.Split id ruleIDSeparator
  if parts.length = 1 ∧ parts.getD 0 "" ≠ "" then
    (DefaultEventBusName, parts.getD 0 "", none)
  else if parts.length = 2 ∧ parts.getD 0 "" ≠ "" ∧ parts.getD 1 "" ≠ "" then
    (parts.getD 0 "", parts.getD 1 "", none)
  else
    let failure : String × String × Option GoError :=
      ("", "", some (GoError.errorString
        ("unexpected format for ID (\"" ++ id ++ "\"), expected <event-bus-name>"
          ++ ruleIDSeparator ++ "<rule-name> or <rule-name>")))
    if 2 < parts.length then
      let i := strings.LastIndex id ruleIDSeparator
      let busName := strings.sliceTo id i
      let statementID := strings.sliceFrom id (i + 1)
      if partnerEventBusPattern.MatchString busName = true ∧ statementID ≠ "" then
        (busName, statementID, none)
      else failure
    else failure

end tfevents

/-! ## File `internal/service/iam/encryption.go` -/

namespace iam

/-- What `retrieveGPGKey` reaches outside itself, over a remote state of type
`σ`: `pgpkeys.FetchKeybasePubkeys`, which returns a map from the requested
names to keys, `http.Get`, which returns the body of the response,
`openpgp.ReadArmoredKeyRing`, the serialisation of an entity and the base64
encoding.  Bodies, entities and buffers are kept as text. -/
structure KeyEnv (σ : Type) where
  FetchKeybasePubkeys : List String → σ → (List (String × String) × Option GoError) × σ
  httpGet : String → σ → (String × Option GoError) × σ
  ReadArmoredKeyRing : String → List String × Option GoError
  Serialize : String → String × Option GoError
  EncodeToString : String → String

/-- The function `retrieveGPGKey`: the returned key and error, and the state of
the remote afterwards. -/
def retrieveGPGKey {σ : Type} (env : KeyEnv σ) (pgpKey : String) (s : σ) :
    (String × Option GoError) × σ :=
  let keybasePrefix := "keybase:"
  let githubPrefix := "github:"
  if strings.HasPrefix pgpKey keybasePrefix then
    match env.FetchKeybasePubkeys [pgpKey] s with
    | ((_, some err), s1) =>
      (("", some (fmt.Errorf "retrieving Unarmored (Raw) Public Key from Keybase" pgpKey err)),
        s1)
    | ((publicKeys, none), s1) =>
      (((tftags.lookupEntry pgpKey publicKeys).getD "", none), s1)
  else if strings.HasPrefix pgpKey githubPrefix then
    let stringComponents := strings.Split pgpKey ":"
    if stringComponents.length ≠ 2 then
      (("", some (GoError.errorString
        ("invalid GPG key format for Github, received=" ++ "\x27" ++ pgpKey ++ "\x27"
          ++ ", expected=" ++ "\x27" ++ "github:$username" ++ "\x27"))), s)
    else
      let url := "https://github.com/" ++ stringComponents.getD 1 "" ++ ".gpg"
      match env.httpGet url s with
      | ((_, some err), s1) =>
        (("", some (fmt.Errorf "retrieving Armored (ASCII) Public Key from Github" pgpKey err)),
          s1)
      | ((body, none), s1) =>
        match env.ReadArmoredKeyRing body with
        | (_, some err) =>
          (("", some (GoError.wrapError ("error reading keyring: " ++ err.Error) err)), s1)
        | (keyring, none) =>
          match keyring with
          | [] => (("", some (GoError.errorString "no key found in keyring")), s1)
          | first :: _ =>
            match env.Serialize first with
            | (_, some err) =>
              (("", some (GoError.wrapError
                ("serialize first GitHub GPG Key from keyring: " ++ err.Error) err)), s1)
            | (buf, none) => ((env.EncodeToString buf, none), s1)
  else ((pgpKey, none), s)

/-- One query that `retrieveGPGKey` sends to a remote service. -/
inductive KeyEvent where
  | FetchKeybasePubkeys (names : List String)
  | httpGet (url : String)
  deriving DecidableEq, Repr

/-- The environment `env` with a journal: every query is appended to the
journal before `env` serves it. -/
def KeyEnv.recorded {σ : Type} (env : KeyEnv σ) : KeyEnv (σ × List KeyEvent) where
  FetchKeybasePubkeys := fun users s =>
    ((env.FetchKeybasePubkeys users s.1).1,
      ((env.FetchKeybasePubkeys users s.1).2, s.2 ++ [KeyEvent.FetchKeybasePubkeys users]))
  httpGet := fun url s =>
    ((env.httpGet url s.1).1, ((env.httpGet url s.1).2, s.2 ++ [KeyEvent.httpGet url]))
  ReadArmoredKeyRing := env.ReadArmoredKeyRing
  Serialize := env.Serialize
  EncodeToString := env.EncodeToString

/-- An environment without state in which Keybase knows no key, GitHub serves
the text `armored`, a key ring holds its text as its one entity, and
serialisation and encoding change nothing. -/
def plainKeyEnv : KeyEnv Unit where
  FetchKeybasePubkeys := fun _ s => (([], none), s)
  httpGet := fun _ s => (("armored", none), s)
  ReadArmoredKeyRing := fun body => ([body], none)
  Serialize := fun entity => (entity, none)
  EncodeToString := fun buf => buf

end iam

namespace tfevents

/-- The result of `RuleParseID` is a failure: an error, returned with the empty
string for both parts. -/
def Failed (r : String × String × Option GoError) : Prop :=
  r.1 = "" ∧ r.2.1 = "" ∧ r.2.2 ≠ none

end tfevents

/-! ## Tag lists and tag sets -/

namespace tftags

/-- Go `m[k] = v` on a map: the binding of `k` is replaced, or added. -/
def KeyValueTags.set (tags : KeyValueTags) (k v : String) : KeyValueTags :=
  ⟨tags.entries.filter (fun kv => !(kv.1 == k)) ++ [(k, v)], by
    rw [List.map_append, List.nodup_append]
    refine ⟨tags.nodup.sublist ((List.filter_sublist tags.entries).map Prod.fst),
      List.nodup_singleton k, ?_⟩
    intro a ha hb
    simp only [List.map_cons, List.map_nil, List.mem_singleton] at hb
    subst hb
    simp at ha⟩

end tftags

namespace elasticsearch

/-- `KeyValueTags creates tftags.KeyValueTags from elasticsearchservice service
tags.`  A `nil` value becomes the empty string, which is what the tag set shows
for it through `Map`. -/
protected def KeyValueTags (tags : List Tag) : tftags.KeyValueTags :=
  tftags.New
    (tags.foldl (fun m tag => m.set (aws.StringValue tag.Key) (aws.StringValue tag.Value))
      tftags.KeyValueTags.empty)

end elasticsearch

/-! ## `flattenRoutes` of file `aws/resource_aws_route_table.go` -/

namespace resource_aws_route_table

/-- SDK type `ec2.Route`, with the fields that `flattenRoutes` reads. -/
structure Route where
  Origin : Option String
  DestinationPrefixListId : Option String
  DestinationCidrBlock : Option String
  DestinationIpv6CidrBlock : Option String
  EgressOnlyInternetGatewayId : Option String
  GatewayId : Option String
  InstanceId : Option String
  NatGatewayId : Option String
  NetworkInterfaceId : Option String
  TransitGatewayId : Option String
  VpcPeeringConnectionId : Option String
  deriving DecidableEq, Repr

/-- SDK constant `ec2.RouteOriginCreateRoute`. -/
def RouteOriginCreateRoute : String := "CreateRoute"

/-- The map `mRoute` that `flattenRoutes` builds for a route (lines 664-674), as
the list of its entries. -/
def mRoute (route : Route) : List (String × String) :=
  [("cidr_block", aws.StringValue route.DestinationCidrBlock),
   ("ipv6_cidr_block", aws.StringValue route.DestinationIpv6CidrBlock),
   ("egress_only_gateway_id", aws.StringValue route.EgressOnlyInternetGatewayId),
   ("gateway_id", aws.StringValue route.GatewayId),
   ("instance_id", aws.StringValue route.InstanceId),
   ("nat_gateway_id", aws.StringValue route.NatGatewayId),
   ("network_interface_id", aws.StringValue route.NetworkInterfaceId),
   ("transit_gateway_id", aws.StringValue route.TransitGatewayId),
   ("vpc_peering_connection_id", aws.StringValue route.VpcPeeringConnectionId)]

/-- The loop `for _, route := range routes` of `flattenRoutes` (lines 653-677),
with `vRoutes` the slice built so far. -/
def flattenRoutesLoop : List Route → List (List (String × String)) →
    List (List (String × String))
  | [], vRoutes => vRoutes
  | route :: routes, vRoutes =>
    if aws.StringValue route.Origin ≠ RouteOriginCreateRoute then
      flattenRoutesLoop routes vRoutes
    else if strings.HasPrefix (aws.StringValue route.DestinationPrefixListId) "vpce-" then
      flattenRoutesLoop routes vRoutes
    else
      flattenRoutesLoop routes (vRoutes ++ [mRoute route])

/-- The function `flattenRoutes`; a `nil` slice is `none`, and the elements of
the slice are pointers to routes, none of them `nil`. -/
def flattenRoutes (routes : Option (List Route)) : List (List (String × String)) :=
  match routes with
  | none => []
  | some routes => flattenRoutesLoop routes []

/-- A route that `flattenRoutes` keeps: it was created with `CreateRoute` and
its destination is not the prefix list of a VPC endpoint. -/
def keptRoute (route : Route) : Bool :=
  decide (aws.StringValue route.Origin = "CreateRoute") &&
    !strings.HasPrefix (aws.StringValue route.DestinationPrefixListId) "vpce-"

end resource_aws_route_table

/-! ## File `internal/vault/helper/pgpkeys/github.go` -/

namespace pgpkeys

/-- What `FetchLatestGitHubPublicKey` reaches outside itself, over a remote
state of type `σ`: the GET request of the HTTP client, which returns the body of
the response, `io.ReadAll`, `openpgp.ReadArmoredKeyRing`, the serialisation of
an entity and the base64 encoding.  Bodies, entities and buffers are kept as
text. -/
structure Env (σ : Type) where
  Get : String → σ → (String × Option GoError) × σ
  ReadAll : String → String × Option GoError
  ReadArmoredKeyRing : String → List String × Option GoError
  Serialize : String → String × Option GoError
  EncodeToString : String → String

/-- The function `FetchLatestGitHubPublicKey`: the returned key and error, and
the state of the remote afterwards. -/
def FetchLatestGitHubPublicKey {σ : Type} (env : Env σ) (pgpKey : String) (s : σ) :
    (String × Option GoError) × σ :=
  let stringComponents := strings.Split pgpKey ":"
  if stringComponents.length ≠ 2 then
    (("", some (GoError.errorString
      ("invalid GPG key format for Github, received=" ++ "\x27" ++ pgpKey ++ "\x27"
        ++ ", expected=" ++ "\x27" ++ "github:$username" ++ "\x27"))), s)
  else
    let username := stringComponents.getD 1 ""
    let url := "https://github.com/" ++ username ++ ".gpg"
    match env.Get url s with
    | ((_, some err), s1) =>
      (("", some (fmt.Errorf "retrieving Public Key from Github" pgpKey err)), s1)
    | ((body, none), s1) =>
      match env.ReadAll body with
      | (_, some _) =>
        (("", some (GoError.errorString
          "failed to read response body containing GPG Public Key from GitHub")), s1)
      | (bodyString, none) =>
        match env.ReadArmoredKeyRing bodyString with
        | (_, some err) =>
          (("", some (GoError.wrapError ("error reading keyring: " ++ err.Error) err)), s1)
        | (keyring, none) =>
          match keyring with
          | [] => (("", some (GoError.errorString "no key found in keyring")), s1)
          | first :: _ =>
            match env.Serialize first with
            | (_, some err) =>
              (("", some (GoError.wrapError
                ("serialize first GitHub GPG Key from keyring: " ++ err.Error) err)), s1)
            | (buf, none) => ((env.EncodeToString buf, none), s1)

/-- The error with which `FetchLatestGitHubPublicKey` rejects the format of
`pgpKey`. -/
def formatError (pgpKey : String) : GoError :=
  GoError.errorString
    ("invalid GPG key format for Github, received=" ++ "\x27" ++ pgpKey ++ "\x27"
      ++ ", expected=" ++ "\x27" ++ "github:$username" ++ "\x27")

/-- The environment `env` with a journal of the addresses requested: every GET
request is appended to the journal before `env` serves it. -/
def Env.recorded {σ : Type} (env : Env σ) : Env (σ × List String) where
  Get := fun url s => ((env.Get url s.1).1, ((env.Get url s.1).2, s.2 ++ [url]))
  ReadAll := env.ReadAll
  ReadArmoredKeyRing := env.ReadArmoredKeyRing
  Serialize := env.Serialize
  EncodeToString := env.EncodeToString

/-- An environment without state in which GitHub serves the text `armored`, a
key ring holds its text as its one entity, and reading, serialisation and
encoding change nothing. -/
def plainEnv : Env Unit where
  Get := fun _ s => (("armored", none), s)
  ReadAll := fun body => (body, none)
  ReadArmoredKeyRing := fun body => ([body], none)
  Serialize := fun entity => (entity, none)
  EncodeToString := fun buf => buf

end pgpkeys

/-! ## File `aws/resource_aws_servicecatalog_portfolio_product_association.go` -/

namespace strings

/-- The pieces into which `strings.SplitN` cuts a list of characters at the
non-empty separator `sep`, at most `n` of them for `n ≥ 1`, the last one being
the unsplit remainder; `skip` is as in `splitChars`. -/
def splitNChars (sep : List Char) (n : Nat) : List Char → Nat → List (List Char)
  | [], _ => [[]]
  | _ :: cs, skip + 1 => splitNChars sep n cs skip
  | c :: cs, 0 =>
    if n ≤ 1 then [c :: cs]
    else if sep.isPrefixOf (c :: cs) then
      [] :: splitNChars sep (n - 1) cs (sep.length - 1)
    else
      match splitNChars sep n cs 0 with
      | piece :: pieces => (c :: piece) :: pieces
      | [] => [[c]]

/-- Go `strings.SplitN(s, sep, n)` for a non-empty `sep`: no substring for
`n = 0`, all the substrings for `n < 0`, and at most `n` substrings otherwise,
the last one being the unsplit remainder. -/
def SplitN (s sep : String) (n : Int) : List String :=
  if n = 0 then []
  else if n < 0 then Split s sep
  else (splitNChars sep.data n.toNat s.data 0).map String.mk

end strings

namespace resource_aws_servicecatalog_portfolio_product_association

/-- The function `parseServiceCatalogPortfolioProductAssociationResourceId`;
`none` stands for the run-time panic of an index out of range. -/
def parseServiceCatalogPortfolioProductAssociationResourceId (id : String) :
    Option (String × String × String) :=
  let s := strings.SplitN id "--" 2
  match s.get? 0 with
  | none => none
  | some portfolioId =>
    match s.get? 1 with
    | none => none
    | some productId => some (id, portfolioId, productId)

/-- The part of `schema.ResourceData` that the resource reads: its two
attributes, the empty string standing for an attribute that is not set, and its
identifier. -/
structure ResourceData where
  portfolio_id : String
  product_id : String
  Id : String
  deriving DecidableEq, Repr

/-- The function
`resourceAwsServiceCatalogPortfolioProductAssociationRequiredParameters`;
`d.GetOk("product_id")` is `ok` when the attribute is not the empty string. -/
def resourceAwsServiceCatalogPortfolioProductAssociationRequiredParameters (d : ResourceData) :
    Option (String × String × String) :=
  if d.product_id ≠ "" then
    let portfolioId := d.portfolio_id
    let id := portfolioId ++ "--" ++ d.product_id
    some (id, portfolioId, d.product_id)
  else
    parseServiceCatalogPortfolioProductAssociationResourceId d.Id

/-- The state that `schema.ImportStatePassthrough` leaves for the first read of
an imported resource: the identifier given to the import, and no attribute. -/
def ImportStatePassthrough (id : String) : ResourceData :=
  { portfolio_id := "", product_id := "", Id := id }

end resource_aws_servicecatalog_portfolio_product_association

/-! ## File `internal/service/redshiftserverless/snapshot_copy_configuration.go` -/

namespace redshiftserverless

/-- SDK type `awstypes.SnapshotCopyConfiguration`, with its identifier and its
destination region. -/
structure SnapshotCopyConfiguration where
  SnapshotCopyConfigurationId : Option String
  DestinationRegion : Option String
  deriving DecidableEq, Repr

/-- SDK type `redshiftserverless.ListSnapshotCopyConfigurationsInput`. -/
structure ListSnapshotCopyConfigurationsInput where
  NamespaceName : Option String
  MaxResults : Option Int
  NextToken : Option String
  deriving DecidableEq, Repr

/-- SDK type `redshiftserverless.ListSnapshotCopyConfigurationsOutput`. -/
structure ListSnapshotCopyConfigurationsOutput where
  SnapshotCopyConfigurations : List SnapshotCopyConfiguration
  NextToken : Option String
  deriving DecidableEq, Repr

/-- The operation of `*redshiftserverless.Client` that the finder calls, over a
remote state of type `σ`: it returns an output or an error. -/
structure Conn (σ : Type) where
  ListSnapshotCopyConfigurations :
    ListSnapshotCopyConfigurationsInput → σ →
      Except GoError ListSnapshotCopyConfigurationsOutput × σ

/-- The `for` loop of `findSnapshotCopyConfigurationByID` (lines 205-224), run
for at most `fuel` requests: the configuration it leaves, or the error with
which it returns, and the state of the remote; `none` when the fuel does not
suffice. -/
def findSnapshotCopyConfigurationByIDLoop {σ : Type} (conn : Conn σ) (ID : String) :
    Nat → ListSnapshotCopyConfigurationsInput → σ →
      Option (Except GoError (Option SnapshotCopyConfiguration) × σ)
  | 0, _, _ => none
  | fuel + 1, input, s =>
    match conn.ListSnapshotCopyConfigurations input s with
    | (Except.error err, s1) => some (Except.error err, s1)
    | (Except.ok output, s1) =>
      let configuration := output.SnapshotCopyConfigurations.find?
        (fun item => aws.ToString item.SnapshotCopyConfigurationId == ID)
      if configuration ≠ none ∨ output.NextToken = none then
        some (Except.ok configuration, s1)
      else
        findSnapshotCopyConfigurationByIDLoop conn ID fuel
          { input with NextToken := output.NextToken } s1

/-- The function `findSnapshotCopyConfigurationByID`, its loop run for at most
`fuel` requests: the configuration and the error returned, and the state of the
remote; `none` when the fuel does not suffice. -/
def findSnapshotCopyConfigurationByID {σ : Type} (conn : Conn σ) (fuel : Nat)
    (namespaceName ID : String) (s : σ) :
    Option ((Option SnapshotCopyConfiguration × Option GoError) × σ) :=
  let input : ListSnapshotCopyConfigurationsInput :=
    { NamespaceName := aws.String namespaceName, MaxResults := some 100, NextToken := none }
  match findSnapshotCopyConfigurationByIDLoop conn ID fuel input s with
  | none => none
  | some (Except.error err, s1) => some ((none, some err), s1)
  | some (Except.ok none, s1) => some ((none, some (GoError.notFoundError "")), s1)
  | some (Except.ok (some configuration), s1) => some ((some configuration, none), s1)

/-- The token with which a paged remote names its page `i`: `i` letters. -/
def pageToken (i : Nat) : String :=
  String.mk (List.replicate i 'a')

/-- The token that a request for page `i` carries: none for the first page. -/
def tokenAt (i : Nat) : Option String :=
  if i = 0 then none else some (pageToken i)

/-- The page that a token names. -/
def pageIndex (token : Option String) : Nat :=
  match token with
  | none => 0
  | some t => t.length

/-- A remote that lists the finite sequence `pages`: a request without token
gets the first page, a request with the token of a page gets that page, and
every page but the last comes with the token of the next one.  The state of the
remote is the journal of the requests it has served. -/
def pagedConn (pages : List (List SnapshotCopyConfiguration)) :
    Conn (List ListSnapshotCopyConfigurationsInput) where
  ListSnapshotCopyConfigurations := fun input journal =>
    (Except.ok
      { SnapshotCopyConfigurations := pages.getD (pageIndex input.NextToken) [],
        NextToken :=
          if pageIndex input.NextToken + 1 < pages.length then
            some (pageToken (pageIndex input.NextToken + 1))
          else none },
      journal ++ [input])

/-- The request for page `i` of the listing of a namespace. -/
def inputAt (namespaceName : String) (i : Nat) : ListSnapshotCopyConfigurationsInput :=
  { NamespaceName := some namespaceName, MaxResults := some 100, NextToken := tokenAt i }

/-- The number of pages up to the first one that holds an item with the
identifier `ID`, that page included; the number of all pages when there is no
such item. -/
def pagesNeeded (ID : String) : List (List SnapshotCopyConfiguration) → Nat
  | [] => 0
  | page :: rest =>
    if (page.find? (fun item => aws.ToString item.SnapshotCopyConfigurationId == ID)).isSome
    then 1
    else 1 + pagesNeeded ID rest

/-- A listing of three pages, whose second page holds two configurations with
the identifier `b`. -/
def threePages : List (List SnapshotCopyConfiguration) :=
  [[{ SnapshotCopyConfigurationId := some "a", DestinationRegion := none }],
   [{ SnapshotCopyConfigurationId := some "b", DestinationRegion := some "r1" },
    { SnapshotCopyConfigurationId := some "b", DestinationRegion := some "r2" }],
   [{ SnapshotCopyConfigurationId := some "c", DestinationRegion := none }]]

end redshiftserverless

/-! ## The finders of file `internal/service/batch/job_definition.go` -/

namespace tfresource

/-- Modelled from the spec: `tfresource.NewEmptyResultError` of package
`internal/tfresource`, not among the sources: the error of a finder that found
nothing.  The request that it carries is left out. -/
def NewEmptyResultError : GoError :=
  GoError.emptyResultError

/-- Modelled from the spec: `tfresource.NewTooManyResultsError` of package
`internal/tfresource`, not among the sources: the error of a finder that found
`count` results where it wanted one.  The request that it carries is left
out. -/
def NewTooManyResultsError (count : Nat) : GoError :=
  GoError.tooManyResultsError count

end tfresource

namespace batch

/-- The constant `jobDefinitionStatusInactive`. -/
def jobDefinitionStatusInactive : String := "INACTIVE"

/-- SDK type `batch.JobDefinition`, with the fields that the finders read. -/
structure JobDefinition where
  JobDefinitionArn : Option String
  Status : Option String
  deriving DecidableEq, Repr

/-- SDK type `batch.DescribeJobDefinitionsInput`. -/
structure DescribeJobDefinitionsInput where
  JobDefinitions : List (Option String)
  deriving DecidableEq, Repr

/-- SDK type `batch.DescribeJobDefinitionsOutput`: its elements are pointers,
`none` being `nil`. -/
structure DescribeJobDefinitionsOutput where
  JobDefinitions : List (Option JobDefinition)
  deriving DecidableEq, Repr

/-- The operation of `*batch.Batch` that the finders call, over a remote state
of type `σ`: it returns a pointer to an output, and an error. -/
structure DescribeConn (σ : Type) where
  DescribeJobDefinitionsWithContext :
    DescribeJobDefinitionsInput → σ →
      (Option DescribeJobDefinitionsOutput × Option GoError) × σ

/-- The function `findJobDefinition`: the job definition and the error returned,
and the state of the remote afterwards. -/
def findJobDefinition {σ : Type} (conn : DescribeConn σ) (input : DescribeJobDefinitionsInput)
    (s : σ) : (Option JobDefinition × Option GoError) × σ :=
  match conn.DescribeJobDefinitionsWithContext input s with
  | ((_, some err), s1) => ((none, some err), s1)
  | ((none, none), s1) => ((none, some tfresource.NewEmptyResultError), s1)
  | ((some output, none), s1) =>
    match output.JobDefinitions with
    | [] => ((none, some tfresource.NewEmptyResultError), s1)
    | none :: _ => ((none, some tfresource.NewEmptyResultError), s1)
    | some first :: _ =>
      if output.JobDefinitions.length > 1 then
        ((none, some (tfresource.NewTooManyResultsError output.JobDefinitions.length)), s1)
      else
        ((some first, none), s1)

/-- The function `FindJobDefinitionByARN`: the job definition and the error
returned, and the state of the remote afterwards; `none` stands for the
run-time panic of reading the status through a `nil` pointer. -/
def FindJobDefinitionByARN {σ : Type} (conn : DescribeConn σ) (arn : String) (s : σ) :
    Option ((Option JobDefinition × Option GoError) × σ) :=
  let input : DescribeJobDefinitionsInput := { JobDefinitions := aws.StringSlice [arn] }
  match findJobDefinition conn input s with
  | ((_, some err), s1) => some ((none, some err), s1)
  | ((none, none), _) => none
  | ((some output, none), s1) =>
    if aws.StringValue output.Status = jobDefinitionStatusInactive then
      some ((none, some (GoError.notFoundError (aws.StringValue output.Status))), s1)
    else
      some ((some output, none), s1)

/-- A remote without state that answers every request with `output` and
`err`. -/
def fixedDescribe (output : Option DescribeJobDefinitionsOutput) (err : Option GoError) :
    DescribeConn Unit where
  DescribeJobDefinitionsWithContext := fun _ s => ((output, err), s)

end batch

/-! ## Lemmas on tag sets -/

namespace tftags

theorem lookupEntry_eq_none_iff (k : String) (l : List (String × String)) :
    lookupEntry k l = none ↔ k ∉ l.map Prod.fst := by
  induction l with
  | nil => simp [lookupEntry]
  | cons kv rest ih =>
    obtain ⟨k', v⟩ := kv
    by_cases h : k' = k
    · simp [lookupEntry, h]
    · have h' : ¬ k = k' := fun e => h e.symm
      simp only [lookupEntry, h, if_false, ih, List.map_cons, List.mem_cons, h', false_or]

theorem lookupEntry_eq_some_iff (k v : String) (l : List (String × String))
    (hl : (l.map Prod.fst).Nodup) : lookupEntry k l = some v ↔ (k, v) ∈ l := by
  induction l with
  | nil => simp [lookupEntry]
  | cons kv rest ih =>
    obtain ⟨k', w⟩ := kv
    rw [List.map_cons, List.nodup_cons] at hl
    by_cases h : k' = k
    · subst h
      have hnot : (k', v) ∉ rest := fun hm => hl.1 (List.mem_map.2 ⟨(k', v), hm, rfl⟩)
      simp only [lookupEntry, if_true, Option.some.injEq, List.mem_cons, Prod.mk.injEq, true_and,
        hnot, or_false]
      exact eq_comm
    · have h' : ¬ k = k' := fun e => h e.symm
      simp only [lookupEntry, h, if_false, ih hl.2, List.mem_cons, Prod.mk.injEq, h', false_and,
        false_or]

namespace KeyValueTags

theorem get?_eq_some_iff (tags : KeyValueTags) (k v : String) :
    tags.get? k = some v ↔ (k, v) ∈ tags.entries :=
  lookupEntry_eq_some_iff k v tags.entries tags.nodup

theorem get?_eq_none_iff (tags : KeyValueTags) (k : String) :
    tags.get? k = none ↔ k ∉ tags.Keys :=
  lookupEntry_eq_none_iff k tags.entries

theorem mem_Keys_iff (tags : KeyValueTags) (k : String) :
    k ∈ tags.Keys ↔ ∃ v, (k, v) ∈ tags.entries := by
  simp [Keys]

theorem mem_filter (p : String × String → Bool) (tags : KeyValueTags) (kv : String × String) :
    kv ∈ (tags.filter p).entries ↔ kv ∈ tags.entries ∧ p kv = true := by
  simp [filter]

theorem mem_Removed (tags newTags : KeyValueTags) (k v : String) :
    (k, v) ∈ (tags.Removed newTags).entries ↔ (k, v) ∈ tags.entries ∧ k ∉ newTags.Keys := by
  rw [Removed, mem_filter, Option.isNone_iff_eq_none, get?_eq_none_iff]

theorem mem_Updated (tags newTags : KeyValueTags) (k v : String) :
    (k, v) ∈ (tags.Updated newTags).entries ↔
      (k, v) ∈ newTags.entries ∧ tags.get? k ≠ some v := by
  rw [Updated, mem_filter]
  cases h : tags.get? k with
  | none => simp
  | some w => simp

theorem mem_IgnoreAws (tags : KeyValueTags) (k v : String) :
    (k, v) ∈ tags.IgnoreAws.entries ↔
      (k, v) ∈ tags.entries ∧ strings.HasPrefix k AwsTagKeyPrefix = false := by
  rw [IgnoreAws, mem_filter]
  simp

theorem IgnoreSystem_GameLift (tags : KeyValueTags) :
    tags.IgnoreSystem names.GameLift = tags.IgnoreAws := by
  simp [IgnoreSystem, names.GameLift]

theorem Removed_self (tags : KeyValueTags) : (tags.Removed tags).entries = [] := by
  rw [List.eq_nil_iff_forall_not_mem]
  rintro ⟨k, v⟩ h
  rw [mem_Removed] at h
  exact h.2 ((mem_Keys_iff tags k).2 ⟨v, h.1⟩)

theorem Updated_self (tags : KeyValueTags) : (tags.Updated tags).entries = [] := by
  rw [List.eq_nil_iff_forall_not_mem]
  rintro ⟨k, v⟩ h
  rw [mem_Updated] at h
  exact h.2 ((get?_eq_some_iff tags k v).2 h.1)

theorem IgnoreAws_entries_of_nil (tags : KeyValueTags) (h : tags.entries = []) :
    tags.IgnoreAws.entries = [] := by
  simp [IgnoreAws, filter, h]

theorem len_pos_iff (tags : KeyValueTags) : 0 < tags.len ↔ tags.entries ≠ [] := by
  simp [len, List.length_pos]

end KeyValueTags

end tftags

/-! ## Lemmas on `elasticsearch.UpdateTags` -/

namespace elasticsearch

open tftags

theorem journal_eq {σ : Type} (conn : Conn σ) (identifier : String) (A B : KeyValueTags)
    (s : σ) :
    journal conn identifier A B s =
      (if 0 < (A.Removed B).len then
          [(Call.RemoveTags (removeInput identifier A B),
            (conn.RemoveTags (removeInput identifier A B) s).1)]
        else []) ++
      (if (0 < (A.Removed B).len → (conn.RemoveTags (removeInput identifier A B) s).1 = none)
          ∧ 0 < (A.Updated B).len
        then
          [(Call.AddTags (addInput identifier A B),
            (conn.AddTags (addInput identifier A B)
              (if 0 < (A.Removed B).len then (conn.RemoveTags (removeInput identifier A B) s).2
                else s)).1)]
        else []) := by
  unfold journal UpdateTags
  simp only [tftags.New, Conn.recorded, removeInput, addInput, gt_iff_lt]
  by_cases hr : 0 < (A.Removed B).len
  · by_cases hu : 0 < (A.Updated B).len
    · cases hc : conn.RemoveTags
        { ARN := aws.String identifier
          TagKeys := aws.StringSlice (A.Removed B).IgnoreAws.Keys } s with
      | mk e s1 =>
        cases e
        · simp only [hr, hu, hc, if_true]
          split <;> (rename_i heq; have h2 := congrArg (fun r => r.2.2) heq; simpa using h2.symm)
        · simp [hr, hu, hc]
    · cases hc : conn.RemoveTags
        { ARN := aws.String identifier
          TagKeys := aws.StringSlice (A.Removed B).IgnoreAws.Keys } s with
      | mk e s1 =>
        cases e <;> simp [hr, hu, hc]
  · by_cases hu : 0 < (A.Updated B).len
    · simp only [hr, hu, if_true, if_false]
      split <;> (rename_i heq; have h2 := congrArg (fun r => r.2.2) heq; simpa using h2.symm)
    · simp [hr, hu]

theorem calls_eq {σ : Type} (conn : Conn σ) (identifier : String) (A B : KeyValueTags) (s : σ) :
    calls conn identifier A B s =
      (if 0 < (A.Removed B).len then [Call.RemoveTags (removeInput identifier A B)] else []) ++
      (if (0 < (A.Removed B).len → (conn.RemoveTags (removeInput identifier A B) s).1 = none)
          ∧ 0 < (A.Updated B).len
        then [Call.AddTags (addInput identifier A B)] else []) := by
  unfold calls
  rw [journal_eq]
  split_ifs <;> simp

theorem UpdateTags_fst {σ : Type} (conn : Conn σ) (identifier : String) (A B : KeyValueTags)
    (s : σ) :
    (UpdateTags conn identifier A B s).1 =
      match (if 0 < (A.Removed B).len then (conn.RemoveTags (removeInput identifier A B) s).1
        else none) with
      | some e => some (fmt.Errorf "error untagging resource" identifier e)
      | none =>
        if 0 < (A.Updated B).len then
          ((conn.AddTags (addInput identifier A B)
            (if 0 < (A.Removed B).len then (conn.RemoveTags (removeInput identifier A B) s).2
              else s)).1).map (fmt.Errorf "error tagging resource" identifier)
        else none := by
  unfold UpdateTags
  simp only [tftags.New, removeInput, addInput, gt_iff_lt]
  by_cases hr : 0 < (A.Removed B).len
  · cases hc : conn.RemoveTags
      { ARN := aws.String identifier
        TagKeys := aws.StringSlice (A.Removed B).IgnoreAws.Keys } s with
    | mk e s1 =>
      cases e
      · by_cases hu : 0 < (A.Updated B).len
        · cases ha : conn.AddTags
            { ARN := aws.String identifier, TagList := Tags (A.Updated B).IgnoreAws } s1 with
          | mk e2 s2 => cases e2 <;> simp [hr, hu, hc, ha]
        · simp [hr, hu, hc]
      · simp [hr, hc]
  · by_cases hu : 0 < (A.Updated B).len
    · cases ha : conn.AddTags
        { ARN := aws.String identifier, TagList := Tags (A.Updated B).IgnoreAws } s with
      | mk e2 s2 => cases e2 <;> simp [hr, hu, ha]
    · simp [hr, hu]

theorem TagStore.remove_nil (store : TagStore) : store.remove [] = store := by
  funext k
  simp [TagStore.remove]

theorem TagStore.remove_StringSlice (store : TagStore) (keys : List String) (k : String) :
    store.remove (aws.StringSlice keys) k = if k ∈ keys then none else store k := by
  simp [TagStore.remove, aws.StringSlice]

theorem TagStore.add_entries (l : List (String × String)) (hl : (l.map Prod.fst).Nodup)
    (store : TagStore) (k : String) :
    TagStore.add store
        (l.map (fun kv => ({ Key := aws.String kv.1, Value := aws.String kv.2 } : Tag))) k =
      match lookupEntry k l with
      | some v => some v
      | none => store k := by
  induction l generalizing store with
  | nil => simp [TagStore.add, lookupEntry]
  | cons kv rest ih =>
    obtain ⟨k', v⟩ := kv
    rw [List.map_cons, List.nodup_cons] at hl
    have step : TagStore.add store
        (((k', v) :: rest).map
          (fun kv => ({ Key := aws.String kv.1, Value := aws.String kv.2 } : Tag))) =
        TagStore.add (Function.update store k' (some v))
          (rest.map (fun kv => ({ Key := aws.String kv.1, Value := aws.String kv.2 } : Tag))) := by
      simp [TagStore.add, aws.String, aws.StringValue]
    rw [step, ih hl.2]
    by_cases h : k' = k
    · subst h
      have hnone : lookupEntry k' rest = none := (lookupEntry_eq_none_iff k' rest).2 hl.1
      simp [lookupEntry, hnone]
    · have h' : ¬ k = k' := fun e => h e.symm
      simp only [lookupEntry, h, if_false, Function.update_noteq h']

theorem TagStore.add_Tags (store : TagStore) (tags : KeyValueTags) (k : String) :
    store.add (Tags tags) k =
      match tags.get? k with
      | some v => some v
      | none => store k :=
  TagStore.add_entries tags.entries tags.nodup store k

theorem mem_removed_keys (A B : KeyValueTags) (k : String) :
    k ∈ (A.Removed B).IgnoreAws.Keys ↔
      k ∈ A.Keys ∧ k ∉ B.Keys ∧ strings.HasPrefix k AwsTagKeyPrefix = false := by
  simp only [KeyValueTags.mem_Keys_iff, KeyValueTags.mem_IgnoreAws, KeyValueTags.mem_Removed]
  constructor
  · rintro ⟨v, ⟨hA, hB⟩, hp⟩
    exact ⟨⟨v, hA⟩, hB, hp⟩
  · rintro ⟨⟨v, hA⟩, hB, hp⟩
    exact ⟨v, ⟨hA, hB⟩, hp⟩

theorem mem_updated_entries (A B : KeyValueTags) (k v : String) :
    (k, v) ∈ (A.Updated B).IgnoreAws.entries ↔
      (k, v) ∈ B.entries ∧ A.get? k ≠ some v ∧ strings.HasPrefix k AwsTagKeyPrefix = false := by
  rw [KeyValueTags.mem_IgnoreAws, KeyValueTags.mem_Updated, and_assoc]

theorem UpdateTags_storeConn (identifier : String) (A B : KeyValueTags) (store : TagStore) :
    UpdateTags storeConn identifier A B store =
      (none, (store.remove (removeInput identifier A B).TagKeys).add
        (addInput identifier A B).TagList) := by
  have nil_of_not_pos : ∀ t : KeyValueTags, ¬ 0 < t.len → t.IgnoreAws.entries = [] := by
    intro t ht
    apply KeyValueTags.IgnoreAws_entries_of_nil
    simpa [KeyValueTags.len] using ht
  unfold UpdateTags
  simp only [tftags.New, storeConn, removeInput, addInput, gt_iff_lt]
  by_cases hr : 0 < (A.Removed B).len <;> by_cases hu : 0 < (A.Updated B).len
  · simp [hr, hu]
  · simp [hr, hu, Tags, KeyValueTags.Map, nil_of_not_pos _ hu, TagStore.add]
  · simp [hr, hu, KeyValueTags.Keys, nil_of_not_pos _ hr, aws.StringSlice, TagStore.remove_nil]
  · simp [hr, hu, Tags, KeyValueTags.Map, KeyValueTags.Keys, nil_of_not_pos _ hu,
      nil_of_not_pos _ hr, aws.StringSlice, TagStore.remove_nil, TagStore.add]

theorem store_after (identifier : String) (A B : KeyValueTags) (store : TagStore)
    (h : ∀ k, strings.HasPrefix k AwsTagKeyPrefix = false → store k = A.get? k) (k : String) :
    (UpdateTags storeConn identifier A B store).2 k =
      if strings.HasPrefix k AwsTagKeyPrefix = true then store k else B.get? k := by
  rw [UpdateTags_storeConn]
  simp only [addInput, removeInput, tftags.New]
  rw [TagStore.add_Tags, TagStore.remove_StringSlice]
  cases hu : (A.Updated B).IgnoreAws.get? k with
  | some v =>
    rw [KeyValueTags.get?_eq_some_iff, mem_updated_entries] at hu
    simp [hu.2.2, (B.get?_eq_some_iff k v).2 hu.1]
  | none =>
    by_cases hp : strings.HasPrefix k AwsTagKeyPrefix = true
    · have hk : k ∉ (A.Removed B).IgnoreAws.Keys := by
        rw [mem_removed_keys]
        simp [hp]
      simp [hp, hk]
    · have hp' : strings.HasPrefix k AwsTagKeyPrefix = false := by simpa using hp
      simp only [hp, if_false]
      cases hb : B.get? k with
      | none =>
        have hkB : k ∉ B.Keys := (B.get?_eq_none_iff k).1 hb
        cases ha : A.get? k with
        | none =>
          have hkA : k ∉ A.Keys := (A.get?_eq_none_iff k).1 ha
          have hk : k ∉ (A.Removed B).IgnoreAws.Keys := by
            rw [mem_removed_keys]
            exact fun hm => hkA hm.1
          simp [hk, h k hp', ha]
        | some w =>
          have hkA : k ∈ A.Keys :=
            (A.mem_Keys_iff k).2 ⟨w, (A.get?_eq_some_iff k w).1 ha⟩
          have hk : k ∈ (A.Removed B).IgnoreAws.Keys :=
            (mem_removed_keys A B k).2 ⟨hkA, hkB, hp'⟩
          simp [hk]
      | some v =>
        have hmB : (k, v) ∈ B.entries := (B.get?_eq_some_iff k v).1 hb
        have hk : k ∉ (A.Removed B).IgnoreAws.Keys := by
          rw [mem_removed_keys]
          exact fun hm => hm.2.1 ((B.mem_Keys_iff k).2 ⟨v, hmB⟩)
        have hA : A.get? k = some v := by
          by_contra hne
          have hmem : (k, v) ∈ (A.Updated B).IgnoreAws.entries :=
            (mem_updated_entries A B k v).2 ⟨hmB, hne, hp'⟩
          rw [← KeyValueTags.get?_eq_some_iff, hu] at hmem
          exact Option.noConfusion hmem
        simp [hk, h k hp', hA]

end elasticsearch

/-! ## The requests of `elasticsearch.UpdateTags` -/

namespace elasticsearch

open tftags

theorem removeCalls_calls {σ : Type} (conn : Conn σ) (identifier : String)
    (A B : KeyValueTags) (s : σ) :
    removeCalls (calls conn identifier A B s) =
      if 0 < (A.Removed B).len then [removeInput identifier A B] else [] := by
  rw [calls_eq]
  split_ifs <;> simp [removeCalls]

theorem addCalls_calls {σ : Type} (conn : Conn σ) (identifier : String)
    (A B : KeyValueTags) (s : σ) :
    addCalls (calls conn identifier A B s) =
      if (0 < (A.Removed B).len → (conn.RemoveTags (removeInput identifier A B) s).1 = none)
          ∧ 0 < (A.Updated B).len
        then [addInput identifier A B] else [] := by
  rw [calls_eq]
  split_ifs <;> simp [addCalls]

theorem mem_removeInput_TagKeys (identifier : String) (A B : KeyValueTags) (k : String) :
    some k ∈ (removeInput identifier A B).TagKeys ↔
      k ∈ A.Keys ∧ k ∉ B.Keys ∧ strings.HasPrefix k AwsTagKeyPrefix = false := by
  rw [← mem_removed_keys]
  simp [removeInput, aws.StringSlice, tftags.New]

theorem mem_addInput_TagList (identifier : String) (A B : KeyValueTags) (t : Tag) :
    t ∈ (addInput identifier A B).TagList ↔
      ∃ k v, t = { Key := some k, Value := some v } ∧ B.get? k = some v ∧
        A.get? k ≠ some v ∧ strings.HasPrefix k AwsTagKeyPrefix = false := by
  simp only [addInput, Tags, KeyValueTags.Map, tftags.New, List.mem_map, Prod.exists,
    mem_updated_entries, aws.String, KeyValueTags.get?_eq_some_iff]
  constructor
  · rintro ⟨k, v, h, rfl⟩
    exact ⟨k, v, rfl, h⟩
  · rintro ⟨k, v, rfl, h⟩
    exact ⟨k, v, h, rfl⟩

theorem removeInput_TagKeys_nodup (identifier : String) (A B : KeyValueTags) :
    (removeInput identifier A B).TagKeys.Nodup := by
  simp only [removeInput, aws.StringSlice, tftags.New, KeyValueTags.Keys]
  exact (A.Removed B).IgnoreAws.nodup.map (Option.some_injective String)

theorem addInput_TagList_nodup (identifier : String) (A B : KeyValueTags) :
    (addInput identifier A B).TagList.Nodup := by
  simp only [addInput, Tags, KeyValueTags.Map, tftags.New, aws.String]
  refine ((A.Updated B).IgnoreAws.nodup.of_map Prod.fst).map ?_
  rintro ⟨k, v⟩ ⟨k2, v2⟩ h
  simp only [Tag.mk.injEq, Option.some.injEq] at h
  exact Prod.ext h.1 h.2

theorem Removed_len_pos_of_key (A B : KeyValueTags) (k : String) (hA : k ∈ A.Keys)
    (hB : k ∉ B.Keys) : 0 < (A.Removed B).len := by
  obtain ⟨v, hv⟩ := (A.mem_Keys_iff k).1 hA
  have hm : (k, v) ∈ (A.Removed B).entries := (KeyValueTags.mem_Removed A B k v).2 ⟨hv, hB⟩
  exact List.length_pos_of_mem hm

theorem Updated_len_pos_of_entry (A B : KeyValueTags) (k v : String) (hB : B.get? k = some v)
    (hA : A.get? k ≠ some v) : 0 < (A.Updated B).len := by
  have hm : (k, v) ∈ (A.Updated B).entries :=
    (KeyValueTags.mem_Updated A B k v).2 ⟨(B.get?_eq_some_iff k v).1 hB, hA⟩
  exact List.length_pos_of_mem hm

end elasticsearch

/-! ## Lemmas on `gamelift.updateTags` -/

namespace gamelift

open tftags

theorem updateTags_calls_eq {σ : Type} (conn : Conn σ) (identifier : String) (A B : KeyValueTags) (s : σ) :
    calls conn identifier A B s =
      (if 0 < (A.Removed B).IgnoreAws.len then
          [Call.UntagResource
            { ResourceARN := some identifier
              TagKeys := aws.StringSlice (A.Removed B).IgnoreAws.Keys }]
        else []) ++
      (if (0 < (A.Removed B).IgnoreAws.len →
            (conn.UntagResourceWithContext
              { ResourceARN := some identifier
                TagKeys := aws.StringSlice (A.Removed B).IgnoreAws.Keys } s).1 = none)
          ∧ 0 < (A.Updated B).IgnoreAws.len
        then [Call.TagResource
          { ResourceARN := some identifier, Tags := Tags (A.Updated B).IgnoreAws }]
        else []) := by
  unfold calls updateTags
  simp only [tftags.New, Conn.recorded, gt_iff_lt, KeyValueTags.IgnoreSystem_GameLift, aws.String]
  by_cases hr : 0 < (A.Removed B).IgnoreAws.len
  · by_cases hu : 0 < (A.Updated B).IgnoreAws.len
    · cases hc : conn.UntagResourceWithContext
        { ResourceARN := some identifier
          TagKeys := aws.StringSlice (A.Removed B).IgnoreAws.Keys } s with
      | mk e s1 =>
        cases e
        · simp only [hr, hu, hc, if_true]
          split <;> (rename_i heq; have h2 := congrArg (fun r => r.2.2) heq; simpa using h2.symm)
        · simp [hr, hu, hc]
    · cases hc : conn.UntagResourceWithContext
        { ResourceARN := some identifier
          TagKeys := aws.StringSlice (A.Removed B).IgnoreAws.Keys } s with
      | mk e s1 =>
        cases e <;> simp [hr, hu, hc]
  · by_cases hu : 0 < (A.Updated B).IgnoreAws.len
    · simp only [hr, hu, if_true, if_false]
      split <;> (rename_i heq; have h2 := congrArg (fun r => r.2.2) heq; simpa using h2.symm)
    · simp [hr, hu]

end gamelift

/-! ## Reconciliation against the tag store -/

namespace elasticsearch

open tftags

/-- C1, as stated, fails: with an empty old tag set and the new tag set
`aws:x ↦ 1`, the store starts equal to the old set, every call succeeds, and
the store after `UpdateTags` is not equal to the new set, since the entry
`aws:x` was never sent. -/
theorem UpdateTags_store_misses_aws_key :
    (UpdateTags storeConn "arn" KeyValueTags.empty (KeyValueTags.single "aws:x" "1")
        (TagStore.ofTags KeyValueTags.empty)).2
      ≠ TagStore.ofTags (KeyValueTags.single "aws:x" "1") := by
  intro h
  have hk := congrFun h "aws:x"
  revert hk
  decide

/-- C1, amended: when the store equals the old tag set `A` and every remote call
succeeds, `UpdateTags(conn, id, A, B)` returns `nil` and leaves a store that
agrees with `B` on every key that does not begin with `aws:` and that still has
the entry of `A` (or none) on every key that begins with `aws:`. -/
theorem UpdateTags_store_after (identifier : String) (A B : KeyValueTags) :
    (UpdateTags storeConn identifier A B (TagStore.ofTags A)).1 = none ∧
      ∀ k : String,
        (UpdateTags storeConn identifier A B (TagStore.ofTags A)).2 k =
          if strings.HasPrefix k AwsTagKeyPrefix = true then A.get? k else B.get? k := by
  refine ⟨by rw [UpdateTags_storeConn], fun k => ?_⟩
  rw [store_after identifier A B (TagStore.ofTags A) (fun _ _ => rfl) k]
  rfl

/-- C2: reconciling a tag set with itself sends no request at all and returns
`nil`, whatever the remote is and whatever its state: this holds of the
elasticsearch `UpdateTags` and of the gamelift `updateTags`. -/
theorem UpdateTags_same_tags_no_call {σ τ : Type} (conn : Conn σ) (glConn : gamelift.Conn τ)
    (identifier : String) (A : KeyValueTags) (s : σ) (t : τ) :
    calls conn identifier A A s = [] ∧
      UpdateTags conn identifier A A s = (none, s) ∧
      gamelift.calls glConn identifier A A t = [] ∧
      gamelift.updateTags glConn identifier A A t = (none, t) := by
  have hr : ¬ 0 < (A.Removed A).len := by
    simp [KeyValueTags.len, KeyValueTags.Removed_self]
  have hu : ¬ 0 < (A.Updated A).len := by
    simp [KeyValueTags.len, KeyValueTags.Updated_self]
  have hr' : ¬ 0 < (A.Removed A).IgnoreAws.len := by
    simp [KeyValueTags.len,
      KeyValueTags.IgnoreAws_entries_of_nil _ (KeyValueTags.Removed_self A)]
  have hu' : ¬ 0 < (A.Updated A).IgnoreAws.len := by
    simp [KeyValueTags.len,
      KeyValueTags.IgnoreAws_entries_of_nil _ (KeyValueTags.Updated_self A)]
  refine ⟨?_, ?_, ?_, ?_⟩
  · rw [calls_eq]
    simp [hr, hu]
  · unfold UpdateTags
    simp only [tftags.New, gt_iff_lt, hr, hu, if_false]
  · rw [gamelift.updateTags_calls_eq]
    simp [hr', hu']
  · unfold gamelift.updateTags
    simp only [tftags.New, gt_iff_lt, KeyValueTags.IgnoreSystem_GameLift, hr', hu', if_false]

/-- C3: when the store equals `A` and every remote call succeeds, reconciling
from `A` to `B` and then from `B` to `A` returns `nil` twice and leaves the
store equal to `A`. -/
theorem UpdateTags_round_trip (identifier : String) (A B : KeyValueTags) :
    (UpdateTags storeConn identifier A B (TagStore.ofTags A)).1 = none ∧
      (UpdateTags storeConn identifier B A
        (UpdateTags storeConn identifier A B (TagStore.ofTags A)).2).1 = none ∧
      (UpdateTags storeConn identifier B A
        (UpdateTags storeConn identifier A B (TagStore.ofTags A)).2).2 = TagStore.ofTags A := by
  refine ⟨by rw [UpdateTags_storeConn], by rw [UpdateTags_storeConn], ?_⟩
  have h1 : ∀ k, (UpdateTags storeConn identifier A B (TagStore.ofTags A)).2 k =
      if strings.HasPrefix k AwsTagKeyPrefix = true then A.get? k else B.get? k := by
    intro k
    rw [store_after identifier A B (TagStore.ofTags A) (fun _ _ => rfl) k]
    rfl
  funext k
  rw [store_after identifier B A _ (fun k hk => by rw [h1 k]; simp [hk]) k, h1 k]
  by_cases hp : strings.HasPrefix k AwsTagKeyPrefix = true <;> simp [hp, TagStore.ofTags]

end elasticsearch

/-! ## The remove call and the add call -/

namespace elasticsearch

open tftags

/-- C4, as stated, fails: with the old tag set `aws:x ↦ 1` and an empty new tag
set, the key `aws:x` of the old set is absent from the new one, yet there is no
single remove call whose key list is the set of the keys present in the old set
and absent from the new one: the remove call that is sent has an empty key
list. -/
theorem UpdateTags_remove_call_drops_aws_key :
    ¬ ∃ input : RemoveTagsInput,
      removeCalls (calls okConn "arn" (KeyValueTags.single "aws:x" "1")
          KeyValueTags.empty ()) = [input] ∧
        ∀ k : String, some k ∈ input.TagKeys ↔
          (k ∈ (KeyValueTags.single "aws:x" "1").Keys ∧ k ∉ KeyValueTags.empty.Keys) := by
  rintro ⟨input, h1, h2⟩
  have e : removeCalls (calls okConn "arn" (KeyValueTags.single "aws:x" "1")
      KeyValueTags.empty ()) = [{ ARN := some "arn", TagKeys := [] }] := by decide
  rw [e, List.singleton_inj] at h1
  subst h1
  have hk := (h2 "aws:x").2 (by decide)
  simp at hk

/-- C4, amended: whenever some key of the old tag set `A` that does not begin
with `aws:` is absent from the new tag set `B`, `UpdateTags` sends exactly one
remove call, whatever the remote does; the call names the resource, and its key
list holds, each once, exactly the keys present in `A`, absent from `B` and not
beginning with `aws:`. -/
theorem UpdateTags_remove_call {σ : Type} (conn : Conn σ) (identifier : String)
    (A B : KeyValueTags) (s : σ)
    (h : ∃ k : String, k ∈ A.Keys ∧ k ∉ B.Keys ∧ strings.HasPrefix k AwsTagKeyPrefix = false) :
    ∃ input : RemoveTagsInput,
      removeCalls (calls conn identifier A B s) = [input] ∧
        input.ARN = some identifier ∧
        input.TagKeys.Nodup ∧
        ∀ k : String, some k ∈ input.TagKeys ↔
          (k ∈ A.Keys ∧ k ∉ B.Keys ∧ strings.HasPrefix k AwsTagKeyPrefix = false) := by
  obtain ⟨k, hA, hB, _⟩ := h
  refine ⟨removeInput identifier A B, ?_, rfl, removeInput_TagKeys_nodup identifier A B,
    mem_removeInput_TagKeys identifier A B⟩
  rw [removeCalls_calls, if_pos (Removed_len_pos_of_key A B k hA hB)]

/-- The amended C4 at the first scenario of the spec: one remove call, for the
key `k2`. -/
theorem UpdateTags_remove_call_scenario :
    ∃ input : RemoveTagsInput,
      removeCalls (calls okConn "arn" scenarioOld scenarioNew ()) = [input] ∧
        input.ARN = some "arn" ∧
        input.TagKeys.Nodup ∧
        ∀ k : String, some k ∈ input.TagKeys ↔
          (k ∈ scenarioOld.Keys ∧ k ∉ scenarioNew.Keys ∧
            strings.HasPrefix k AwsTagKeyPrefix = false) :=
  UpdateTags_remove_call okConn "arn" scenarioOld scenarioNew ()
    ⟨"k2", by decide, by decide, by decide⟩

/-- C5, as stated, fails twice over.  With an empty old tag set and the new tag
set `aws:x ↦ 1`, no single add call carries exactly the new or changed entries:
the add call that is sent has an empty tag list.  And with old `a ↦ 1`, new
`b ↦ 2` and a remote that fails the remove call, the entry `b ↦ 2` is new and
no add call is sent. -/
theorem UpdateTags_add_call_missing :
    (¬ ∃ input : AddTagsInput,
      addCalls (calls okConn "arn" KeyValueTags.empty
          (KeyValueTags.single "aws:x" "1") ()) = [input] ∧
        ∀ t : Tag, t ∈ input.TagList ↔
          ∃ k v, t = { Key := some k, Value := some v } ∧
            (KeyValueTags.single "aws:x" "1").get? k = some v ∧
            KeyValueTags.empty.get? k ≠ some v) ∧
    ((KeyValueTags.single "b" "2").get? "b" = some "2" ∧
      (KeyValueTags.single "a" "1").get? "b" = none ∧
      addCalls (calls (failConn (GoError.errorString "boom")) "arn"
        (KeyValueTags.single "a" "1") (KeyValueTags.single "b" "2") ()) = []) := by
  refine ⟨?_, by decide⟩
  rintro ⟨input, h1, h2⟩
  have e : addCalls (calls okConn "arn" KeyValueTags.empty
      (KeyValueTags.single "aws:x" "1") ()) = [{ ARN := some "arn", TagList := [] }] := by
    decide
  rw [e, List.singleton_inj] at h1
  subst h1
  have hk := (h2 { Key := some "aws:x", Value := some "1" }).2
    ⟨"aws:x", "1", rfl, by decide, by decide⟩
  simp at hk

/-- C5, amended: whenever the new tag set `B` has an entry whose key does not
begin with `aws:` and is absent from the old tag set `A` or bound to another
value there, and the remove call, if one is sent, succeeds, `UpdateTags` sends
exactly one add call; the call names the resource, and its tag list holds, each
once and with the value of `B`, exactly the entries of `B` that are new or
changed and whose key does not begin with `aws:`. -/
theorem UpdateTags_add_call {σ : Type} (conn : Conn σ) (identifier : String)
    (A B : KeyValueTags) (s : σ)
    (hrm : ∀ input err, (Call.RemoveTags input, err) ∈ journal conn identifier A B s →
      err = none)
    (h : ∃ k v : String, B.get? k = some v ∧ A.get? k ≠ some v ∧
      strings.HasPrefix k AwsTagKeyPrefix = false) :
    ∃ input : AddTagsInput,
      addCalls (calls conn identifier A B s) = [input] ∧
        input.ARN = some identifier ∧
        input.TagList.Nodup ∧
        ∀ t : Tag, t ∈ input.TagList ↔
          ∃ k v, t = { Key := some k, Value := some v } ∧ B.get? k = some v ∧
            A.get? k ≠ some v ∧ strings.HasPrefix k AwsTagKeyPrefix = false := by
  obtain ⟨k, v, hB, hA, _⟩ := h
  refine ⟨addInput identifier A B, ?_, rfl, addInput_TagList_nodup identifier A B,
    mem_addInput_TagList identifier A B⟩
  have hok : 0 < (A.Removed B).len →
      (conn.RemoveTags (removeInput identifier A B) s).1 = none := by
    intro hr
    apply hrm (removeInput identifier A B)
    rw [journal_eq, if_pos hr]
    simp
  rw [addCalls_calls, if_pos ⟨hok, Updated_len_pos_of_entry A B k v hB hA⟩]

/-- The amended C5 at the first scenario of the spec, with a remote whose calls
succeed: one add call, for the entry `k3 ↦ v3`. -/
theorem UpdateTags_add_call_scenario :
    ∃ input : AddTagsInput,
      addCalls (calls okConn "arn" scenarioOld scenarioNew ()) = [input] ∧
        input.ARN = some "arn" ∧
        input.TagList.Nodup ∧
        ∀ t : Tag, t ∈ input.TagList ↔
          ∃ k v, t = { Key := some k, Value := some v } ∧ scenarioNew.get? k = some v ∧
            scenarioOld.get? k ≠ some v ∧ strings.HasPrefix k AwsTagKeyPrefix = false :=
  UpdateTags_add_call okConn "arn" scenarioOld scenarioNew ()
    (by
      intro input err hmem
      have hj : journal okConn "arn" scenarioOld scenarioNew () =
          [(Call.RemoveTags { ARN := some "arn", TagKeys := [some "k2"] }, none),
            (Call.AddTags ⟨some "arn", [⟨some "k3", some "v3"⟩]⟩, none)] := by decide
      rw [hj] at hmem
      simp only [List.mem_cons, Prod.mk.injEq, List.mem_singleton, List.not_mem_nil,
        or_false] at hmem
      rcases hmem with h1 | h1
      · exact h1.2
      · exact h1.2)
    ⟨"k3", "v3", by decide, by decide, by decide⟩

end elasticsearch

/-! ## Unchanged entries, disjoint tag sets, empty requests -/

namespace elasticsearch

open tftags

/-- C6: a key bound to the same value in the old tag set `A` and in the new tag
set `B` occurs neither in the key list of a remove call nor in the tag list of
an add call of `UpdateTags(A, B)`, whatever the remote does. -/
theorem UpdateTags_unchanged_not_sent {σ : Type} (conn : Conn σ) (identifier : String)
    (A B : KeyValueTags) (s : σ) (k v : String)
    (hA : A.get? k = some v) (hB : B.get? k = some v) :
    (∀ input ∈ removeCalls (calls conn identifier A B s), some k ∉ input.TagKeys) ∧
      (∀ input ∈ addCalls (calls conn identifier A B s),
        ∀ t ∈ input.TagList, t.Key ≠ some k) := by
  constructor
  · intro input hin hk
    rw [removeCalls_calls] at hin
    split_ifs at hin
    · rw [List.mem_singleton] at hin
      subst hin
      have hkB := ((mem_removeInput_TagKeys identifier A B k).1 hk).2.1
      exact hkB ((B.mem_Keys_iff k).2 ⟨v, (B.get?_eq_some_iff k v).1 hB⟩)
    · exact List.not_mem_nil _ hin
  · intro input hin t ht hkey
    rw [addCalls_calls] at hin
    split_ifs at hin
    · rw [List.mem_singleton] at hin
      subst hin
      obtain ⟨k2, v2, rfl, hB2, hA2, _⟩ := (mem_addInput_TagList identifier A B t).1 ht
      simp only [Option.some.injEq] at hkey
      subst hkey
      rw [hB] at hB2
      rw [← hB2] at hA2
      exact hA2 hA
    · exact List.not_mem_nil _ hin

/-- C6 at the first scenario of the spec: the key `k1`, bound to `v1` in both
tag sets, is in no request. -/
theorem UpdateTags_unchanged_not_sent_scenario :
    (∀ input ∈ removeCalls (calls okConn "arn" scenarioOld scenarioNew ()),
        some "k1" ∉ input.TagKeys) ∧
      (∀ input ∈ addCalls (calls okConn "arn" scenarioOld scenarioNew ()),
        ∀ t ∈ input.TagList, t.Key ≠ some "k1") :=
  UpdateTags_unchanged_not_sent okConn "arn" scenarioOld scenarioNew () "k1" "v1"
    (by decide) (by decide)

/-- C7, as stated, fails in four ways.  Old `{}` and new `a ↦ 1` share no key
and no remove call is sent; old `a ↦ 1` and new `{}` share no key and no add
call is sent; with old `aws:x ↦ 1, a ↦ 1` and new `b ↦ 2` the one remove call
carries the key `a` only; and with old `a ↦ 1`, new `b ↦ 2` and a remote that
fails the remove call, no add call is sent. -/
theorem UpdateTags_disjoint_calls_missing :
    removeCalls (calls okConn "arn" KeyValueTags.empty (KeyValueTags.single "a" "1") ()) = [] ∧
    addCalls (calls okConn "arn" (KeyValueTags.single "a" "1") KeyValueTags.empty ()) = [] ∧
    removeCalls (calls okConn "arn" ⟨[("aws:x", "1"), ("a", "1")], by decide⟩
        (KeyValueTags.single "b" "2") ()) = [{ ARN := some "arn", TagKeys := [some "a"] }] ∧
    addCalls (calls (failConn (GoError.errorString "boom")) "arn"
        (KeyValueTags.single "a" "1") (KeyValueTags.single "b" "2") ()) = [] := by
  decide

/-- C7, amended: let the old tag set `A` and the new tag set `B` have no key in
common.  If `A` has a key that does not begin with `aws:`, `UpdateTags` sends
exactly one remove call, which carries exactly the keys of `A` that do not
begin with `aws:`.  If `B` has a key that does not begin with `aws:` and the
remove call, if one is sent, succeeds, `UpdateTags` sends exactly one add call,
which carries exactly the entries of `B` whose key does not begin with
`aws:`. -/
theorem UpdateTags_disjoint_calls {σ : Type} (conn : Conn σ) (identifier : String)
    (A B : KeyValueTags) (s : σ) (hdis : ∀ k : String, k ∈ A.Keys → k ∉ B.Keys) :
    ((∃ k : String, k ∈ A.Keys ∧ strings.HasPrefix k AwsTagKeyPrefix = false) →
      ∃ input : RemoveTagsInput,
        removeCalls (calls conn identifier A B s) = [input] ∧
          ∀ k : String, some k ∈ input.TagKeys ↔
            (k ∈ A.Keys ∧ strings.HasPrefix k AwsTagKeyPrefix = false)) ∧
    ((∃ k : String, k ∈ B.Keys ∧ strings.HasPrefix k AwsTagKeyPrefix = false) →
      (∀ input err, (Call.RemoveTags input, err) ∈ journal conn identifier A B s →
        err = none) →
      ∃ input : AddTagsInput,
        addCalls (calls conn identifier A B s) = [input] ∧
          ∀ t : Tag, t ∈ input.TagList ↔
            ∃ k v, t = { Key := some k, Value := some v } ∧ B.get? k = some v ∧
              strings.HasPrefix k AwsTagKeyPrefix = false) := by
  have hdis' : ∀ k v : String, B.get? k = some v → A.get? k ≠ some v := by
    intro k v hB hA
    exact hdis k ((A.mem_Keys_iff k).2 ⟨v, (A.get?_eq_some_iff k v).1 hA⟩)
      ((B.mem_Keys_iff k).2 ⟨v, (B.get?_eq_some_iff k v).1 hB⟩)
  constructor
  · rintro ⟨k, hA, _⟩
    refine ⟨removeInput identifier A B, ?_, fun k2 => ?_⟩
    · rw [removeCalls_calls, if_pos (Removed_len_pos_of_key A B k hA (hdis k hA))]
    · rw [mem_removeInput_TagKeys]
      exact ⟨fun h => ⟨h.1, h.2.2⟩, fun h => ⟨h.1, hdis k2 h.1, h.2⟩⟩
  · rintro ⟨k, hB, _⟩ hrm
    obtain ⟨v, hv⟩ := (B.mem_Keys_iff k).1 hB
    have hBk : B.get? k = some v := (B.get?_eq_some_iff k v).2 hv
    refine ⟨addInput identifier A B, ?_, fun t => ?_⟩
    · have hok : 0 < (A.Removed B).len →
          (conn.RemoveTags (removeInput identifier A B) s).1 = none := by
        intro hr
        apply hrm (removeInput identifier A B)
        rw [journal_eq, if_pos hr]
        simp
      rw [addCalls_calls,
        if_pos ⟨hok, Updated_len_pos_of_entry A B k v hBk (hdis' k v hBk)⟩]
    · rw [mem_addInput_TagList]
      constructor
      · rintro ⟨k2, v2, ht, h1, _, h3⟩
        exact ⟨k2, v2, ht, h1, h3⟩
      · rintro ⟨k2, v2, ht, h1, h3⟩
        exact ⟨k2, v2, ht, h1, hdis' k2 v2 h1, h3⟩

/-- The amended C7 at old `a ↦ 1`, new `b ↦ 2` and a remote whose calls succeed:
one remove call and one add call. -/
theorem UpdateTags_disjoint_calls_example :
    (∃ input : RemoveTagsInput,
      removeCalls (calls okConn "arn" (KeyValueTags.single "a" "1")
          (KeyValueTags.single "b" "2") ()) = [input] ∧
        ∀ k : String, some k ∈ input.TagKeys ↔
          (k ∈ (KeyValueTags.single "a" "1").Keys ∧
            strings.HasPrefix k AwsTagKeyPrefix = false)) ∧
    (∃ input : AddTagsInput,
      addCalls (calls okConn "arn" (KeyValueTags.single "a" "1")
          (KeyValueTags.single "b" "2") ()) = [input] ∧
        ∀ t : Tag, t ∈ input.TagList ↔
          ∃ k v, t = { Key := some k, Value := some v } ∧
            (KeyValueTags.single "b" "2").get? k = some v ∧
            strings.HasPrefix k AwsTagKeyPrefix = false) :=
  have hdis : ∀ k : String, k ∈ (KeyValueTags.single "a" "1").Keys →
      k ∉ (KeyValueTags.single "b" "2").Keys := by
    intro k hk
    simp only [KeyValueTags.single, KeyValueTags.Keys, List.map_cons, List.map_nil,
      List.mem_singleton] at hk ⊢
    subst hk
    decide
  ⟨(UpdateTags_disjoint_calls okConn "arn" (KeyValueTags.single "a" "1")
      (KeyValueTags.single "b" "2") () hdis).1 ⟨"a", by decide, by decide⟩,
   (UpdateTags_disjoint_calls okConn "arn" (KeyValueTags.single "a" "1")
      (KeyValueTags.single "b" "2") () hdis).2 ⟨"b", by decide, by decide⟩
      (by
        intro input err hmem
        have hj : journal okConn "arn" (KeyValueTags.single "a" "1")
            (KeyValueTags.single "b" "2") () =
            [(Call.RemoveTags ⟨some "arn", [some "a"]⟩, none),
              (Call.AddTags ⟨some "arn", [⟨some "b", some "2"⟩]⟩, none)] := by decide
        rw [hj] at hmem
        simp only [List.mem_cons, Prod.mk.injEq, List.mem_singleton, List.not_mem_nil,
          or_false] at hmem
        rcases hmem with h1 | h1
        · exact h1.2
        · exact h1.2)⟩

end elasticsearch

/-! ## Number, order and errors of the requests -/

namespace gamelift

open tftags

theorem updateTags_requests_nonempty {σ : Type} (conn : Conn σ) (identifier : String)
    (A B : KeyValueTags) (s : σ) :
    ∀ c ∈ calls conn identifier A B s,
      (∀ input, c = Call.UntagResource input → input.TagKeys ≠ []) ∧
        (∀ input, c = Call.TagResource input → input.Tags ≠ []) := by
  intro c hc
  rw [updateTags_calls_eq, List.mem_append] at hc
  rcases hc with hc | hc
  · by_cases hr : 0 < (A.Removed B).IgnoreAws.len
    · rw [if_pos hr, List.mem_singleton] at hc
      subst hc
      refine ⟨fun input hin => ?_, fun input hin => by cases hin⟩
      cases hin
      intro hnil
      simp only [aws.StringSlice, KeyValueTags.Keys, List.map_eq_nil_iff] at hnil
      simp [KeyValueTags.len, hnil] at hr
    · rw [if_neg hr] at hc
      exact absurd hc (List.not_mem_nil _)
  · by_cases hu : (0 < (A.Removed B).IgnoreAws.len →
        (conn.UntagResourceWithContext
          { ResourceARN := some identifier
            TagKeys := aws.StringSlice (A.Removed B).IgnoreAws.Keys } s).1 = none)
        ∧ 0 < (A.Updated B).IgnoreAws.len
    · rw [if_pos hu, List.mem_singleton] at hc
      subst hc
      refine ⟨fun input hin => (by cases hin), fun input hin => ?_⟩
      cases hin
      intro hnil
      simp only [Tags, KeyValueTags.Map, List.map_eq_nil_iff] at hnil
      simp [KeyValueTags.len, hnil] at hu
    · rw [if_neg hu] at hc
      exact absurd hc (List.not_mem_nil _)

end gamelift

namespace elasticsearch

open tftags

/-- C8 fails for the elasticsearch helper: `UpdateTags` tests the length of the
removed and of the updated set before `IgnoreAws` is applied.  With old
`aws:x ↦ 1` and new `{}` it sends a remove call with an empty key list, and with
old `{}` and new `aws:x ↦ 1` an add call with an empty tag list.  The gamelift
`updateTags` filters first: on the same inputs it sends nothing, and it never
sends a request with an empty list. -/
theorem UpdateTags_sends_empty_requests :
    calls okConn "arn" (KeyValueTags.single "aws:x" "1") KeyValueTags.empty () =
        [Call.RemoveTags { ARN := some "arn", TagKeys := [] }] ∧
    calls okConn "arn" KeyValueTags.empty (KeyValueTags.single "aws:x" "1") () =
        [Call.AddTags { ARN := some "arn", TagList := [] }] ∧
    gamelift.calls gamelift.okConn "arn" (KeyValueTags.single "aws:x" "1")
        KeyValueTags.empty () = [] ∧
    gamelift.calls gamelift.okConn "arn" KeyValueTags.empty
        (KeyValueTags.single "aws:x" "1") () = [] ∧
    ∀ (τ : Type) (glConn : gamelift.Conn τ) (identifier : String) (A B : KeyValueTags) (t : τ),
      ∀ c ∈ gamelift.calls glConn identifier A B t,
        (∀ input, c = gamelift.Call.UntagResource input → input.TagKeys ≠ []) ∧
          (∀ input, c = gamelift.Call.TagResource input → input.Tags ≠ []) :=
  ⟨by decide, by decide, by decide, by decide,
    fun _ glConn identifier A B t =>
      gamelift.updateTags_requests_nonempty glConn identifier A B t⟩

/-- C9: whatever the remote does, one run of `UpdateTags` sends at most two
requests, at most one remove call and at most one add call, the remove call
first: the journal is empty, or one remove call, or one add call, or a remove
call followed by an add call. -/
theorem UpdateTags_at_most_two_calls {σ : Type} (conn : Conn σ) (identifier : String)
    (A B : KeyValueTags) (s : σ) :
    (calls conn identifier A B s).length ≤ 2 ∧
      (removeCalls (calls conn identifier A B s)).length ≤ 1 ∧
      (addCalls (calls conn identifier A B s)).length ≤ 1 ∧
      ∃ (r : RemoveTagsInput) (a : AddTagsInput),
        calls conn identifier A B s = [] ∨
          calls conn identifier A B s = [Call.RemoveTags r] ∨
          calls conn identifier A B s = [Call.AddTags a] ∨
          calls conn identifier A B s = [Call.RemoveTags r, Call.AddTags a] := by
  refine ⟨?_, ?_, ?_, removeInput identifier A B, addInput identifier A B, ?_⟩
  · rw [calls_eq]
    split_ifs <;> simp
  · rw [removeCalls_calls]
    split_ifs <;> simp
  · rw [addCalls_calls]
    split_ifs <;> simp
  · rw [calls_eq]
    split_ifs <;> simp

/-- C10, as stated, fails: when the remove call fails with the error `boom`,
`UpdateTags` returns another error, whose text is `error untagging resource
(arn): boom`; when the add call fails with `boom`, it returns the error with
the text `error tagging resource (arn): boom`. -/
theorem UpdateTags_error_not_returned_as_is :
    journal (failConn (GoError.errorString "boom")) "arn" (KeyValueTags.single "a" "1")
        KeyValueTags.empty () =
      [(Call.RemoveTags { ARN := some "arn", TagKeys := [some "a"] },
        some (GoError.errorString "boom"))] ∧
    (UpdateTags (failConn (GoError.errorString "boom")) "arn" (KeyValueTags.single "a" "1")
        KeyValueTags.empty ()).1 ≠ some (GoError.errorString "boom") ∧
    journal (failConn (GoError.errorString "boom")) "arn" KeyValueTags.empty
        (KeyValueTags.single "a" "1") () =
      [(Call.AddTags { ARN := some "arn", TagList := [{ Key := some "a", Value := some "1" }] },
        some (GoError.errorString "boom"))] ∧
    (UpdateTags (failConn (GoError.errorString "boom")) "arn" KeyValueTags.empty
        (KeyValueTags.single "a" "1") ()).1 ≠ some (GoError.errorString "boom") := by
  decide

/-- C10, amended: if the remove call sent by `UpdateTags` fails with the error
`e`, `UpdateTags` returns an error that wraps `e` and whose text is
`error untagging resource (<identifier>): ` followed by the text of `e`; if the
add call fails with `e`, it returns an error that wraps `e` and whose text is
`error tagging resource (<identifier>): ` followed by the text of `e`. -/
theorem UpdateTags_error_wrapped {σ : Type} (conn : Conn σ) (identifier : String)
    (A B : KeyValueTags) (s : σ) (e : GoError) :
    (∀ input, (Call.RemoveTags input, some e) ∈ journal conn identifier A B s →
      (UpdateTags conn identifier A B s).1 =
        some (GoError.wrapError
          ("error untagging resource (" ++ identifier ++ "): " ++ e.Error) e)) ∧
    (∀ input, (Call.AddTags input, some e) ∈ journal conn identifier A B s →
      (UpdateTags conn identifier A B s).1 =
        some (GoError.wrapError
          ("error tagging resource (" ++ identifier ++ "): " ++ e.Error) e)) := by
  constructor
  · intro input hin
    rw [journal_eq, List.mem_append] at hin
    rcases hin with hin | hin
    · by_cases hr : 0 < (A.Removed B).len
      · rw [if_pos hr, List.mem_singleton, Prod.mk.injEq] at hin
        rw [UpdateTags_fst, if_pos hr, ← hin.2]
        rfl
      · rw [if_neg hr] at hin
        exact absurd hin (List.not_mem_nil _)
    · by_cases hc : (0 < (A.Removed B).len →
          (conn.RemoveTags (removeInput identifier A B) s).1 = none) ∧ 0 < (A.Updated B).len
      · rw [if_pos hc, List.mem_singleton, Prod.mk.injEq] at hin
        exact Call.noConfusion hin.1
      · rw [if_neg hc] at hin
        exact absurd hin (List.not_mem_nil _)
  · intro input hin
    rw [journal_eq, List.mem_append] at hin
    rcases hin with hin | hin
    · by_cases hr : 0 < (A.Removed B).len
      · rw [if_pos hr, List.mem_singleton, Prod.mk.injEq] at hin
        exact Call.noConfusion hin.1
      · rw [if_neg hr] at hin
        exact absurd hin (List.not_mem_nil _)
    · by_cases hc : (0 < (A.Removed B).len →
          (conn.RemoveTags (removeInput identifier A B) s).1 = none) ∧ 0 < (A.Updated B).len
      · rw [if_pos hc, List.mem_singleton, Prod.mk.injEq] at hin
        rw [UpdateTags_fst]
        by_cases hr : 0 < (A.Removed B).len
        · simp only [if_pos hr, hc.1 hr, if_pos hc.2] at hin ⊢
          rw [← hin.2]
          rfl
        · simp only [if_neg hr, if_pos hc.2] at hin ⊢
          rw [← hin.2]
          rfl
      · rw [if_neg hc] at hin
        exact absurd hin (List.not_mem_nil _)

end elasticsearch

namespace elasticsearch

open tftags

/-- The amended C10 at a remote whose calls all fail with `boom`: the failed
remove call and the failed add call are both reported by an error that wraps
`boom`. -/
theorem UpdateTags_error_wrapped_example :
    (UpdateTags (failConn (GoError.errorString "boom")) "arn" (KeyValueTags.single "a" "1")
        KeyValueTags.empty ()).1 =
      some (GoError.wrapError
        ("error untagging resource (" ++ "arn" ++ "): " ++ (GoError.errorString "boom").Error)
        (GoError.errorString "boom")) ∧
    (UpdateTags (failConn (GoError.errorString "boom")) "arn" KeyValueTags.empty
        (KeyValueTags.single "a" "1") ()).1 =
      some (GoError.wrapError
        ("error tagging resource (" ++ "arn" ++ "): " ++ (GoError.errorString "boom").Error)
        (GoError.errorString "boom")) :=
  ⟨(UpdateTags_error_wrapped (failConn (GoError.errorString "boom")) "arn"
      (KeyValueTags.single "a" "1") KeyValueTags.empty () (GoError.errorString "boom")).1
      ⟨some "arn", [some "a"]⟩ (by decide),
   (UpdateTags_error_wrapped (failConn (GoError.errorString "boom")) "arn"
      KeyValueTags.empty (KeyValueTags.single "a" "1") () (GoError.errorString "boom")).2
      ⟨some "arn", [⟨some "a", some "1"⟩]⟩ (by decide)⟩

end elasticsearch

/-! ## Lemmas on the route table functions -/

namespace resource_aws_route_table

theorem enableResults_append (a b : List Event) :
    enableResults (a ++ b) = enableResults a ++ enableResults b := by
  induction a with
  | nil => rfl
  | cons e rest ih => cases e <;> simp [enableResults, ih]

theorem enableResults_cons_fail (J : List (Option GoError)) (err : GoError) (n : Nat)
    (r err0 : Option GoError) (h2 : J.length ≤ n) (h4 : ∀ e ∈ J.dropLast, e ≠ none)
    (h5 : r = J.getLast?.getD (some err)) (h6 : r ≠ none → J.length = n) :
    (some err :: J).length ≤ n + 1 ∧ (n + 1 ≠ 0 → some err :: J ≠ []) ∧
      (∀ e ∈ (some err :: J).dropLast, e ≠ none) ∧
      r = (some err :: J).getLast?.getD err0 ∧
      (r ≠ none → (some err :: J).length = n + 1) := by
  cases J with
  | nil =>
    simp only [List.getLast?_nil, Option.getD_none] at h5
    subst h5
    have h0 := h6 (by simp)
    simp at h0
    subst h0
    simp
  | cons a rest =>
    refine ⟨by simpa using h2, by simp, ?_, ?_, ?_⟩
    · intro e he
      rw [List.dropLast_cons₂, List.mem_cons] at he
      rcases he with he | he
      · subst he
        simp
      · exact h4 e he
    · rw [List.getLast?_cons_cons]
      rw [h5]
      simp [List.getLast?_cons]
    · intro hr
      simp [h6 hr]

theorem enableLoop_recorded {σ : Type} (conn : Conn σ) (d : ResourceData) (id : String)
    (n : Nat) (err0 : Option GoError) (s : σ) (j : List Event) :
    ∃ J : List (Option GoError),
      enableResults (enableLoop conn.recorded d id n err0 (s, j)).2.2 = enableResults j ++ J ∧
        J.length ≤ n ∧ (n ≠ 0 → J ≠ []) ∧ (∀ e ∈ J.dropLast, e ≠ none) ∧
        (enableLoop conn.recorded d id n err0 (s, j)).1 = J.getLast?.getD err0 ∧
        ((enableLoop conn.recorded d id n err0 (s, j)).1 ≠ none → J.length = n) := by
  induction n generalizing err0 s j with
  | zero =>
    refine ⟨[], ?_, ?_, ?_, ?_, ?_, ?_⟩ <;> simp [enableLoop]
  | succ n ih =>
    cases hc : conn.EnableVgwRoutePropagation
        { RouteTableId := aws.String d.Id, GatewayId := aws.String id } s with
    | mk e s1 =>
      cases e with
      | none =>
        refine ⟨[none], ?_, ?_, ?_, ?_, ?_, ?_⟩ <;>
          simp [enableLoop, Conn.recorded, hc, enableResults_append, enableResults]
      | some err =>
        by_cases ht : isAWSErr (some err) tfec2.ErrCodeGatewayNotAttached "" = true
        · obtain ⟨J, h1, h2, _, h4, h5, h6⟩ := ih (some err) (conn.Sleep 20 s1)
            (j ++ [Event.EnableVgwRoutePropagation
              { RouteTableId := aws.String d.Id, GatewayId := aws.String id } (some err)]
              ++ [Event.Sleep 20])
          have hrun : enableLoop conn.recorded d id (n + 1) err0 (s, j) =
              enableLoop conn.recorded d id n (some err) (conn.Sleep 20 s1,
                j ++ [Event.EnableVgwRoutePropagation
                  { RouteTableId := aws.String d.Id, GatewayId := aws.String id } (some err)]
                  ++ [Event.Sleep 20]) := by
            simp [enableLoop, Conn.recorded, hc, ht]
          rw [hrun]
          refine ⟨some err :: J, ?_, enableResults_cons_fail J err n _ err0 h2 h4 h5 h6⟩
          rw [h1]
          simp [enableResults_append, enableResults]
        · obtain ⟨J, h1, h2, _, h4, h5, h6⟩ := ih (some err) s1
            (j ++ [Event.EnableVgwRoutePropagation
              { RouteTableId := aws.String d.Id, GatewayId := aws.String id } (some err)])
          have hrun : enableLoop conn.recorded d id (n + 1) err0 (s, j) =
              enableLoop conn.recorded d id n (some err) (s1,
                j ++ [Event.EnableVgwRoutePropagation
                  { RouteTableId := aws.String d.Id, GatewayId := aws.String id }
                  (some err)]) := by
            simp [enableLoop, Conn.recorded, hc, ht]
          rw [hrun]
          refine ⟨some err :: J, ?_, enableResults_cons_fail J err n _ err0 h2 h4 h5 h6⟩
          rw [h1]
          simp [enableResults_append, enableResults]


theorem disassociateLoop_recorded {σ : Type} (conn : Conn σ)
    (associations : List (Option RouteTableAssociation)) (s : σ) (j : List Event) :
    ∃ E : List Event,
      (disassociateLoop conn.recorded associations (s, j)).2.2 = j ++ E ∧
        (∀ ev ∈ E, ∃ input err, ev = Event.DisassociateRouteTable input err) ∧
        ((disassociateLoop conn.recorded associations (s, j)).1 = some none →
          E.length = associations.length) ∧
        (∀ e, (disassociateLoop conn.recorded associations (s, j)).1 = some (some e) →
          ∃ input, Event.DisassociateRouteTable input (some e) ∈ E ∧
            isAWSErr (some e) tfec2.ErrCodeAssociationNotFound "" = false) ∧
        ((disassociateLoop conn.recorded associations (s, j)).1 = none →
          ∃ a ∈ associations, loggedAssociationId a = none) := by
  induction associations generalizing s j with
  | nil =>
    exact ⟨[], by simp [disassociateLoop], by simp, by simp [disassociateLoop],
      by simp [disassociateLoop], by simp [disassociateLoop]⟩
  | cons a0 rest ih =>
    rcases a0 with _ | a
    · refine ⟨[], ?_, by simp, ?_, ?_, ?_⟩
      · simp [disassociateLoop]
      · simp [disassociateLoop]
      · simp [disassociateLoop]
      · intro _
        exact ⟨none, by simp, rfl⟩
    rcases hid : a.RouteTableAssociationId with _ | aid
    · refine ⟨[], ?_, by simp, ?_, ?_, ?_⟩
      · simp [disassociateLoop, hid]
      · simp [disassociateLoop, hid]
      · simp [disassociateLoop, hid]
      · intro _
        exact ⟨some a, by simp, hid⟩
    · cases hc : conn.DisassociateRouteTable { AssociationId := some aid } s with
      | mk err s1 =>
        by_cases hcont : err = none ∨ isAWSErr err tfec2.ErrCodeAssociationNotFound "" = true
        · obtain ⟨E, h1, h2, h3, h4, h5⟩ := ih s1
            (j ++ [Event.DisassociateRouteTable { AssociationId := some aid } err])
          have hrun : disassociateLoop conn.recorded (some a :: rest) (s, j) =
              disassociateLoop conn.recorded rest (s1,
                j ++ [Event.DisassociateRouteTable { AssociationId := some aid } err]) := by
            rcases hcont with h | h
            · subst h
              simp [disassociateLoop, Conn.recorded, hc, hid]
            · cases err <;> simp [disassociateLoop, Conn.recorded, hc, h, hid]
          rw [hrun]
          refine ⟨Event.DisassociateRouteTable { AssociationId := some aid } err :: E,
            ?_, ?_, ?_, ?_, ?_⟩
          · rw [h1]
            simp
          · intro ev hev
            rw [List.mem_cons] at hev
            rcases hev with hev | hev
            · exact ⟨_, _, hev⟩
            · exact h2 ev hev
          · intro hr
            simp [h3 hr]
          · intro e he
            obtain ⟨input, hin, hne⟩ := h4 e he
            exact ⟨input, List.mem_cons_of_mem _ hin, hne⟩
          · intro hr
            obtain ⟨b, hb, hbn⟩ := h5 hr
            exact ⟨b, List.mem_cons_of_mem _ hb, hbn⟩
        · rw [not_or] at hcont
          obtain ⟨e, rfl⟩ := Option.ne_none_iff_exists'.1 hcont.1
          have hf : isAWSErr (some e) tfec2.ErrCodeAssociationNotFound "" = false := by
            simpa using hcont.2
          have hrun : disassociateLoop conn.recorded (some a :: rest) (s, j) =
              (some (some e), s1,
                j ++ [Event.DisassociateRouteTable { AssociationId := some aid } (some e)]) := by
            simp [disassociateLoop, Conn.recorded, hc, hf, hid]
          rw [hrun]
          refine ⟨[Event.DisassociateRouteTable { AssociationId := some aid } (some e)], rfl,
            ?_, ?_, ?_, ?_⟩
          · intro ev hev
            rw [List.mem_singleton] at hev
            exact ⟨_, _, hev⟩
          · intro hr
            cases hr
          · intro e2 he2
            simp only [Option.some.injEq] at he2
            subst he2
            exact ⟨_, List.mem_singleton.2 rfl, hf⟩
          · intro hr
            cases hr

theorem delete_shape {σ : Type} (conn : Conn σ) (d : ResourceData) (s : σ) :
    ∃ (rt0 : Option RouteTable) (err0 : Option GoError) (E T : List Event),
      (resourceAwsRouteTableDelete conn.recorded d (s, [])).2.2 =
          Event.RouteTableByID d.Id rt0 err0 :: (E ++ T) ∧
        (∀ ev ∈ E, ∃ input err, ev = Event.DisassociateRouteTable input err) ∧
        (isAWSErr err0 tfec2.ErrCodeRouteTableNotFound "" = true →
          (resourceAwsRouteTableDelete conn.recorded d (s, [])).1 = some none) ∧
        (∀ ev ∈ T,
          (∃ err, ev = Event.DeleteRouteTable { RouteTableId := some d.Id } err ∧
            (isAWSErr err tfec2.ErrCodeRouteTableNotFound "" = true →
              (resourceAwsRouteTableDelete conn.recorded d (s, [])).1 = some none)) ∨
          (∃ err, ev = Event.RouteTableDeleted d.Id err ∧
            (isAWSErr err tfec2.ErrCodeRouteTableNotFound "" = true →
              (resourceAwsRouteTableDelete conn.recorded d (s, [])).1 = some none))) ∧
        (T ≠ [] → ∃ err, Event.DeleteRouteTable { RouteTableId := some d.Id } err ∈ T) ∧
        (∀ rt, rt0 = some rt → err0 = none →
          (∀ input e, Event.DisassociateRouteTable input (some e) ∈ E →
            isAWSErr (some e) tfec2.ErrCodeAssociationNotFound "" = true) →
          (∀ a ∈ rt.Associations, loggedAssociationId a ≠ none) →
          T ≠ [] ∧ E.length = rt.Associations.length) ∧
        ((resourceAwsRouteTableDelete conn.recorded d (s, [])).1 = none →
          ∃ rt, rt0 = some rt ∧ err0 = none ∧
            ∃ a ∈ rt.Associations, loggedAssociationId a = none) := by
  unfold resourceAwsRouteTableDelete
  rcases hL : conn.RouteTableByID d.Id s with ⟨⟨rt0, err0⟩, s1⟩
  simp only [Conn.recorded, hL, List.nil_append]
  refine ⟨rt0, err0, ?_⟩
  by_cases h1 : isAWSErr err0 tfec2.ErrCodeRouteTableNotFound "" = true
  · refine ⟨[], [], ?_⟩
    have hne : err0 ≠ none := by
      rintro rfl
      simp [isAWSErr] at h1
    simp [h1, hne]
  · cases err0 with
    | some e0 =>
      refine ⟨[], [], ?_⟩
      simp [h1]
    | none =>
      cases rt0 with
      | none =>
        refine ⟨[], [], ?_⟩
        simp [h1]
      | some rt =>
        obtain ⟨E, hE1, hE2, hE3, hE4, hE5⟩ := disassociateLoop_recorded conn rt.Associations s1
          [Event.RouteTableByID d.Id (some rt) none]
        rcases hD : disassociateLoop conn.recorded rt.Associations
          (s1, [Event.RouteTableByID d.Id (some rt) none]) with ⟨rD, sD, jD⟩
        rw [hD] at hE1 hE3 hE4 hE5
        simp only at hE1 hE3 hE4 hE5
        simp only [Conn.recorded] at hD
        simp only [hD, h1, aws.String]
        subst hE1
        refine ⟨E, ?_⟩
        cases rD with
        | none =>
          obtain ⟨a, ha, han⟩ := hE5 rfl
          refine ⟨[], by simp, hE2, by simp [isAWSErr], by simp, by simp, ?_, ?_⟩
          · intro rt2 hrt _ _ hall
            simp only [Option.some.injEq] at hrt
            subst hrt
            exact absurd han (hall a ha)
          · intro _
            exact ⟨rt, rfl, trivial, a, ha, han⟩
        | some rD =>
        cases rD with
        | some eD =>
          obtain ⟨input, hin, hnot⟩ := hE4 eD rfl
          refine ⟨[], by simp, hE2, by simp [isAWSErr], by simp, by simp, ?_, by simp⟩
          intro rt2 _ _ hall _
          rw [hall input eD hin] at hnot
          exact absurd hnot (by simp)
        | none =>
          rcases hDel : conn.DeleteRouteTable { RouteTableId := some d.Id } sD with
            ⟨errD, s3⟩
          by_cases h2 : isAWSErr errD tfec2.ErrCodeRouteTableNotFound "" = true
          · refine ⟨[Event.DeleteRouteTable { RouteTableId := some d.Id } errD],
              by simp [hDel, h2, aws.String], hE2, by simp [isAWSErr],
              by simp [hDel, h2], fun _ => ⟨errD, by simp⟩, ?_, by simp [hDel, h2]⟩
            intro rt2 hrt _ _ _
            simp only [Option.some.injEq] at hrt
            subst hrt
            exact ⟨by simp, hE3 rfl⟩
          · cases errD with
            | some eDel =>
              refine ⟨[Event.DeleteRouteTable { RouteTableId := some d.Id } (some eDel)],
                by simp [hDel, h2, aws.String], hE2, by simp [isAWSErr],
                by simp [hDel, h2], fun _ => ⟨some eDel, by simp⟩, ?_, by simp [hDel, h2]⟩
              intro rt2 hrt _ _ _
              simp only [Option.some.injEq] at hrt
              subst hrt
              exact ⟨by simp, hE3 rfl⟩
            | none =>
              rcases hW : conn.RouteTableDeleted d.Id s3 with ⟨errW, s4⟩
              refine ⟨[Event.DeleteRouteTable { RouteTableId := some d.Id } none,
                  Event.RouteTableDeleted d.Id errW], ?_, hE2, by simp [isAWSErr], ?_,
                fun _ => ⟨none, by simp⟩, ?_, ?_⟩
              · by_cases h3 : isAWSErr errW tfec2.ErrCodeRouteTableNotFound "" = true
                · simp [hDel, h2, hW, h3, aws.String]
                · cases errW <;> simp [hDel, h2, hW, h3, aws.String]
              · intro ev hev
                simp only [List.mem_cons, List.mem_singleton, List.not_mem_nil, or_false] at hev
                rcases hev with hev | hev
                · exact Or.inl ⟨none, hev, by simp [isAWSErr]⟩
                · refine Or.inr ⟨errW, hev, fun h3 => ?_⟩
                  simp [hDel, h2, hW, h3]
              · intro rt2 hrt _ _ _
                simp only [Option.some.injEq] at hrt
                subst hrt
                exact ⟨by simp, hE3 rfl⟩
              · by_cases h3 : isAWSErr errW tfec2.ErrCodeRouteTableNotFound "" = true
                · simp [hDel, h2, hW, h3]
                · cases errW <;> simp [hDel, h2, hW, h3]

end resource_aws_route_table

namespace resource_aws_route_table

theorem enableLoop_recorded_plain {σ : Type} (conn : Conn σ) (d : ResourceData) (id : String)
    (n : Nat) (err0 : Option GoError) (s : σ) (j : List Event) :
    (enableLoop conn.recorded d id n err0 (s, j)).1 = (enableLoop conn d id n err0 s).1 := by
  induction n generalizing err0 s j with
  | zero => simp [enableLoop]
  | succ n ih =>
    cases hc : conn.EnableVgwRoutePropagation
        { RouteTableId := aws.String d.Id, GatewayId := aws.String id } s with
    | mk e s1 =>
      cases e with
      | none => simp [enableLoop, Conn.recorded, hc]
      | some err =>
        by_cases ht : isAWSErr (some err) tfec2.ErrCodeGatewayNotAttached "" = true
        · simp only [enableLoop, Conn.recorded, hc, ht, if_true]
          exact ih _ _ _
        · simp only [enableLoop, Conn.recorded, hc, ht, if_false]
          exact ih _ _ _

theorem disassociateLoop_recorded_plain {σ : Type} (conn : Conn σ)
    (associations : List (Option RouteTableAssociation)) (s : σ) (j : List Event) :
    (disassociateLoop conn.recorded associations (s, j)).1 =
        (disassociateLoop conn associations s).1 ∧
      (disassociateLoop conn.recorded associations (s, j)).2.1 =
        (disassociateLoop conn associations s).2 := by
  induction associations generalizing s j with
  | nil => simp [disassociateLoop]
  | cons a0 rest ih =>
    rcases a0 with _ | a
    · simp [disassociateLoop]
    rcases hid : a.RouteTableAssociationId with _ | aid
    · simp [disassociateLoop, hid]
    · cases hc : conn.DisassociateRouteTable { AssociationId := some aid } s with
      | mk err s1 =>
        cases err with
        | none =>
          simp only [disassociateLoop, Conn.recorded, hc, hid]
          exact ih _ _
        | some e =>
          by_cases ht : isAWSErr (some e) tfec2.ErrCodeAssociationNotFound "" = true
          · simp only [disassociateLoop, Conn.recorded, hc, ht, hid]
            simpa using ih _ _
          · simp [disassociateLoop, Conn.recorded, hc, ht, hid]

theorem deleteRun_plain {σ : Type} (conn : Conn σ) (d : ResourceData) (s : σ) :
    (deleteRun conn d s).1 = (resourceAwsRouteTableDelete conn d s).1 := by
  unfold deleteRun resourceAwsRouteTableDelete
  rcases hL : conn.RouteTableByID d.Id s with ⟨⟨rt0, err0⟩, s1⟩
  simp only [Conn.recorded, hL, List.nil_append]
  by_cases h1 : isAWSErr err0 tfec2.ErrCodeRouteTableNotFound "" = true
  · simp [h1]
  · cases err0 with
    | some e0 => simp [h1]
    | none =>
      cases rt0 with
      | none => simp [h1]
      | some rt =>
        obtain ⟨hp1, hp2⟩ := disassociateLoop_recorded_plain conn rt.Associations s1
          [Event.RouteTableByID d.Id (some rt) none]
        rcases hD : disassociateLoop conn.recorded rt.Associations
          (s1, [Event.RouteTableByID d.Id (some rt) none]) with ⟨rD, sD, jD⟩
        rcases hP : disassociateLoop conn rt.Associations s1 with ⟨rP, sP⟩
        rw [hD, hP] at hp1 hp2
        simp only at hp1 hp2
        subst hp1 hp2
        simp only [Conn.recorded] at hD
        simp only [hD, hP, h1, aws.String]
        cases rD with
        | none => simp
        | some rD =>
        cases rD with
        | some eD => simp
        | none =>
          rcases hDel : conn.DeleteRouteTable { RouteTableId := some d.Id } sD with ⟨errD, s3⟩
          by_cases h2 : isAWSErr errD tfec2.ErrCodeRouteTableNotFound "" = true
          · simp [hDel, h2]
          · cases errD with
            | some eDel => simp [hDel, h2]
            | none =>
              rcases hW : conn.RouteTableDeleted d.Id s3 with ⟨errW, s4⟩
              by_cases h3 : isAWSErr errW tfec2.ErrCodeRouteTableNotFound "" = true
              · simp [hDel, h2, hW, h3]
              · cases errW <;> simp [hDel, h2, hW, h3]

theorem enableCalls_append (a b : List Event) :
    enableCalls (a ++ b) = enableCalls a ++ enableCalls b := by
  induction a with
  | nil => rfl
  | cons e rest ih => cases e <;> simp [enableCalls, ih]

theorem enableLoop_calls {σ : Type} (conn : Conn σ) (d : ResourceData) (id : String)
    (n : Nat) (err0 : Option GoError) (s : σ) (j : List Event) :
    ∃ J : List (Option GoError),
      enableCalls (enableLoop conn.recorded d id n err0 (s, j)).2.2 =
          enableCalls j ++ runCalls d.Id [(id, J)] ∧
        J.length ≤ n ∧ (n ≠ 0 → J ≠ []) ∧ (∀ e ∈ J.dropLast, e ≠ none) ∧
        (enableLoop conn.recorded d id n err0 (s, j)).1 = J.getLast?.getD err0 ∧
        ((enableLoop conn.recorded d id n err0 (s, j)).1 ≠ none → J.length = n) := by
  induction n generalizing err0 s j with
  | zero =>
    refine ⟨[], ?_, ?_, ?_, ?_, ?_, ?_⟩ <;> simp [enableLoop, runCalls]
  | succ n ih =>
    cases hc : conn.EnableVgwRoutePropagation
        { RouteTableId := aws.String d.Id, GatewayId := aws.String id } s with
    | mk e s1 =>
      have hc2 := hc
      simp only [aws.String] at hc2
      cases e with
      | none =>
        refine ⟨[none], ?_, ?_, ?_, ?_, ?_, ?_⟩ <;>
          simp [enableLoop, Conn.recorded, hc2, enableCalls_append, enableCalls, runCalls,
            aws.String]
      | some err =>
        by_cases ht : isAWSErr (some err) tfec2.ErrCodeGatewayNotAttached "" = true
        · obtain ⟨J, h1, h2, _, h4, h5, h6⟩ := ih (some err) (conn.Sleep 20 s1)
            (j ++ [Event.EnableVgwRoutePropagation
              { RouteTableId := aws.String d.Id, GatewayId := aws.String id } (some err)]
              ++ [Event.Sleep 20])
          have hrun : enableLoop conn.recorded d id (n + 1) err0 (s, j) =
              enableLoop conn.recorded d id n (some err) (conn.Sleep 20 s1,
                j ++ [Event.EnableVgwRoutePropagation
                  { RouteTableId := aws.String d.Id, GatewayId := aws.String id } (some err)]
                  ++ [Event.Sleep 20]) := by
            simp [enableLoop, Conn.recorded, hc, ht]
          rw [hrun]
          refine ⟨some err :: J, ?_, enableResults_cons_fail J err n _ err0 h2 h4 h5 h6⟩
          rw [h1]
          simp [enableCalls_append, enableCalls, runCalls, aws.String]
        · obtain ⟨J, h1, h2, _, h4, h5, h6⟩ := ih (some err) s1
            (j ++ [Event.EnableVgwRoutePropagation
              { RouteTableId := aws.String d.Id, GatewayId := aws.String id } (some err)])
          have hrun : enableLoop conn.recorded d id (n + 1) err0 (s, j) =
              enableLoop conn.recorded d id n (some err) (s1,
                j ++ [Event.EnableVgwRoutePropagation
                  { RouteTableId := aws.String d.Id, GatewayId := aws.String id }
                  (some err)]) := by
            simp [enableLoop, Conn.recorded, hc, ht]
          rw [hrun]
          refine ⟨some err :: J, ?_, enableResults_cons_fail J err n _ err0 h2 h4 h5 h6⟩
          rw [h1]
          simp [enableCalls_append, enableCalls, runCalls, aws.String]

theorem disableLoop_calls {σ : Type} (conn : Conn σ) (d : ResourceData)
    (remove : List String) (s : σ) (j : List Event) :
    enableCalls (disableLoop conn.recorded d remove (s, j)).2.2 = enableCalls j := by
  induction remove generalizing s j with
  | nil => simp [disableLoop]
  | cons id remove ih =>
    cases hc : conn.DisableVgwRoutePropagation
        { RouteTableId := aws.String d.Id, GatewayId := aws.String id } s with
    | mk e s1 =>
      cases e with
      | some err =>
        simp [disableLoop, Conn.recorded, hc, enableCalls_append, enableCalls]
      | none =>
        have hstep : disableLoop conn.recorded d (id :: remove) (s, j) =
            disableLoop conn.recorded d remove (s1,
              j ++ [Event.DisableVgwRoutePropagation
                { RouteTableId := aws.String d.Id, GatewayId := aws.String id } none]) := by
          simp [disableLoop, Conn.recorded, hc]
        rw [hstep, ih]
        simp [enableCalls_append, enableCalls]

theorem runCalls_cons (routeTableId : String) (run : String × List (Option GoError))
    (runs : List (String × List (Option GoError))) :
    runCalls routeTableId (run :: runs) =
      runCalls routeTableId [run] ++ runCalls routeTableId runs := by
  simp [runCalls]

theorem addLoop_calls {σ : Type} (conn : Conn σ) (add : List String) (d : ResourceData)
    (s : σ) (j : List Event) :
    ∃ runs : List (String × List (Option GoError)),
      enableCalls (addLoop conn.recorded add d (s, j)).2.2.2 =
          enableCalls j ++ runCalls d.Id runs ∧
        runs.map Prod.fst <+: add ∧
        (∀ run ∈ runs, 1 ≤ run.2.length ∧ run.2.length ≤ 5 ∧
          ∀ e ∈ run.2.dropLast, e ≠ none) ∧
        (∀ run ∈ runs, ∀ e, run.2.getLast? = some (some e) →
          run.2.length = 5 ∧ (addLoop conn.recorded add d (s, j)).1 = some e) ∧
        ((addLoop conn.recorded add d (s, j)).1 = none → runs.map Prod.fst = add) := by
  induction add generalizing d s j with
  | nil =>
    exact ⟨[], by simp [addLoop, runCalls], by simp, by simp, by simp, by simp⟩
  | cons id add ih =>
    obtain ⟨J, h1, h2, h3, h4, h5, h6⟩ := enableLoop_calls conn d id 5 none s j
    have hJne : J ≠ [] := h3 (by decide)
    rcases hrun : enableLoop conn.recorded d id 5 none (s, j) with ⟨r, s1, j1⟩
    rw [hrun] at h1 h5 h6
    simp only at h1 h5 h6
    have hlast : J.getLast? = some r := by
      cases hl : J.getLast? with
      | none => exact absurd (List.getLast?_eq_none_iff.1 hl) hJne
      | some x =>
        rw [hl] at h5
        simp only [Option.getD_some] at h5
        rw [h5]
    cases r with
    | some err =>
      have hres : addLoop conn.recorded (id :: add) d (s, j) = (some err, d, (s1, j1)) := by
        simp [addLoop, hrun]
      rw [hres]
      refine ⟨[(id, J)], h1, by simp, ?_, ?_, by simp⟩
      · intro run hrun1
        rw [List.mem_singleton] at hrun1
        subst hrun1
        exact ⟨List.length_pos.2 hJne, h2, h4⟩
      · intro run hrun1 e he
        rw [List.mem_singleton] at hrun1
        subst hrun1
        simp only at he
        rw [hlast] at he
        simp only [Option.some.injEq] at he
        exact ⟨h6 (by simp), by rw [he]⟩
    | none =>
      obtain ⟨runs, g1, g2, g3, g4, g5⟩ :=
        ih { d with propagating_vgws := Add d.propagating_vgws id } s1 j1
      have hres : addLoop conn.recorded (id :: add) d (s, j) =
          addLoop conn.recorded add
            { d with propagating_vgws := Add d.propagating_vgws id } (s1, j1) := by
        simp [addLoop, hrun]
      rw [hres]
      refine ⟨(id, J) :: runs, ?_, ?_, ?_, ?_, ?_⟩
      · rw [g1, h1]
        simp [runCalls]
      · simpa using g2
      · intro run hrun1
        rw [List.mem_cons] at hrun1
        rcases hrun1 with hrun1 | hrun1
        · subst hrun1
          exact ⟨List.length_pos.2 hJne, h2, h4⟩
        · exact g3 run hrun1
      · intro run hrun1 e he
        rw [List.mem_cons] at hrun1
        rcases hrun1 with hrun1 | hrun1
        · subst hrun1
          simp only at he
          rw [hlast] at he
          cases he
        · exact g4 run hrun1 e he
      · intro hr
        simp [g5 hr]

theorem enableLoop_recorded_state {σ : Type} (conn : Conn σ) (d : ResourceData) (id : String)
    (n : Nat) (err0 : Option GoError) (s : σ) (j : List Event) :
    (enableLoop conn.recorded d id n err0 (s, j)).2.1 = (enableLoop conn d id n err0 s).2 := by
  induction n generalizing err0 s j with
  | zero => simp [enableLoop]
  | succ n ih =>
    cases hc : conn.EnableVgwRoutePropagation
        { RouteTableId := aws.String d.Id, GatewayId := aws.String id } s with
    | mk e s1 =>
      cases e with
      | none => simp [enableLoop, Conn.recorded, hc]
      | some err =>
        by_cases ht : isAWSErr (some err) tfec2.ErrCodeGatewayNotAttached "" = true
        · simp only [enableLoop, Conn.recorded, hc, ht, if_true]
          exact ih _ _ _
        · simp only [enableLoop, Conn.recorded, hc, ht, if_false]
          exact ih _ _ _

theorem disableLoop_recorded_plain {σ : Type} (conn : Conn σ) (d : ResourceData)
    (remove : List String) (s : σ) (j : List Event) :
    (disableLoop conn.recorded d remove (s, j)).1 = (disableLoop conn d remove s).1 ∧
      (disableLoop conn.recorded d remove (s, j)).2.1 = (disableLoop conn d remove s).2 := by
  induction remove generalizing s j with
  | nil => simp [disableLoop]
  | cons id remove ih =>
    cases hc : conn.DisableVgwRoutePropagation
        { RouteTableId := aws.String d.Id, GatewayId := aws.String id } s with
    | mk e s1 =>
      cases e with
      | some err => simp [disableLoop, Conn.recorded, hc]
      | none =>
        have h1 : disableLoop conn.recorded d (id :: remove) (s, j) =
            disableLoop conn.recorded d remove (s1,
              j ++ [Event.DisableVgwRoutePropagation
                { RouteTableId := aws.String d.Id, GatewayId := aws.String id } none]) := by
          simp [disableLoop, Conn.recorded, hc]
        have h2 : disableLoop conn d (id :: remove) s = disableLoop conn d remove s1 := by
          simp [disableLoop, hc]
        rw [h1, h2]
        exact ih _ _

theorem addLoop_recorded_plain {σ : Type} (conn : Conn σ) (add : List String)
    (d : ResourceData) (s : σ) (j : List Event) :
    (addLoop conn.recorded add d (s, j)).1 = (addLoop conn add d s).1 ∧
      (addLoop conn.recorded add d (s, j)).2.1 = (addLoop conn add d s).2.1 ∧
      (addLoop conn.recorded add d (s, j)).2.2.1 = (addLoop conn add d s).2.2 := by
  induction add generalizing d s j with
  | nil => simp [addLoop]
  | cons id add ih =>
    have e1 := enableLoop_recorded_plain conn d id 5 none s j
    have e2 := enableLoop_recorded_state conn d id 5 none s j
    rcases hR : enableLoop conn.recorded d id 5 none (s, j) with ⟨r, s1, j1⟩
    rcases hP : enableLoop conn d id 5 none s with ⟨r2, s2⟩
    rw [hR, hP] at e1 e2
    simp only at e1 e2
    subst e1 e2
    cases r with
    | some err => simp [addLoop, hR, hP]
    | none =>
      have h1 : addLoop conn.recorded (id :: add) d (s, j) =
          addLoop conn.recorded add
            { d with propagating_vgws := Add d.propagating_vgws id } (s1, j1) := by
        simp [addLoop, hR]
      have h2 : addLoop conn (id :: add) d s =
          addLoop conn add { d with propagating_vgws := Add d.propagating_vgws id } s1 := by
        simp [addLoop, hP]
      rw [h1, h2]
      exact ih _ _ _

theorem resourceAwsRouteTableUpdate_recorded_plain {σ : Type} (conn : Conn σ)
    (d : ResourceData) (rest : ResourceData → σ → Option GoError × ResourceData × σ)
    (s : σ) (j : List Event) :
    (resourceAwsRouteTableUpdate conn.recorded d (liftRest rest) (s, j)).1 =
      (resourceAwsRouteTableUpdate conn d rest s).1 := by
  by_cases hch : HasChange_propagating_vgws d = true
  · obtain ⟨d1, d2⟩ := disableLoop_recorded_plain conn d
      (Difference d.propagating_vgws_old d.propagating_vgws_new) s j
    rcases hD : disableLoop conn.recorded d
      (Difference d.propagating_vgws_old d.propagating_vgws_new) (s, j) with ⟨rD, sD, jD⟩
    rcases hP : disableLoop conn d
      (Difference d.propagating_vgws_old d.propagating_vgws_new) s with ⟨rP, sP⟩
    rw [hD, hP] at d1 d2
    simp only at d1 d2
    subst d1 d2
    cases rD with
    | some err => simp [resourceAwsRouteTableUpdate, hch, hD, hP]
    | none =>
      obtain ⟨a1, a2, a3⟩ := addLoop_recorded_plain conn
        (Difference d.propagating_vgws_new d.propagating_vgws_old)
        { d with propagating_vgws :=
            Intersection d.propagating_vgws_old d.propagating_vgws_new } sD jD
      rcases hA : addLoop conn.recorded
        (Difference d.propagating_vgws_new d.propagating_vgws_old)
        { d with propagating_vgws :=
            Intersection d.propagating_vgws_old d.propagating_vgws_new } (sD, jD)
        with ⟨rA, dA, sA, jA⟩
      rcases hB : addLoop conn
        (Difference d.propagating_vgws_new d.propagating_vgws_old)
        { d with propagating_vgws :=
            Intersection d.propagating_vgws_old d.propagating_vgws_new } sD
        with ⟨rB, dB, sB⟩
      rw [hA, hB] at a1 a2 a3
      simp only at a1 a2 a3
      subst a1 a2 a3
      cases rA with
      | some err => simp [resourceAwsRouteTableUpdate, hch, hD, hP, hA, hB]
      | none => simp [resourceAwsRouteTableUpdate, hch, hD, hP, hA, hB, liftRest]
  · simp [resourceAwsRouteTableUpdate, hch, liftRest]

theorem update_enable_shape {σ : Type} (conn : Conn σ)
    (d : ResourceData) (rest : ResourceData → σ → Option GoError × ResourceData × σ) (s : σ) :
    ∃ runs : List (String × List (Option GoError)),
      enableCalls
          (resourceAwsRouteTableUpdate conn.recorded d (liftRest rest) (s, [])).2.2.2 =
        runCalls d.Id runs ∧
      runs.map Prod.fst <+: Difference d.propagating_vgws_new d.propagating_vgws_old ∧
      (∀ run ∈ runs, 1 ≤ run.2.length ∧ run.2.length ≤ 5 ∧
        ∀ e ∈ run.2.dropLast, e ≠ none) ∧
      (∀ run ∈ runs, ∀ e, run.2.getLast? = some (some e) →
        run.2.length = 5 ∧
          (resourceAwsRouteTableUpdate conn.recorded d (liftRest rest) (s, [])).1 = some e) := by
  by_cases hch : HasChange_propagating_vgws d = true
  · have hdis := disableLoop_calls conn d
      (Difference d.propagating_vgws_old d.propagating_vgws_new) s []
    rcases hD : disableLoop conn.recorded d
      (Difference d.propagating_vgws_old d.propagating_vgws_new) (s, []) with ⟨rD, sD, jD⟩
    rw [hD] at hdis
    simp only [enableCalls] at hdis
    cases rD with
    | some err =>
      have hU : resourceAwsRouteTableUpdate conn.recorded d (liftRest rest) (s, []) =
          (some err, d, (sD, jD)) := by
        simp [resourceAwsRouteTableUpdate, hch, hD]
      rw [hU]
      exact ⟨[], by simp [hdis, runCalls], by simp, by simp, by simp⟩
    | none =>
      obtain ⟨runs, g1, g2, g3, g4, _⟩ := addLoop_calls conn
        (Difference d.propagating_vgws_new d.propagating_vgws_old)
        { d with propagating_vgws :=
            Intersection d.propagating_vgws_old d.propagating_vgws_new } sD jD
      rcases hA : addLoop conn.recorded
        (Difference d.propagating_vgws_new d.propagating_vgws_old)
        { d with propagating_vgws :=
            Intersection d.propagating_vgws_old d.propagating_vgws_new } (sD, jD)
        with ⟨rA, dA, sA, jA⟩
      rw [hA] at g1 g4
      simp only [hdis, List.nil_append] at g1 g4
      cases rA with
      | some err =>
        have hU : resourceAwsRouteTableUpdate conn.recorded d (liftRest rest) (s, []) =
            (some err, dA, (sA, jA)) := by
          simp [resourceAwsRouteTableUpdate, hch, hD, hA]
        rw [hU]
        exact ⟨runs, g1, g2, g3, g4⟩
      | none =>
        have hU : resourceAwsRouteTableUpdate conn.recorded d (liftRest rest) (s, []) =
            liftRest rest dA (sA, jA) := by
          simp [resourceAwsRouteTableUpdate, hch, hD, hA]
        rw [hU]
        refine ⟨runs, g1, g2, g3, ?_⟩
        intro run hrun e he
        have h := (g4 run hrun e he).2
        cases h
  · have hU : resourceAwsRouteTableUpdate conn.recorded d (liftRest rest) (s, []) =
        liftRest rest d (s, []) := by
      simp [resourceAwsRouteTableUpdate, hch]
    rw [hU]
    exact ⟨[], by simp [liftRest, enableCalls, runCalls], by simp, by simp, by simp⟩

end resource_aws_route_table

/-! ## Route propagation and deletion of a route table -/

namespace resource_aws_route_table

/-- C12 fails on the code: the enable loop goes on to its next iteration after
every failed call, not only after `Gateway.NotAttached`.  For a resource that
adds the gateway `vgw-1`, with a remote that fails the first call with the code
`InvalidParameterValue` and serves the second, the update function calls
`EnableVgwRoutePropagation` twice for the gateway and returns `nil`; the only
difference that `Gateway.NotAttached` makes is the sleep of 20 seconds. -/
theorem resourceAwsRouteTableUpdate_retries_any_error :
    isAWSErr (some (GoError.awsError "InvalidParameterValue" "bad gateway"))
        tfec2.ErrCodeGatewayNotAttached "" = false ∧
    (resourceAwsRouteTableUpdate
        (scriptedConn [some (GoError.awsError "InvalidParameterValue" "bad gateway"), none]
          none).recorded
        addsOneGateway noRest (0, [])).1 = none ∧
    (resourceAwsRouteTableUpdate
        (scriptedConn [some (GoError.awsError "InvalidParameterValue" "bad gateway"), none]
          none).recorded
        addsOneGateway noRest (0, [])).2.2.2 =
      [Event.EnableVgwRoutePropagation { RouteTableId := some "rtb-1", GatewayId := some "vgw-1" }
          (some (GoError.awsError "InvalidParameterValue" "bad gateway")),
        Event.EnableVgwRoutePropagation { RouteTableId := some "rtb-1", GatewayId := some "vgw-1" }
          none] ∧
    (resourceAwsRouteTableUpdate
        (scriptedConn [some (GoError.awsError "Gateway.NotAttached" "not attached"), none]
          none).recorded
        addsOneGateway noRest (0, [])).2.2.2 =
      [Event.EnableVgwRoutePropagation { RouteTableId := some "rtb-1", GatewayId := some "vgw-1" }
          (some (GoError.awsError "Gateway.NotAttached" "not attached")),
        Event.Sleep 20,
        Event.EnableVgwRoutePropagation { RouteTableId := some "rtb-1", GatewayId := some "vgw-1" }
          none] := by
  decide

/-- The enable loop on its own: for every gateway, every remote and every
state of it, the loop makes at least one and at most 5
`EnableVgwRoutePropagation` calls; every call but the last one failed, so the
loop stops at the first successful call; the error left by the loop is the
result of the last call, and it is an error only after 5 calls, all of which
failed; the loop over the gateways then returns that error. -/
theorem enableLoop_at_most_five_calls {σ : Type} (conn : Conn σ) (d : ResourceData)
    (id : String) (s : σ) :
    1 ≤ (enableResults (enableRun conn d id s).2.2).length ∧
      (enableResults (enableRun conn d id s).2.2).length ≤ 5 ∧
      (∀ e ∈ (enableResults (enableRun conn d id s).2.2).dropLast, e ≠ none) ∧
      (enableResults (enableRun conn d id s).2.2).getLast? =
        some (enableLoop conn d id 5 none s).1 ∧
      ((enableLoop conn d id 5 none s).1 ≠ none →
        (enableResults (enableRun conn d id s).2.2).length = 5) ∧
      (∀ (e : GoError) (add : List String), (enableLoop conn d id 5 none s).1 = some e →
        (addLoop conn (id :: add) d s).1 = some e) := by
  obtain ⟨J, h1, h2, h3, h4, h5, h6⟩ := enableLoop_recorded conn d id 5 none s []
  have hJ : enableResults (enableRun conn d id s).2.2 = J := by
    simpa [enableRun, enableResults] using h1
  have hne : J ≠ [] := h3 (by decide)
  rw [enableLoop_recorded_plain] at h5 h6
  rw [hJ]
  refine ⟨List.length_pos.2 hne, h2, h4, ?_, h6, ?_⟩
  · rw [h5]
    cases hl : J.getLast? with
    | none => exact absurd (List.getLast?_eq_none_iff.1 hl) hne
    | some x => rfl
  · intro e add he
    rcases hrun : enableLoop conn d id 5 none s with ⟨r, s1⟩
    rw [hrun] at he
    simp only at he
    subst he
    simp [addLoop, hrun]

/-- C20: in every run of `resourceAwsRouteTableUpdate`, whatever the remote
does, the `EnableVgwRoutePropagation` calls are those of one run of the enable
loop per gateway, for the newly added gateways in their order, as far as the
function gets.  Every run makes at least one and at most 5 calls, and every
call of it but the last one failed, so a run ends at its first successful call;
and when the last call of a run failed, the run made 5 calls and the function
returns the error of that last call. -/
theorem resourceAwsRouteTableUpdate_enable_at_most_five {σ : Type} (conn : Conn σ)
    (d : ResourceData) (rest : ResourceData → σ → Option GoError × ResourceData × σ) (s : σ) :
    ∃ runs : List (String × List (Option GoError)),
      enableCalls
          (resourceAwsRouteTableUpdate conn.recorded d (liftRest rest) (s, [])).2.2.2 =
        runCalls d.Id runs ∧
      runs.map Prod.fst <+: Difference d.propagating_vgws_new d.propagating_vgws_old ∧
      (∀ run ∈ runs, 1 ≤ run.2.length ∧ run.2.length ≤ 5 ∧
        ∀ e ∈ run.2.dropLast, e ≠ none) ∧
      (∀ run ∈ runs, ∀ e, run.2.getLast? = some (some e) →
        run.2.length = 5 ∧ (resourceAwsRouteTableUpdate conn d rest s).1 = some e) := by
  obtain ⟨runs, h1, h2, h3, h4⟩ := update_enable_shape conn d rest s
  refine ⟨runs, h1, h2, h3, fun run hrun e he => ⟨(h4 run hrun e he).1, ?_⟩⟩
  rw [← resourceAwsRouteTableUpdate_recorded_plain conn d rest s []]
  exact (h4 run hrun e he).2

/-- C14: the delete function returns `nil` whenever the lookup of the route
table, the `DeleteRouteTable` call or the wait for the deletion fails with the
code of a missing route table; and when the lookup found the route table, the
identifier of every association of it can be read and every failed
`DisassociateRouteTable` call failed with the code of a missing association, the
function goes on to the `DeleteRouteTable` call.  The function stops with a
run-time panic only when the lookup found a route table with an association
that is `nil` or whose identifier is `nil`. -/
theorem resourceAwsRouteTableDelete_not_found {σ : Type} (conn : Conn σ) (d : ResourceData)
    (s : σ) :
    (∀ rt e, Event.RouteTableByID d.Id rt (some e) ∈ (deleteRun conn d s).2.2 →
      isAWSErr (some e) tfec2.ErrCodeRouteTableNotFound "" = true →
      (resourceAwsRouteTableDelete conn d s).1 = some none) ∧
    (∀ input e, Event.DeleteRouteTable input (some e) ∈ (deleteRun conn d s).2.2 →
      isAWSErr (some e) tfec2.ErrCodeRouteTableNotFound "" = true →
      (resourceAwsRouteTableDelete conn d s).1 = some none) ∧
    (∀ id e, Event.RouteTableDeleted id (some e) ∈ (deleteRun conn d s).2.2 →
      isAWSErr (some e) tfec2.ErrCodeRouteTableNotFound "" = true →
      (resourceAwsRouteTableDelete conn d s).1 = some none) ∧
    (∀ rt, Event.RouteTableByID d.Id (some rt) none ∈ (deleteRun conn d s).2.2 →
      (∀ input e, Event.DisassociateRouteTable input (some e) ∈ (deleteRun conn d s).2.2 →
        isAWSErr (some e) tfec2.ErrCodeAssociationNotFound "" = true) →
      (∀ a ∈ rt.Associations, loggedAssociationId a ≠ none) →
      ∃ err, Event.DeleteRouteTable { RouteTableId := some d.Id } err ∈
        (deleteRun conn d s).2.2) ∧
    ((resourceAwsRouteTableDelete conn d s).1 = none →
      ∃ rt, Event.RouteTableByID d.Id (some rt) none ∈ (deleteRun conn d s).2.2 ∧
        ∃ a ∈ rt.Associations, loggedAssociationId a = none) := by
  obtain ⟨rt0, err0, E, T, hJ, hE, h0, hT, hTne, hAll, hPanic⟩ := delete_shape conn d s
  rw [← deleteRun_plain]
  unfold deleteRun
  rw [hJ]
  refine ⟨?_, ?_, ?_, ?_, ?_⟩
  · intro rt e hmem hnf
    rw [List.mem_cons, List.mem_append] at hmem
    rcases hmem with hmem | hmem | hmem
    · simp only [Event.RouteTableByID.injEq] at hmem
      rw [← hmem.2.2] at h0
      exact h0 hnf
    · obtain ⟨i, er, h⟩ := hE _ hmem
      cases h
    · rcases hT _ hmem with ⟨er, h, _⟩ | ⟨er, h, _⟩ <;> cases h
  · intro input e hmem hnf
    rw [List.mem_cons, List.mem_append] at hmem
    rcases hmem with hmem | hmem | hmem
    · cases hmem
    · obtain ⟨i, er, h⟩ := hE _ hmem
      cases h
    · rcases hT _ hmem with ⟨er, h, hr⟩ | ⟨er, h, _⟩
      · simp only [Event.DeleteRouteTable.injEq] at h
        rw [← h.2] at hr
        exact hr hnf
      · cases h
  · intro id e hmem hnf
    rw [List.mem_cons, List.mem_append] at hmem
    rcases hmem with hmem | hmem | hmem
    · cases hmem
    · obtain ⟨i, er, h⟩ := hE _ hmem
      cases h
    · rcases hT _ hmem with ⟨er, h, _⟩ | ⟨er, h, hr⟩
      · cases h
      · simp only [Event.RouteTableDeleted.injEq] at h
        rw [← h.2] at hr
        exact hr hnf
  · intro rt hmem hdis hids
    rw [List.mem_cons, List.mem_append] at hmem
    rcases hmem with hmem | hmem | hmem
    · simp only [Event.RouteTableByID.injEq] at hmem
      have hne := (hAll rt hmem.2.1.symm hmem.2.2.symm
        (fun input e hin => hdis input e
          (List.mem_cons_of_mem _ (List.mem_append_left _ hin))) hids).1
      obtain ⟨err, herr⟩ := hTne hne
      exact ⟨err, List.mem_cons_of_mem _ (List.mem_append_right _ herr)⟩
    · obtain ⟨i, er, h⟩ := hE _ hmem
      cases h
    · rcases hT _ hmem with ⟨er, h, _⟩ | ⟨er, h, _⟩ <;> cases h
  · intro hp
    obtain ⟨rt, hrt, herr, a, ha, han⟩ := hPanic hp
    subst hrt herr
    exact ⟨rt, List.mem_cons_self _ _, a, ha, han⟩

end resource_aws_route_table

/-! ## Creation of a batch job definition -/

namespace batch

/-- C15: when the type is `container` and `node_properties` is set, and when
the type is `multinode` and `container_properties` or `eks_properties` is set,
`resourceJobDefinitionCreate` returns diagnostics that hold an error, leaves
the resource and the remote as they were, and sends no `RegisterJobDefinition`
request, whatever the environment is. -/
theorem resourceJobDefinitionCreate_type_mismatch {σ : Type} (env : Env σ) (d : ResourceData)
    (s : σ)
    (h : (d.type = "container" ∧ d.node_properties ≠ "") ∨
      (d.type = "multinode" ∧ (d.container_properties ≠ "" ∨ d.eks_properties ≠ []))) :
    ∃ diags : diag.Diagnostics,
      resourceJobDefinitionCreate env d s = some (diags, d, s) ∧
        resourceJobDefinitionCreate env.recorded d (s, []) = some (diags, d, (s, [])) ∧
        diags.HasError = true := by
  rcases h with ⟨ht, hn⟩ | ⟨ht, hc | he⟩
  · refine ⟨sdkdiag.AppendErrorf []
      ("No `node_properties` can be specified when `type` is " ++ quoted d.type), ?_, ?_, ?_⟩
    · simp [resourceJobDefinitionCreate, ht, hn, JobDefinitionTypeContainer]
    · simp [resourceJobDefinitionCreate, ht, hn, JobDefinitionTypeContainer]
    · simp [sdkdiag.AppendErrorf, diag.Diagnostics.HasError]
  · refine ⟨sdkdiag.AppendErrorf []
      ("No `container_properties` can be specified when `type` is " ++ quoted d.type), ?_, ?_, ?_⟩
    · simp [resourceJobDefinitionCreate, ht, hc, JobDefinitionTypeContainer,
        JobDefinitionTypeMultinode]
    · simp [resourceJobDefinitionCreate, ht, hc, JobDefinitionTypeContainer,
        JobDefinitionTypeMultinode]
    · simp [sdkdiag.AppendErrorf, diag.Diagnostics.HasError]
  · by_cases hc : d.container_properties = ""
    · refine ⟨sdkdiag.AppendErrorf []
        ("No `eks_properties` can be specified when `type` is " ++ quoted d.type), ?_, ?_, ?_⟩
      · simp [resourceJobDefinitionCreate, ht, hc, he, JobDefinitionTypeContainer,
          JobDefinitionTypeMultinode]
      · simp [resourceJobDefinitionCreate, ht, hc, he, JobDefinitionTypeContainer,
          JobDefinitionTypeMultinode]
      · simp [sdkdiag.AppendErrorf, diag.Diagnostics.HasError]
    · refine ⟨sdkdiag.AppendErrorf []
        ("No `container_properties` can be specified when `type` is " ++ quoted d.type),
        ?_, ?_, ?_⟩
      · simp [resourceJobDefinitionCreate, ht, hc, JobDefinitionTypeContainer,
          JobDefinitionTypeMultinode]
      · simp [resourceJobDefinitionCreate, ht, hc, JobDefinitionTypeContainer,
          JobDefinitionTypeMultinode]
      · simp [sdkdiag.AppendErrorf, diag.Diagnostics.HasError]

/-- C15 at a job definition of type `container` with `node_properties` set. -/
theorem resourceJobDefinitionCreate_type_mismatch_example :
    ∃ diags : diag.Diagnostics,
      resourceJobDefinitionCreate plainEnv (jobDefinition "container" "nodes" "" []) () =
          some (diags, jobDefinition "container" "nodes" "" [], ()) ∧
        resourceJobDefinitionCreate plainEnv.recorded (jobDefinition "container" "nodes" "" [])
          ((), []) = some (diags, jobDefinition "container" "nodes" "" [], ((), [])) ∧
        diags.HasError = true :=
  resourceJobDefinitionCreate_type_mismatch plainEnv (jobDefinition "container" "nodes" "" []) ()
    (Or.inl ⟨by decide, by decide⟩)

end batch

/-! ## Update of an IAM role -/

namespace iam

/-- C13 fails on the code: only a failed `UpdateRoleDescription` call is
reported.  With a remote whose calls all fail with `boom`, a plan that changes
only the assume role policy, only the session duration, only the permissions
boundary (to a value, or to null) or only the tags makes `Update` send the one
request, which fails, and return diagnostics without any error; a plan that
changes only the description returns diagnostics with an error. -/
theorem Update_drops_remote_errors :
    (Update failingEnv.recorded
        (requestFor { priorRole with AssumeRolePolicy := FwString.value "new" }) ((), [])) =
      ({ Diagnostics := [], State := none },
        ((), [Event.UpdateAssumeRolePolicy
          { RoleName := some "role", PolicyDocument := some "new" }
          (some (GoError.errorString "boom"))])) ∧
    (Update failingEnv.recorded
        (requestFor { priorRole with MaxSessionDuration := FwInt64.value 7200 }) ((), [])) =
      ({ Diagnostics := [], State := none },
        ((), [Event.UpdateRole { RoleName := some "role", MaxSessionDuration := some 7200 }
          (some (GoError.errorString "boom"))])) ∧
    (Update failingEnv.recorded
        (requestFor { priorRole with
          PermissionsBoundary := FwString.value "arn:aws:iam::123456789012:policy/new" })
        ((), [])) =
      ({ Diagnostics := [], State := none },
        ((), [Event.PutRolePermissionsBoundary
          { PermissionsBoundary := some "arn:aws:iam::123456789012:policy/new"
            RoleName := some "role" }
          (some (GoError.errorString "boom"))])) ∧
    (Update failingEnv.recorded
        (requestFor { priorRole with PermissionsBoundary := FwString.null }) ((), [])) =
      ({ Diagnostics := [], State := none },
        ((), [Event.DeleteRolePermissionsBoundary { RoleName := some "role" }
          (some (GoError.errorString "boom"))])) ∧
    (Update failingEnv.recorded
        (requestFor { priorRole with TagsAll := FwMap.value [("a", "1")] }) ((), [])) =
      ({ Diagnostics := [], State := none },
        ((), [Event.roleUpdateTags "role" (FwMap.value []) (FwMap.value [("a", "1")])
          (some (GoError.errorString "boom"))])) ∧
    (Update failingEnv.recorded
        (requestFor { priorRole with Description := FwString.value "new" })
        ((), [])).1.Diagnostics.HasError = true ∧
    (Update failingEnv.recorded
        (requestFor { priorRole with Description := FwString.value "new" }) ((), [])).2.2 =
      [Event.UpdateRoleDescription { RoleName := some "role", Description := some "new" }
        (some (GoError.errorString "boom"))] := by
  decide

end iam

/-! ## Lemmas on splitting at `/` and on `RuleParseID` -/

namespace strings

theorem splitChars_ne_nil (sep : List Char) (l : List Char) (k : Nat) :
    splitChars sep l k ≠ [] := by
  induction l generalizing k with
  | nil => simp [splitChars]
  | cons c cs ih =>
    cases k with
    | succ k => simpa [splitChars] using ih k
    | zero =>
      unfold splitChars
      split_ifs
      · simp
      · split <;> simp

theorem splitChars_single_cons_sep (c : Char) (cs : List Char) :
    splitChars [c] (c :: cs) 0 = [] :: splitChars [c] cs 0 := by
  simp [splitChars]

theorem splitChars_single_cons_ne (c x : Char) (cs : List Char) (h : x ≠ c) :
    splitChars [c] (x :: cs) 0 =
      (x :: (splitChars [c] cs 0).headD []) :: (splitChars [c] cs 0).tail := by
  have hne := splitChars_ne_nil [c] cs 0
  have h' : ¬ c = x := fun e => h e.symm
  cases hs : splitChars [c] cs 0 with
  | nil => exact absurd hs hne
  | cons p ps => simp [splitChars, h', hs]

theorem splitChars_single_of_not_mem (c : Char) (l : List Char) (h : c ∉ l) :
    splitChars [c] l 0 = [l] := by
  induction l with
  | nil => simp [splitChars]
  | cons x xs ih =>
    rw [List.mem_cons, not_or] at h
    rw [splitChars_single_cons_ne c x xs (fun e => h.1 e.symm), ih h.2]
    simp

theorem splitChars_single_append (c : Char) (a b : List Char) :
    splitChars [c] (a ++ c :: b) 0 = splitChars [c] a 0 ++ splitChars [c] b 0 := by
  induction a with
  | nil => simp [splitChars]
  | cons x xs ih =>
    by_cases hx : x = c
    · subst hx
      rw [List.cons_append, splitChars_single_cons_sep, splitChars_single_cons_sep, ih]
      simp
    · rw [List.cons_append, splitChars_single_cons_ne c x _ hx,
        splitChars_single_cons_ne c x xs hx, ih]
      have hne := splitChars_ne_nil [c] xs 0
      cases hs : splitChars [c] xs 0 with
      | nil => exact absurd hs hne
      | cons p ps => simp

theorem lastIndexChars_single_of_not_mem (c : Char) (l : List Char) (h : c ∉ l) :
    lastIndexChars [c] l = none := by
  induction l with
  | nil => simp [lastIndexChars]
  | cons x xs ih =>
    rw [List.mem_cons, not_or] at h
    have h' : ¬ c = x := h.1
    simp [lastIndexChars, ih h.2, h']

theorem lastIndexChars_single_append (c : Char) (a b : List Char) (h : c ∉ b) :
    lastIndexChars [c] (a ++ c :: b) = some a.length := by
  induction a with
  | nil => simp [lastIndexChars, lastIndexChars_single_of_not_mem c b h]
  | cons x xs ih => simp [lastIndexChars, ih]

end strings

namespace strings

theorem Split_slash_of_not_mem (s : String) (h : '/' ∉ s.data) : Split s "/" = [s] := by
  have hsep : ("/" : String).data = ['/'] := rfl
  simp [Split, hsep, splitChars_single_of_not_mem '/' s.data h]

theorem Split_slash_append (a b : String) :
    Split (a ++ "/" ++ b) "/" = Split a "/" ++ Split b "/" := by
  have hsep : ("/" : String).data = ['/'] := rfl
  have hd : (a ++ "/" ++ b).data = a.data ++ '/' :: b.data := by
    simp [String.data_append, hsep]
  simp [Split, hsep, hd, splitChars_single_append]

theorem Split_ne_nil (s sep : String) (h : sep.data ≠ []) : Split s sep ≠ [] := by
  simp [Split, h, splitChars_ne_nil]

theorem LastIndex_slash_append (a b : String) (h : '/' ∉ b.data) :
    LastIndex (a ++ "/" ++ b) "/" = (a.data.length : Int) := by
  have hsep : ("/" : String).data = ['/'] := rfl
  have hd : (a ++ "/" ++ b).data = a.data ++ '/' :: b.data := by
    simp [String.data_append, hsep]
  simp [LastIndex, hsep, hd, lastIndexChars_single_append '/' a.data b.data h]

theorem sliceTo_append (a b : String) :
    sliceTo (a ++ "/" ++ b) (a.data.length : Int) = a := by
  have hsep : ("/" : String).data = ['/'] := rfl
  have hd : (a ++ "/" ++ b).data = a.data ++ '/' :: b.data := by
    simp [String.data_append, hsep]
  simp [sliceTo, hd]

theorem sliceFrom_append (a b : String) :
    sliceFrom (a ++ "/" ++ b) ((a.data.length : Int) + 1) = b := by
  have hsep : ("/" : String).data = ['/'] := rfl
  have hd : (a ++ "/" ++ b).data = a.data ++ '/' :: b.data := by
    simp [String.data_append, hsep]
  have hn : ((a.data.length : Int) + 1).toNat = a.data.length + 1 := by omega
  have hdrop : List.drop (a.data.length + 1) (a.data ++ '/' :: b.data) = b.data := by
    induction a.data with
    | nil => rfl
    | cons x xs ih => simp
  unfold sliceFrom
  rw [hd, hn, hdrop]

end strings

namespace tfevents

/-- C16: for every non-empty identifier without `/`, `RuleParseID` returns the
event bus `default` and the identifier itself as the rule name, with no
error. -/
theorem RuleParseID_one_part (id : String) (hne : id ≠ "") (hs : '/' ∉ id.data) :
    RuleParseID id = ("default", id, none) := by
  simp [RuleParseID, ruleIDSeparator, strings.Split_slash_of_not_mem id hs, hne,
    DefaultEventBusName]

/-- C16 at the identifier `TestRule` of the test. -/
theorem RuleParseID_one_part_example :
    RuleParseID "TestRule" = ("default", "TestRule", none) :=
  RuleParseID_one_part "TestRule" (by decide) (by decide)

/-- C17: for all non-empty `bus` and `rule` without `/`, `RuleParseID` maps the
identifier `bus/rule` to the bus `bus` and the rule `rule`, with no error:
parsing undoes joining with `/`. -/
theorem RuleParseID_two_parts (bus rule : String) (hb : bus ≠ "") (hr : rule ≠ "")
    (hbs : '/' ∉ bus.data) (hrs : '/' ∉ rule.data) :
    RuleParseID (bus ++ "/" ++ rule) = (bus, rule, none) := by
  simp [RuleParseID, ruleIDSeparator, strings.Split_slash_append,
    strings.Split_slash_of_not_mem bus hbs, strings.Split_slash_of_not_mem rule hrs, hb, hr]

end tfevents

namespace tfevents

/-- C17 at the identifier `TestEventBus/TestRule` of the test. -/
theorem RuleParseID_two_parts_example :
    RuleParseID ("TestEventBus" ++ "/" ++ "TestRule") = ("TestEventBus", "TestRule", none) :=
  RuleParseID_two_parts "TestEventBus" "TestRule" (by decide) (by decide) (by decide)
    (by decide)

theorem MatchString_parts (bus : String) (h : partnerEventBusPattern.MatchString bus = true) :
    3 ≤ (strings.Split bus "/").length := by
  unfold partnerEventBusPattern.MatchString at h
  cases hs : strings.Split bus "/" with
  | nil => simp [hs] at h
  | cons first parts =>
    simp only [hs, Bool.and_eq_true, decide_eq_true_eq] at h
    simp only [List.length_cons]
    omega

/-- C18: `RuleParseID` fails, with the empty string for both parts, on the empty
identifier, on every identifier with a single `/` whose text before or after
the `/` is empty, and on every identifier of three or more parts whose text
before the last `/` is not a partner event bus name; for an identifier whose
text before the last `/` is a partner event bus name, followed by a non-empty
rule name, such as `aws.partner/example.com/Test/TestRule`, it returns the text
before the last `/` as the bus and the text after it as the rule. -/
theorem RuleParseID_failures_and_partner :
    Failed (RuleParseID "") ∧
    (∀ x y : String, '/' ∉ x.data → '/' ∉ y.data → (x = "" ∨ y = "") →
      Failed (RuleParseID (x ++ "/" ++ y))) ∧
    (∀ id : String, 3 ≤ (strings.Split id "/").length →
      partnerEventBusPattern.MatchString
        (strings.sliceTo id (strings.LastIndex id "/")) = false →
      Failed (RuleParseID id)) ∧
    (∀ bus rule : String, partnerEventBusPattern.MatchString bus = true → rule ≠ "" →
      '/' ∉ rule.data → RuleParseID (bus ++ "/" ++ rule) = (bus, rule, none)) ∧
    RuleParseID "aws.partner/example.com/Test/TestRule" =
      ("aws.partner/example.com/Test", "TestRule", none) := by
  refine ⟨by unfold Failed; decide, ?_, ?_, ?_, by decide⟩
  · intro x y hx hy hxy
    have hparts : strings.Split (x ++ "/" ++ y) "/" = [x, y] := by
      simp [strings.Split_slash_append, strings.Split_slash_of_not_mem x hx,
        strings.Split_slash_of_not_mem y hy]
    have hemp : ¬ (¬ x = "" ∧ ¬ y = "") := by
      rintro ⟨h1, h2⟩
      rcases hxy with h | h
      · exact h1 h
      · exact h2 h
    simp [RuleParseID, ruleIDSeparator, hparts, hemp, Failed]
  · intro id hlen hpat
    have h1 : ¬ (strings.Split id "/").length = 1 := by omega
    have h2 : ¬ (strings.Split id "/").length = 2 := by omega
    have h3 : 2 < (strings.Split id "/").length := by omega
    simp [RuleParseID, ruleIDSeparator, h1, h2, h3, hpat, Failed]
  · intro bus rule hpat hrule hslash
    have hbus := MatchString_parts bus hpat
    have hparts : strings.Split (bus ++ "/" ++ rule) "/" = strings.Split bus "/" ++ [rule] := by
      rw [strings.Split_slash_append, strings.Split_slash_of_not_mem rule hslash]
    have hlen : (strings.Split (bus ++ "/" ++ rule) "/").length =
        (strings.Split bus "/").length + 1 := by
      rw [hparts]
      simp
    have h1 : ¬ (strings.Split (bus ++ "/" ++ rule) "/").length = 1 := by omega
    have h2 : ¬ (strings.Split (bus ++ "/" ++ rule) "/").length = 2 := by omega
    have h3 : 2 < (strings.Split (bus ++ "/" ++ rule) "/").length := by omega
    simp only [RuleParseID, ruleIDSeparator, h1, h2, h3, false_and, if_false, if_true,
      strings.LastIndex_slash_append bus rule hslash, strings.sliceTo_append,
      strings.sliceFrom_append, hpat, true_and]
    simp [hrule]

/-- C18 at identifiers of the test: `/TestRule` and `TestEventBus/` fail, the
identifier `TestEventBus/TestRule/Suffix` of three parts fails, and the partner
identifier is cut at its last `/`. -/
theorem RuleParseID_failures_and_partner_example :
    Failed (RuleParseID ("" ++ "/" ++ "TestRule")) ∧
    Failed (RuleParseID ("TestEventBus" ++ "/" ++ "")) ∧
    Failed (RuleParseID "TestEventBus/TestRule/Suffix") ∧
    RuleParseID ("aws.partner/example.com/Test" ++ "/" ++ "TestRule") =
      ("aws.partner/example.com/Test", "TestRule", none) :=
  ⟨RuleParseID_failures_and_partner.2.1 "" "TestRule" (by decide) (by decide) (Or.inl rfl),
   RuleParseID_failures_and_partner.2.1 "TestEventBus" "" (by decide) (by decide)
    (Or.inr rfl),
   RuleParseID_failures_and_partner.2.2.1 "TestEventBus/TestRule/Suffix" (by decide)
    (by decide),
   RuleParseID_failures_and_partner.2.2.2.1 "aws.partner/example.com/Test" "TestRule"
    (by decide) (by decide) (by decide)⟩

end tfevents

/-! ## Retrieval of a PGP key -/

namespace iam

/-- C19 fails on the code: the doc comment of `retrieveGPGKey` has the key
returned as given unless it begins with `keybase:`.  The keys `github:a:b` and
`github:user` do not begin with `keybase:`, yet for the first the function
returns an empty key and an error, and for the second it queries GitHub and
returns what it got from there. -/
theorem retrieveGPGKey_github_not_returned :
    strings.HasPrefix "github:a:b" "keybase:" = false ∧
    (retrieveGPGKey plainKeyEnv.recorded "github:a:b" ((), [])).1.1 = "" ∧
    (retrieveGPGKey plainKeyEnv.recorded "github:a:b" ((), [])).1.2 ≠ none ∧
    strings.HasPrefix "github:user" "keybase:" = false ∧
    retrieveGPGKey plainKeyEnv.recorded "github:user" ((), []) =
      (("armored", none), ((), [KeyEvent.httpGet "https://github.com/user.gpg"])) := by
  decide

/-- What the code does for the other keys: for every key that begins neither
with `keybase:` nor with `github:`, `retrieveGPGKey` returns the key itself,
unchanged, with a `nil` error, and queries no remote service, whatever the
environment is. -/
theorem retrieveGPGKey_plain_key {σ : Type} (env : KeyEnv σ) (pgpKey : String) (s : σ)
    (hk : strings.HasPrefix pgpKey "keybase:" = false)
    (hg : strings.HasPrefix pgpKey "github:" = false) :
    retrieveGPGKey env pgpKey s = ((pgpKey, none), s) ∧
      retrieveGPGKey env.recorded pgpKey (s, []) = ((pgpKey, none), (s, [])) := by
  constructor <;> simp [retrieveGPGKey, hk, hg]

/-- The same at a key given in full. -/
theorem retrieveGPGKey_plain_key_example :
    retrieveGPGKey plainKeyEnv "mQENBFxyz" () = (("mQENBFxyz", none), ()) ∧
      retrieveGPGKey plainKeyEnv.recorded "mQENBFxyz" ((), []) =
        (("mQENBFxyz", none), ((), [])) :=
  retrieveGPGKey_plain_key plainKeyEnv "mQENBFxyz" () (by decide) (by decide)

end iam

/-! ## The two tag helpers compared -/

namespace elasticsearch

open tftags

/-- C11 fails on the code: the two helpers differ in more than their SDK types.
With old `aws:x ↦ 1` and new `{}` the elasticsearch `UpdateTags` sends one
remove call, with an empty key list, and the gamelift `updateTags` sends none;
when the remote fails every call, the first returns an error and the second
returns `nil`. -/
theorem UpdateTags_differs_from_gamelift :
    (calls okConn "arn" (KeyValueTags.single "aws:x" "1") KeyValueTags.empty ()).map
        Call.toTagCall = [TagCall.remove "arn" []] ∧
    (gamelift.calls gamelift.okConn "arn" (KeyValueTags.single "aws:x" "1")
        KeyValueTags.empty ()).map gamelift.Call.toTagCall = [] ∧
    (UpdateTags (failConn (GoError.errorString "boom")) "arn" (KeyValueTags.single "aws:x" "1")
        KeyValueTags.empty ()).1 =
      some (GoError.wrapError "error untagging resource (arn): boom"
        (GoError.errorString "boom")) ∧
    (gamelift.updateTags (gamelift.failConn (GoError.errorString "boom")) "arn"
        (KeyValueTags.single "aws:x" "1") KeyValueTags.empty ()).1 = none := by
  decide

end elasticsearch

/-! ## Examples for the route table functions -/

namespace resource_aws_route_table

/-- The enable loop at a remote that fails every call with
`Gateway.NotAttached`: the loop ends with an error, after exactly 5 calls. -/
theorem enableLoop_at_most_five_calls_example :
    (enableResults (enableRun
      (scriptedConn (List.replicate 5 (some (GoError.awsError "Gateway.NotAttached" "wait")))
        none) addsOneGateway "vgw-1" 0).2.2).length = 5 :=
  (enableLoop_at_most_five_calls
    (scriptedConn (List.replicate 5 (some (GoError.awsError "Gateway.NotAttached" "wait")))
      none) addsOneGateway "vgw-1" 0).2.2.2.2.1 (by decide)

/-- C14 at four remotes: the lookup fails with the code of a missing route
table; the association is already gone and the `DeleteRouteTable` call fails
with that code; the wait fails with that code; the lookup finds a route table
with an association whose identifier is `nil`.  The delete function returns
`nil` the first three times, and in the second case the `DeleteRouteTable` call
was sent; the fourth time it stops with a run-time panic, after the lookup. -/
theorem resourceAwsRouteTableDelete_not_found_example :
    (resourceAwsRouteTableDelete
      (fixedConn (none, some (GoError.awsError "InvalidRouteTableID.NotFound" "gone"))
        none none none) addsOneGateway ()).1 = some none ∧
    (resourceAwsRouteTableDelete
      (fixedConn (some { Associations := [some { RouteTableAssociationId := some "a-1" }] }, none)
        (some (GoError.awsError "InvalidAssociationID.NotFound" "gone"))
        (some (GoError.awsError "InvalidRouteTableID.NotFound" "gone")) none)
      addsOneGateway ()).1 = some none ∧
    (∃ err, Event.DeleteRouteTable { RouteTableId := some addsOneGateway.Id } err ∈
      (deleteRun (fixedConn
        (some { Associations := [some { RouteTableAssociationId := some "a-1" }] }, none)
        (some (GoError.awsError "InvalidAssociationID.NotFound" "gone"))
        (some (GoError.awsError "InvalidRouteTableID.NotFound" "gone")) none)
        addsOneGateway ()).2.2) ∧
    (resourceAwsRouteTableDelete (fixedConn (some { Associations := [] }, none) none none
      (some (GoError.awsError "InvalidRouteTableID.NotFound" "gone")))
      addsOneGateway ()).1 = some none ∧
    (∃ rt, Event.RouteTableByID addsOneGateway.Id (some rt) none ∈
        (deleteRun (fixedConn
          (some { Associations := [some { RouteTableAssociationId := none }] }, none)
          none none none) addsOneGateway ()).2.2 ∧
      ∃ a ∈ rt.Associations, loggedAssociationId a = none) :=
  ⟨(resourceAwsRouteTableDelete_not_found
      (fixedConn (none, some (GoError.awsError "InvalidRouteTableID.NotFound" "gone"))
        none none none) addsOneGateway ()).1 none
      (GoError.awsError "InvalidRouteTableID.NotFound" "gone") (by decide) (by decide),
   (resourceAwsRouteTableDelete_not_found
      (fixedConn (some { Associations := [some { RouteTableAssociationId := some "a-1" }] }, none)
        (some (GoError.awsError "InvalidAssociationID.NotFound" "gone"))
        (some (GoError.awsError "InvalidRouteTableID.NotFound" "gone")) none)
      addsOneGateway ()).2.1 { RouteTableId := some "rtb-1" }
      (GoError.awsError "InvalidRouteTableID.NotFound" "gone") (by decide) (by decide),
   (resourceAwsRouteTableDelete_not_found
      (fixedConn (some { Associations := [some { RouteTableAssociationId := some "a-1" }] }, none)
        (some (GoError.awsError "InvalidAssociationID.NotFound" "gone"))
        (some (GoError.awsError "InvalidRouteTableID.NotFound" "gone")) none)
      addsOneGateway ()).2.2.2.1 { Associations := [some { RouteTableAssociationId := some "a-1" }] }
      (by decide)
      (by
        intro input e hmem
        have hj : (deleteRun (fixedConn
            (some { Associations := [some { RouteTableAssociationId := some "a-1" }] }, none)
            (some (GoError.awsError "InvalidAssociationID.NotFound" "gone"))
            (some (GoError.awsError "InvalidRouteTableID.NotFound" "gone")) none)
            addsOneGateway ()).2.2 =
            [Event.RouteTableByID "rtb-1"
                (some { Associations := [some { RouteTableAssociationId := some "a-1" }] }) none,
              Event.DisassociateRouteTable { AssociationId := some "a-1" }
                (some (GoError.awsError "InvalidAssociationID.NotFound" "gone")),
              Event.DeleteRouteTable { RouteTableId := some "rtb-1" }
                (some (GoError.awsError "InvalidRouteTableID.NotFound" "gone"))] := by
          decide
        rw [hj] at hmem
        simp only [List.mem_cons, List.mem_singleton, List.not_mem_nil, or_false,
          Event.DisassociateRouteTable.injEq, Option.some.injEq] at hmem
        rcases hmem with hmem | hmem | hmem
        · cases hmem
        · rw [hmem.2]
          decide
        · cases hmem)
      (by decide),
   (resourceAwsRouteTableDelete_not_found
      (fixedConn (some { Associations := [] }, none) none none
        (some (GoError.awsError "InvalidRouteTableID.NotFound" "gone")))
      addsOneGateway ()).2.2.1 "rtb-1"
      (GoError.awsError "InvalidRouteTableID.NotFound" "gone") (by decide) (by decide),
   (resourceAwsRouteTableDelete_not_found
      (fixedConn (some { Associations := [some { RouteTableAssociationId := none }] }, none)
        none none none) addsOneGateway ()).2.2.2.2 (by decide)⟩

/-- The run of the delete function at a route table with an association whose
identifier is `nil`, and at one with a `nil` association: the function stops
with a run-time panic after the lookup, and neither `DisassociateRouteTable`
nor `DeleteRouteTable` is called. -/
theorem resourceAwsRouteTableDelete_nil_association_panics :
    deleteRun (fixedConn
        (some { Associations := [some { RouteTableAssociationId := none }] }, none)
        none none none) addsOneGateway () =
      (none, (), [Event.RouteTableByID "rtb-1"
        (some { Associations := [some { RouteTableAssociationId := none }] }) none]) ∧
    deleteRun (fixedConn (some { Associations := [none] }, none) none none none)
        addsOneGateway () =
      (none, (), [Event.RouteTableByID "rtb-1" (some { Associations := [none] }) none]) := by
  decide

/-- The update function at a remote that fails every call with
`Gateway.NotAttached`, for a resource that adds the gateway `vgw-1`: the
function makes 5 `EnableVgwRoutePropagation` calls for the gateway and returns
the error of the last one. -/
theorem resourceAwsRouteTableUpdate_five_failed_calls :
    enableCalls (resourceAwsRouteTableUpdate
        (scriptedConn (List.replicate 5 (some (GoError.awsError "Gateway.NotAttached" "wait")))
          none).recorded addsOneGateway (liftRest noRest) (0, [])).2.2.2 =
      runCalls "rtb-1"
        [("vgw-1", List.replicate 5 (some (GoError.awsError "Gateway.NotAttached" "wait")))] ∧
    (resourceAwsRouteTableUpdate
        (scriptedConn (List.replicate 5 (some (GoError.awsError "Gateway.NotAttached" "wait")))
          none).recorded addsOneGateway (liftRest noRest) (0, [])).1 =
      some (GoError.awsError "Gateway.NotAttached" "wait") := by
  decide

end resource_aws_route_table

/-! ## Tag lists, tag sets and a failed remove call -/

namespace tftags

theorem lookupEntry_append (k : String) (a b : List (String × String)) :
    lookupEntry k (a ++ b) =
      match lookupEntry k a with
      | some v => some v
      | none => lookupEntry k b := by
  induction a with
  | nil => simp [lookupEntry]
  | cons kv rest ih =>
    obtain ⟨k1, v1⟩ := kv
    by_cases h : k1 = k
    · simp [lookupEntry, h]
    · simp [lookupEntry, h, ih]

theorem lookupEntry_filter_ne (k k2 : String) (l : List (String × String)) :
    lookupEntry k2 (l.filter (fun kv => !(kv.1 == k))) =
      if k2 = k then none else lookupEntry k2 l := by
  induction l with
  | nil => simp [lookupEntry]
  | cons kv rest ih =>
    obtain ⟨k1, v1⟩ := kv
    by_cases h1 : k1 = k
    · subst h1
      by_cases h2 : k2 = k1
      · subst h2
        simpa [List.filter_cons] using ih
      · have h3 : ¬ k1 = k2 := fun e => h2 e.symm
        simp [List.filter_cons, ih, h2, lookupEntry, h3]
    · by_cases h2 : k1 = k2
      · subst h2
        simp [List.filter_cons, h1, lookupEntry]
      · simp [List.filter_cons, h1, lookupEntry, h2, ih]

theorem KeyValueTags.get?_set (tags : KeyValueTags) (k v k2 : String) :
    (tags.set k v).get? k2 = if k2 = k then some v else tags.get? k2 := by
  unfold KeyValueTags.get? KeyValueTags.set
  simp only
  rw [lookupEntry_append, lookupEntry_filter_ne]
  by_cases h : k2 = k
  · simp [h, lookupEntry]
  · have h' : ¬ k = k2 := fun e => h e.symm
    simp only [h, if_false]
    cases hl : lookupEntry k2 tags.entries with
    | none => simp [lookupEntry, h']
    | some w => rfl

end tftags

namespace elasticsearch

theorem KeyValueTags_foldl_get? (tags : List Tag) (m : tftags.KeyValueTags) (k : String) :
    (tags.foldl (fun m tag => m.set (aws.StringValue tag.Key) (aws.StringValue tag.Value))
        m).get? k =
      match tags.reverse.find? (fun tag => aws.StringValue tag.Key == k) with
      | some tag => some (aws.StringValue tag.Value)
      | none => m.get? k := by
  induction tags generalizing m with
  | nil => simp
  | cons t rest ih =>
    rw [List.foldl_cons, ih, List.reverse_cons, List.find?_append]
    cases hf : rest.reverse.find? (fun tag => aws.StringValue tag.Key == k) with
    | some found => simp
    | none =>
      by_cases hk : aws.StringValue t.Key = k
      · simp [tftags.KeyValueTags.get?_set, hk]
      · have hk' : ¬ k = aws.StringValue t.Key := fun e => hk e.symm
        simp [tftags.KeyValueTags.get?_set, hk, hk']

theorem KeyValueTags_entries_get? (l : List (String × String))
    (hl : (l.map Prod.fst).Nodup) (m : tftags.KeyValueTags) (k : String) :
    ((l.map (fun kv => ({ Key := aws.String kv.1, Value := aws.String kv.2 } : Tag))).foldl
        (fun m tag => m.set (aws.StringValue tag.Key) (aws.StringValue tag.Value)) m).get? k =
      match tftags.lookupEntry k l with
      | some v => some v
      | none => m.get? k := by
  induction l generalizing m with
  | nil => simp [tftags.lookupEntry]
  | cons kv rest ih =>
    obtain ⟨k1, v1⟩ := kv
    rw [List.map_cons, List.nodup_cons] at hl
    rw [List.map_cons, List.foldl_cons, ih hl.2]
    by_cases h : k1 = k
    · subst h
      have hnone : tftags.lookupEntry k1 rest = none :=
        (tftags.lookupEntry_eq_none_iff k1 rest).2 hl.1
      simp [tftags.lookupEntry, hnone, tftags.KeyValueTags.get?_set, aws.String,
        aws.StringValue]
    · have h' : ¬ k = k1 := fun e => h e.symm
      simp [tftags.lookupEntry, h, h', tftags.KeyValueTags.get?_set, aws.String,
        aws.StringValue]

end elasticsearch

namespace elasticsearch

open tftags

/-- C23: if the remove call sent by `UpdateTags` fails, `UpdateTags` returns an
error and sends no add call, whatever the old and the new tag set and whatever
the remote are. -/
theorem UpdateTags_failed_remove_stops {σ : Type} (conn : Conn σ) (identifier : String)
    (A B : tftags.KeyValueTags) (s : σ) (input : RemoveTagsInput) (e : GoError)
    (h : (Call.RemoveTags input, some e) ∈ journal conn identifier A B s) :
    (UpdateTags conn identifier A B s).1 ≠ none ∧ addCalls (calls conn identifier A B s) = [] := by
  rw [journal_eq, List.mem_append] at h
  have hr : 0 < (A.Removed B).len ∧
      (conn.RemoveTags (removeInput identifier A B) s).1 = some e := by
    rcases h with h | h
    · by_cases hr : 0 < (A.Removed B).len
      · rw [if_pos hr, List.mem_singleton, Prod.mk.injEq] at h
        exact ⟨hr, h.2.symm⟩
      · rw [if_neg hr] at h
        exact absurd h (List.not_mem_nil _)
    · by_cases hc : (0 < (A.Removed B).len →
          (conn.RemoveTags (removeInput identifier A B) s).1 = none) ∧ 0 < (A.Updated B).len
      · rw [if_pos hc, List.mem_singleton, Prod.mk.injEq] at h
        exact Call.noConfusion h.1
      · rw [if_neg hc] at h
        exact absurd h (List.not_mem_nil _)
  constructor
  · rw [UpdateTags_fst, if_pos hr.1, hr.2]
    simp
  · rw [addCalls_calls, if_neg]
    intro hc
    rw [hc.1 hr.1] at hr
    exact Option.noConfusion hr.2

/-- C23 at old `a ↦ 1`, new `b ↦ 2` and a remote that fails every call. -/
theorem UpdateTags_failed_remove_stops_example :
    (UpdateTags (failConn (GoError.errorString "boom")) "arn" (KeyValueTags.single "a" "1")
        (KeyValueTags.single "b" "2") ()).1 ≠ none ∧
      addCalls (calls (failConn (GoError.errorString "boom")) "arn"
        (KeyValueTags.single "a" "1") (KeyValueTags.single "b" "2") ()) = [] :=
  UpdateTags_failed_remove_stops (failConn (GoError.errorString "boom")) "arn"
    (KeyValueTags.single "a" "1") (KeyValueTags.single "b" "2") ()
    { ARN := some "arn", TagKeys := [some "a"] } (GoError.errorString "boom") (by decide)

/-- C24: for every tag set `t`, `Tags(t)` has exactly one element per key of
`t`, which carries the key and its value, and `KeyValueTags(Tags(t))` binds
every key as `t` does; for any tag list, `KeyValueTags` binds a key to the
value of its last occurrence in the list. -/
theorem Tags_KeyValueTags_round_trip (t : tftags.KeyValueTags) :
    (Tags t).map (fun tag => tag.Key) = t.Keys.map some ∧
      t.Keys.Nodup ∧
      (∀ tag : Tag, tag ∈ Tags t ↔
        ∃ k v, tag = { Key := some k, Value := some v } ∧ t.get? k = some v) ∧
      (∀ k : String, (elasticsearch.KeyValueTags (Tags t)).get? k = t.get? k) ∧
      (∀ (tags : List Tag) (k : String),
        (elasticsearch.KeyValueTags tags).get? k =
          (tags.reverse.find? (fun tag => aws.StringValue tag.Key == k)).map
            (fun tag => aws.StringValue tag.Value)) ∧
      (elasticsearch.KeyValueTags
        [{ Key := some "a", Value := some "1" }, { Key := some "b", Value := some "2" },
          { Key := some "a", Value := some "3" }]).get? "a" = some "3" := by
  refine ⟨?_, t.nodup, ?_, ?_, ?_, by decide⟩
  · simp [Tags, tftags.KeyValueTags.Map, tftags.KeyValueTags.Keys, aws.String]
  · intro tag
    simp only [Tags, tftags.KeyValueTags.Map, List.mem_map, Prod.exists, aws.String,
      tftags.KeyValueTags.get?_eq_some_iff]
    constructor
    · rintro ⟨k, v, h, rfl⟩
      exact ⟨k, v, rfl, h⟩
    · rintro ⟨k, v, rfl, h⟩
      exact ⟨k, v, h, rfl⟩
  · intro k
    unfold elasticsearch.KeyValueTags Tags tftags.KeyValueTags.Map tftags.New
    rw [KeyValueTags_entries_get? t.entries t.nodup]
    cases h : tftags.lookupEntry k t.entries with
    | none => simp [tftags.KeyValueTags.get?, tftags.KeyValueTags.empty, tftags.lookupEntry, h]
    | some v => simp [tftags.KeyValueTags.get?, h]
  · intro tags k
    unfold elasticsearch.KeyValueTags tftags.New
    rw [KeyValueTags_foldl_get?]
    cases h : tags.reverse.find? (fun tag => aws.StringValue tag.Key == k) with
    | none => simp [tftags.KeyValueTags.get?, tftags.KeyValueTags.empty, tftags.lookupEntry]
    | some tag => simp

end elasticsearch

/-! ## `flattenRoutes` -/

namespace resource_aws_route_table

theorem flattenRoutesLoop_eq (routes : List Route) (vRoutes : List (List (String × String))) :
    flattenRoutesLoop routes vRoutes = vRoutes ++ (routes.filter keptRoute).map mRoute := by
  induction routes generalizing vRoutes with
  | nil => simp [flattenRoutesLoop]
  | cons route routes ih =>
    unfold flattenRoutesLoop
    by_cases h1 : aws.StringValue route.Origin ≠ RouteOriginCreateRoute
    · rw [if_pos h1, ih, List.filter_cons_of_neg]
      have h1n : ¬ aws.StringValue route.Origin = "CreateRoute" := h1
      simp [keptRoute, h1n]
    · rw [if_neg h1]
      have h1e : aws.StringValue route.Origin = "CreateRoute" := by
        simpa [RouteOriginCreateRoute] using h1
      by_cases h2 : strings.HasPrefix (aws.StringValue route.DestinationPrefixListId) "vpce-"
          = true
      · rw [if_pos h2, ih, List.filter_cons_of_neg]
        simp [keptRoute, h2]
      · rw [if_neg h2, ih, List.filter_cons_of_pos]
        · simp
        · simp [keptRoute, h1e, h2]

/-- C21: `flattenRoutes` returns the empty list for a `nil` input and otherwise,
in input order, exactly one map per route whose `Origin` is `CreateRoute` and
whose `DestinationPrefixListId` does not start with `vpce-`; every map has the
nine keys, each bound to the text of the field of the route, which is the empty
string for a `nil` field. -/
theorem flattenRoutes_kept_routes_in_order :
    flattenRoutes none = [] ∧
      (∀ routes : List Route,
        flattenRoutes (some routes) =
          (routes.filter (fun route =>
              decide (route.Origin.getD "" = "CreateRoute") &&
                !("vpce-".data.isPrefixOf (route.DestinationPrefixListId.getD "").data)
            )).map mRoute) ∧
      (∀ route : Route,
        mRoute route =
          [("cidr_block", route.DestinationCidrBlock.getD ""),
           ("ipv6_cidr_block", route.DestinationIpv6CidrBlock.getD ""),
           ("egress_only_gateway_id", route.EgressOnlyInternetGatewayId.getD ""),
           ("gateway_id", route.GatewayId.getD ""),
           ("instance_id", route.InstanceId.getD ""),
           ("nat_gateway_id", route.NatGatewayId.getD ""),
           ("network_interface_id", route.NetworkInterfaceId.getD ""),
           ("transit_gateway_id", route.TransitGatewayId.getD ""),
           ("vpc_peering_connection_id", route.VpcPeeringConnectionId.getD "")]) ∧
      (∀ route : Route, ((mRoute route).map Prod.fst).Nodup ∧ (mRoute route).length = 9) := by
  have hv : ∀ v : Option String, aws.StringValue v = v.getD "" := by
    intro v
    cases v <;> rfl
  refine ⟨rfl, ?_, ?_, ?_⟩
  · intro routes
    show flattenRoutesLoop routes [] = _
    rw [flattenRoutesLoop_eq, List.nil_append]
    congr 1
    apply List.filter_congr
    intro route _
    simp only [keptRoute, strings.HasPrefix, hv]
  · intro route
    simp only [mRoute, hv]
  · intro route
    refine ⟨?_, rfl⟩
    simp only [mRoute, List.map_cons, List.map_nil]
    decide

end resource_aws_route_table

/-! ## `FetchLatestGitHubPublicKey` -/

namespace pgpkeys

theorem FetchLatestGitHubPublicKey_requests {σ : Type} (env : Env σ) (pgpKey : String) (s : σ)
    (journal : List String) (h : (strings.Split pgpKey ":").length = 2) :
    (FetchLatestGitHubPublicKey env.recorded pgpKey (s, journal)).2.2 =
      journal ++ ["https://github.com/" ++ (strings.Split pgpKey ":").getD 1 "" ++ ".gpg"] := by
  unfold FetchLatestGitHubPublicKey
  simp only [h, ne_eq, not_true_eq_false, if_false]
  simp only [Env.recorded]
  rcases hg : env.Get ("https://github.com/" ++ (strings.Split pgpKey ":").getD 1 "" ++ ".gpg") s
    with ⟨⟨body, err⟩, s1⟩
  cases err with
  | some e => rfl
  | none =>
    simp only []
    rcases env.ReadAll body with ⟨bodyString, err2⟩
    cases err2 with
    | some e => rfl
    | none =>
      simp only []
      rcases env.ReadArmoredKeyRing bodyString with ⟨keyring, err3⟩
      cases err3 with
      | some e => rfl
      | none =>
        simp only []
        cases keyring with
        | nil => rfl
        | cons first rest =>
          simp only []
          rcases env.Serialize first with ⟨buf, err4⟩
          cases err4 <;> rfl

/-- The format test that the code does make: `FetchLatestGitHubPublicKey`
returns its error `invalid GPG key format` and sends no request for every key
that `:` does not split into exactly two components. -/
theorem FetchLatestGitHubPublicKey_format_error {σ : Type} (env : Env σ) (pgpKey : String)
    (s : σ) (h : (strings.Split pgpKey ":").length ≠ 2) :
    FetchLatestGitHubPublicKey env.recorded pgpKey (s, []) =
      (("", some (formatError pgpKey)), (s, [])) := by
  unfold FetchLatestGitHubPublicKey
  simp only [h, ne_eq, not_false_eq_true, if_true, formatError]

/-- The format test at the key `github:user:extra`. -/
theorem FetchLatestGitHubPublicKey_format_error_example :
    (strings.Split "github:user:extra" ":").length ≠ 2 ∧
      FetchLatestGitHubPublicKey plainEnv.recorded "github:user:extra" ((), []) =
        (("", some (formatError "github:user:extra")), ((), [])) :=
  ⟨by decide, FetchLatestGitHubPublicKey_format_error plainEnv "github:user:extra" ()
    (by decide)⟩

/-- C22 fails on the code: the error text of the function names the format
`github:$username`, but the function only counts the components of the key.  At
the key `keybase:user`, which does not begin with `github`, it returns no
format error and requests the address `https://github.com/user.gpg`. -/
theorem FetchLatestGitHubPublicKey_other_prefix_requested :
    strings.HasPrefix "keybase:user" "github" = false ∧
      FetchLatestGitHubPublicKey plainEnv.recorded "keybase:user" ((), []) =
        (("armored", none), ((), ["https://github.com/user.gpg"])) := by
  decide

end pgpkeys

/-! ## `strings.SplitN` and the identifier of a portfolio product association -/

namespace strings

theorem splitNChars_one (sep : List Char) (l : List Char) : splitNChars sep 1 l 0 = [l] := by
  cases l with
  | nil => simp [splitNChars]
  | cons c cs => simp [splitNChars]

theorem splitNChars_of_not_infix (sep : List Char) (n : Nat) (l : List Char)
    (h : ∀ t ∈ l.tails, sep.isPrefixOf t = false) : splitNChars sep n l 0 = [l] := by
  induction l with
  | nil => simp [splitNChars]
  | cons c cs ih =>
    have hc : sep.isPrefixOf (c :: cs) = false := h _ (by simp)
    have ht : ∀ t ∈ cs.tails, sep.isPrefixOf t = false := fun t ht => h t (by simp [ht])
    unfold splitNChars
    by_cases hn : n ≤ 1
    · rw [if_pos hn]
    · rw [if_neg hn, hc, ih ht]
      simp

theorem splitNChars_dashes_append (p q : List Char)
    (h1 : ∀ t ∈ p.tails, ['-', '-'].isPrefixOf t = false) (h2 : p.getLast? ≠ some '-') :
    splitNChars ['-', '-'] 2 (p ++ '-' :: '-' :: q) 0 = [p, q] := by
  induction p with
  | nil =>
    simp [splitNChars, splitNChars_one]
  | cons c cs ih =>
    have ht : ∀ t ∈ cs.tails, ['-', '-'].isPrefixOf t = false := fun t ht => h1 t (by simp [ht])
    have hl : cs.getLast? ≠ some '-' := by
      cases cs with
      | nil => simp
      | cons d ds => simpa [List.getLast?_cons_cons] using h2
    have hc : ['-', '-'].isPrefixOf (c :: (cs ++ '-' :: '-' :: q)) = false := by
      cases cs with
      | nil =>
        have : c ≠ '-' := by
          intro hc
          subst hc
          simp at h2
        simp [List.isPrefixOf, Ne.symm this]
      | cons d ds =>
        have h0 := h1 (c :: d :: ds) (by simp)
        simpa [List.isPrefixOf] using h0
    rw [List.cons_append]
    unfold splitNChars
    rw [if_neg (by decide), hc, ih ht hl]
    simp

end strings

namespace resource_aws_servicecatalog_portfolio_product_association

/-- C25: for all `portfolioId` and `productId` such that `portfolioId` does not
contain `--` and does not end with `-`,
`parseServiceCatalogPortfolioProductAssociationResourceId` returns, for the
identifier `portfolioId + "--" + productId`, the identifier, `portfolioId` and
`productId`. -/
theorem parse_inverts_association_id (portfolioId productId : String)
    (h1 : strings.Contains portfolioId "--" = false)
    (h2 : portfolioId.data.getLast? ≠ some '-') :
    parseServiceCatalogPortfolioProductAssociationResourceId
        (portfolioId ++ "--" ++ productId) =
      some (portfolioId ++ "--" ++ productId, portfolioId, productId) := by
  have ht : ∀ t ∈ portfolioId.data.tails, ['-', '-'].isPrefixOf t = false := by
    intro t ht
    have h := h1
    simp only [strings.Contains, List.any_eq_false] at h
    have h3 := h t ht
    exact Bool.eq_false_iff.mpr h3
  have hs : strings.SplitN (portfolioId ++ "--" ++ productId) "--" 2 =
      [portfolioId, productId] := by
    unfold strings.SplitN
    rw [if_neg (by decide), if_neg (by decide)]
    have hd : (portfolioId ++ "--" ++ productId).data =
        portfolioId.data ++ '-' :: '-' :: productId.data := by
      simp [String.data_append]
    have hn : (2 : Int).toNat = 2 := rfl
    rw [hd, hn]
    show List.map String.mk (strings.splitNChars ['-', '-'] 2 _ 0) = _
    rw [strings.splitNChars_dashes_append _ _ ht h2]
    rfl
  unfold parseServiceCatalogPortfolioProductAssociationResourceId
  simp only [hs]
  rfl

/-- C25 at the portfolio `port-1` and the product `prod--2`. -/
theorem parse_inverts_association_id_example :
    (strings.Contains "port-1" "--" = false ∧ "port-1".data.getLast? ≠ some '-') ∧
      parseServiceCatalogPortfolioProductAssociationResourceId ("port-1" ++ "--" ++ "prod--2") =
        some ("port-1" ++ "--" ++ "prod--2", "port-1", "prod--2") :=
  ⟨⟨by decide, by decide⟩,
    parse_inverts_association_id "port-1" "prod--2" (by decide) (by decide)⟩

/-- C26 fails: for every identifier that does not contain `--`, the index `s[1]`
of `parseServiceCatalogPortfolioProductAssociationResourceId` is out of range,
and so is it in the first read of a resource imported under that identifier. -/
theorem parse_index_out_of_range (id : String) (h : strings.Contains id "--" = false) :
    parseServiceCatalogPortfolioProductAssociationResourceId id = none ∧
      resourceAwsServiceCatalogPortfolioProductAssociationRequiredParameters
        (ImportStatePassthrough id) = none := by
  have ht : ∀ t ∈ id.data.tails, ['-', '-'].isPrefixOf t = false := by
    intro t ht
    have h0 := h
    simp only [strings.Contains, List.any_eq_false] at h0
    have h3 := h0 t ht
    exact Bool.eq_false_iff.mpr h3
  have hs : strings.SplitN id "--" 2 = [id] := by
    unfold strings.SplitN
    rw [if_neg (by decide), if_neg (by decide)]
    show List.map String.mk (strings.splitNChars ['-', '-'] _ id.data 0) = _
    rw [strings.splitNChars_of_not_infix _ _ _ ht]
    rfl
  have hp : parseServiceCatalogPortfolioProductAssociationResourceId id = none := by
    unfold parseServiceCatalogPortfolioProductAssociationResourceId
    simp only [hs]
    rfl
  refine ⟨hp, ?_⟩
  unfold resourceAwsServiceCatalogPortfolioProductAssociationRequiredParameters
  simp only [ImportStatePassthrough, ne_eq, not_true_eq_false, if_false]
  exact hp

/-- C26 at the identifier `abc`. -/
theorem parse_index_out_of_range_example :
    strings.Contains "abc" "--" = false ∧
      parseServiceCatalogPortfolioProductAssociationResourceId "abc" = none ∧
      resourceAwsServiceCatalogPortfolioProductAssociationRequiredParameters
        (ImportStatePassthrough "abc") = none :=
  ⟨by decide, parse_index_out_of_range "abc" (by decide)⟩

end resource_aws_servicecatalog_portfolio_product_association

/-! ## The finders of job definitions -/

namespace batch

theorem findJobDefinition_eq {σ : Type} (conn : DescribeConn σ)
    (input : DescribeJobDefinitionsInput) (s : σ)
    (output : Option DescribeJobDefinitionsOutput) (err : Option GoError) (s1 : σ) :
    conn.DescribeJobDefinitionsWithContext input s = ((output, err), s1) →
    findJobDefinition conn input s =
      match err, output with
      | some e, _ => ((none, some e), s1)
      | none, none => ((none, some GoError.emptyResultError), s1)
      | none, some o =>
        match o.JobDefinitions with
        | [] => ((none, some GoError.emptyResultError), s1)
        | none :: _ => ((none, some GoError.emptyResultError), s1)
        | some first :: rest =>
          if rest = [] then ((some first, none), s1)
          else ((none, some (GoError.tooManyResultsError (rest.length + 1))), s1) := by
  intro h
  unfold findJobDefinition
  rw [h]
  cases err with
  | some e => cases output <;> rfl
  | none =>
    cases output with
    | none => rfl
    | some o =>
      simp only [tfresource.NewEmptyResultError, tfresource.NewTooManyResultsError]
      rcases hd : o.JobDefinitions with _ | ⟨first, rest⟩
      · rfl
      · cases first with
        | none => rfl
        | some first =>
          cases rest with
          | nil => simp
          | cons second rest => simp

theorem findJobDefinition_fst_ne {σ : Type} (conn : DescribeConn σ)
    (input : DescribeJobDefinitionsInput) (s : σ) :
    (findJobDefinition conn input s).1 ≠ (none, none) := by
  rcases h : conn.DescribeJobDefinitionsWithContext input s with ⟨⟨output, err⟩, s1⟩
  rw [findJobDefinition_eq conn input s output err s1 h]
  cases err with
  | some e => simp
  | none =>
    cases output with
    | none => simp
    | some o =>
      rcases o with ⟨defs⟩
      rcases defs with _ | ⟨first, rest⟩
      · simp
      · cases first with
        | none => simp
        | some first =>
          cases rest with
          | nil => simp
          | cons second rest => simp

/-- C28, amended: `findJobDefinition` returns a job definition exactly when the
call succeeded and the output holds exactly one element, which is not `nil`, and
it returns that element; after a successful call it returns an empty-result
error when the output is `nil`, has no element or has a `nil` first element, and
a too-many-results error when the output has two or more elements and the first
one is not `nil`; it returns the error of a failed call; and
`FindJobDefinitionByARN` returns what `findJobDefinition` returns, except that it
returns a `NotFoundError` with the status as its message when the status of
the definition found is `INACTIVE`. -/
theorem findJobDefinition_results {σ : Type} (conn : DescribeConn σ)
    (input : DescribeJobDefinitionsInput) (arn : String) (s : σ) :
    (∀ definition : JobDefinition,
      (findJobDefinition conn input s).1.1 = some definition ↔
        (conn.DescribeJobDefinitionsWithContext input s).1.2 = none ∧
          (conn.DescribeJobDefinitionsWithContext input s).1.1 =
            some { JobDefinitions := [some definition] }) ∧
      ((findJobDefinition conn input s).1.1 ≠ none →
        (findJobDefinition conn input s).1.2 = none) ∧
      ((conn.DescribeJobDefinitionsWithContext input s).1.2 = none →
        ((conn.DescribeJobDefinitionsWithContext input s).1.1 = none ∨
          ∃ output, (conn.DescribeJobDefinitionsWithContext input s).1.1 = some output ∧
            (output.JobDefinitions = [] ∨ output.JobDefinitions.head? = some none)) →
        findJobDefinition conn input s =
          ((none, some tfresource.NewEmptyResultError),
            (conn.DescribeJobDefinitionsWithContext input s).2)) ∧
      ((conn.DescribeJobDefinitionsWithContext input s).1.2 = none →
        ∀ output first rest,
          (conn.DescribeJobDefinitionsWithContext input s).1.1 = some output →
          output.JobDefinitions = some first :: rest → rest ≠ [] →
          findJobDefinition conn input s =
            ((none, some (tfresource.NewTooManyResultsError output.JobDefinitions.length)),
              (conn.DescribeJobDefinitionsWithContext input s).2)) ∧
      (∀ err, (conn.DescribeJobDefinitionsWithContext input s).1.2 = some err →
        findJobDefinition conn input s =
          ((none, some err), (conn.DescribeJobDefinitionsWithContext input s).2)) ∧
      FindJobDefinitionByARN conn arn s =
        some (
          match findJobDefinition conn { JobDefinitions := [some arn] } s with
          | ((some definition, none), s1) =>
            if aws.StringValue definition.Status = "INACTIVE" then
              ((none, some (GoError.notFoundError "INACTIVE")), s1)
            else ((some definition, none), s1)
          | ((_, err), s1) => ((none, err), s1)) := by
  refine ⟨?_, ?_, ?_, ?_, ?_, ?_⟩
  · intro definition
    rcases h : conn.DescribeJobDefinitionsWithContext input s with ⟨⟨output, err⟩, s1⟩
    rw [findJobDefinition_eq conn input s output err s1 h]
    cases err with
    | some e => simp
    | none =>
      cases output with
      | none => simp
      | some o =>
        rcases o with ⟨defs⟩
        rcases defs with _ | ⟨first, rest⟩
        · simp
        · cases first with
          | none => simp
          | some first =>
            cases rest with
            | nil => simp
            | cons second rest => simp
  · rcases h : conn.DescribeJobDefinitionsWithContext input s with ⟨⟨output, err⟩, s1⟩
    rw [findJobDefinition_eq conn input s output err s1 h]
    cases err with
    | some e => simp
    | none =>
      cases output with
      | none => simp
      | some o =>
        rcases o with ⟨defs⟩
        rcases defs with _ | ⟨first, rest⟩
        · simp
        · cases first with
          | none => simp
          | some first =>
            cases rest with
            | nil => simp
            | cons second rest => simp
  · rcases h : conn.DescribeJobDefinitionsWithContext input s with ⟨⟨output, err⟩, s1⟩
    rw [findJobDefinition_eq conn input s output err s1 h]
    intro he ho
    simp only at he
    subst he
    rcases ho with ho | ⟨o, ho, hd⟩
    · simp only at ho
      subst ho
      rfl
    · simp only [Option.some.injEq] at ho
      subst ho
      rcases o with ⟨defs⟩
      rcases defs with _ | ⟨first, rest⟩
      · rfl
      · rcases hd with hd | hd
        · exact absurd hd (by simp)
        · simp only [List.head?_cons, Option.some.injEq] at hd
          subst hd
          rfl
  · rcases h : conn.DescribeJobDefinitionsWithContext input s with ⟨⟨output, err⟩, s1⟩
    rw [findJobDefinition_eq conn input s output err s1 h]
    intro he o first rest ho hd hr
    simp only at he ho
    subst he
    subst ho
    simp only [hd, if_neg hr, tfresource.NewTooManyResultsError, List.length_cons]
  · intro e he
    rcases h : conn.DescribeJobDefinitionsWithContext input s with ⟨⟨output, err⟩, s1⟩
    rw [findJobDefinition_eq conn input s output err s1 h]
    rw [h] at he
    simp only at he
    subst he
    rfl
  · unfold FindJobDefinitionByARN
    simp only [aws.StringSlice, List.map_cons, List.map_nil]
    have hne := findJobDefinition_fst_ne conn { JobDefinitions := [some arn] } s
    rcases hf : findJobDefinition conn { JobDefinitions := [some arn] } s
      with ⟨⟨definition, err⟩, s1⟩
    rw [hf] at hne
    cases err with
    | some e =>
      cases definition <;> rfl
    | none =>
      cases definition with
      | none => exact absurd rfl hne
      | some definition =>
        simp only [jobDefinitionStatusInactive]
        by_cases hs : aws.StringValue definition.Status = "INACTIVE"
        · simp [hs]
        · simp [hs]

/-- C28, amended, at an output whose one definition is `INACTIVE`:
`findJobDefinition` returns the definition and `FindJobDefinitionByARN` a
`NotFoundError`. -/
theorem findJobDefinition_results_example :
    FindJobDefinitionByARN
        (fixedDescribe
          (some { JobDefinitions :=
            [some { JobDefinitionArn := some "arn", Status := some "INACTIVE" }] }) none)
        "arn" () =
      some ((none, some (GoError.notFoundError "INACTIVE")), ()) :=
  (findJobDefinition_results
    (fixedDescribe
      (some { JobDefinitions :=
        [some { JobDefinitionArn := some "arn", Status := some "INACTIVE" }] }) none)
    { JobDefinitions := [some "arn"] } "arn" ()).2.2.2.2.2

/-- C28 as stated fails at an output of two elements whose first one is `nil`:
`findJobDefinition` returns an empty-result error, not a too-many-results
error. -/
theorem findJobDefinition_nil_first_of_two :
    findJobDefinition
        (fixedDescribe
          (some { JobDefinitions :=
            [none, some { JobDefinitionArn := some "arn", Status := some "ACTIVE" }] }) none)
        { JobDefinitions := [some "arn"] } () =
      ((none, some tfresource.NewEmptyResultError), ()) ∧
      ∀ count : Nat, tfresource.NewEmptyResultError ≠ tfresource.NewTooManyResultsError count := by
  refine ⟨rfl, ?_⟩
  intro count h
  cases h

end batch

/-! ## `findSnapshotCopyConfigurationByID` over a paged listing -/

namespace redshiftserverless

theorem pageIndex_tokenAt (i : Nat) : pageIndex (tokenAt i) = i := by
  unfold tokenAt
  by_cases h : i = 0
  · rw [if_pos h, h]
    rfl
  · rw [if_neg h]
    simp [pageIndex, pageToken]

theorem pagedConn_at (pages : List (List SnapshotCopyConfiguration)) (namespaceName : String)
    (i : Nat) (page : List SnapshotCopyConfiguration)
    (rest : List (List SnapshotCopyConfiguration))
    (journal : List ListSnapshotCopyConfigurationsInput)
    (h : pages.drop i = page :: rest) :
    (pagedConn pages).ListSnapshotCopyConfigurations (inputAt namespaceName i) journal =
      (Except.ok
        { SnapshotCopyConfigurations := page,
          NextToken := if rest = [] then none else some (pageToken (i + 1)) },
        journal ++ [inputAt namespaceName i]) := by
  have hi : pageIndex (inputAt namespaceName i).NextToken = i := pageIndex_tokenAt i
  have hg : pages.getD i [] = page := by
    rw [List.getD_eq_getElem?_getD]
    have h0 := List.getElem?_drop pages i 0
    rw [h] at h0
    simp only [List.getElem?_cons_zero, Nat.add_zero] at h0
    rw [← h0]
    rfl
  have hl : pages.length - i = rest.length + 1 := by
    rw [← List.length_drop, h]
    rfl
  simp only [pagedConn, hi, hg]
  congr 2
  by_cases hr : rest = []
  · subst hr
    simp only [List.length_nil] at hl
    rw [if_pos rfl, if_neg]
    omega
  · have : 0 < rest.length := List.length_pos.mpr hr
    rw [if_neg hr, if_pos]
    omega

theorem findSnapshotCopyConfigurationByIDLoop_paged
    (pages : List (List SnapshotCopyConfiguration)) (namespaceName ID : String) :
    ∀ (rest : List (List SnapshotCopyConfiguration)) (i fuel : Nat)
      (journal : List ListSnapshotCopyConfigurationsInput),
      rest ≠ [] → pages.drop i = rest → rest.length ≤ fuel →
      findSnapshotCopyConfigurationByIDLoop (pagedConn pages) ID fuel
          (inputAt namespaceName i) journal =
        some (Except.ok (rest.flatten.find?
            (fun item => aws.ToString item.SnapshotCopyConfigurationId == ID)),
          journal ++ (List.range' i (pagesNeeded ID rest)).map (inputAt namespaceName)) := by
  intro rest
  induction rest with
  | nil => intro i fuel journal h; exact absurd rfl h
  | cons page rest ih =>
    intro i fuel journal _ hd hf
    cases fuel with
    | zero => simp at hf
    | succ fuel =>
      have hf1 : rest.length ≤ fuel := by simpa using hf
      unfold findSnapshotCopyConfigurationByIDLoop
      rw [pagedConn_at pages namespaceName i page rest journal hd]
      simp only [List.flatten_cons, List.find?_append, pagesNeeded]
      cases hfind : page.find?
          (fun item => aws.ToString item.SnapshotCopyConfigurationId == ID) with
      | some c =>
        simp [List.range']
      | none =>
        by_cases hr : rest = []
        · subst hr
          simp [pagesNeeded, List.range']
        · have hd1 : pages.drop (i + 1) = rest := by
            rw [← List.tail_drop, hd]
            rfl
          have hin : ({ inputAt namespaceName i with NextToken := some (pageToken (i + 1)) } :
              ListSnapshotCopyConfigurationsInput) = inputAt namespaceName (i + 1) := by
            simp [inputAt, tokenAt]
          simp only [hr, if_false, ne_eq, not_true_eq_false, or_self, Option.isSome_none,
            Bool.false_eq_true, Option.none_or, reduceCtorEq]
          rw [hin, ih (i + 1) fuel (journal ++ [inputAt namespaceName i]) hr hd1 hf1]
          rw [Nat.add_comm 1, List.range'_succ]
          simp

theorem flatten_find?_of_front {α : Type} (p : α → Bool) (front : List (List α))
    (page : List α) (rest : List (List α))
    (hfront : ∀ q ∈ front, ∀ x ∈ q, ¬ p x = true) :
    (front ++ page :: rest).flatten.find? p = (page.find? p).or (rest.flatten.find? p) := by
  induction front with
  | nil => simp [List.find?_append]
  | cons q front ih =>
    have hq : q.find? p = none := List.find?_eq_none.mpr (hfront q (by simp))
    simp only [List.cons_append, List.flatten_cons, List.find?_append, hq, Option.none_or]
    rw [← List.find?_append, ← List.flatten_cons]
    rw [ih (fun q1 h1 => hfront q1 (by simp [h1])), List.flatten_cons, List.find?_append]

theorem pagesNeeded_of_front (ID : String) (front : List (List SnapshotCopyConfiguration))
    (page : List SnapshotCopyConfiguration) (rest : List (List SnapshotCopyConfiguration))
    (hfront : ∀ q ∈ front, ∀ x ∈ q, aws.ToString x.SnapshotCopyConfigurationId ≠ ID)
    (hpage : (page.find?
      (fun item => aws.ToString item.SnapshotCopyConfigurationId == ID)).isSome = true) :
    pagesNeeded ID (front ++ page :: rest) = front.length + 1 := by
  induction front with
  | nil => simp [pagesNeeded, hpage]
  | cons q front ih =>
    have hq : q.find? (fun item => aws.ToString item.SnapshotCopyConfigurationId == ID)
        = none := by
      rw [List.find?_eq_none]
      intro x hx
      simpa using hfront q (by simp) x hx
    rw [List.cons_append]
    unfold pagesNeeded
    rw [hq, ih (fun q1 h1 => hfront q1 (by simp [h1]))]
    simp only [Option.isSome_none, Bool.false_eq_true, if_false, List.length_cons]
    omega

theorem pagesNeeded_of_none (ID : String) (pages : List (List SnapshotCopyConfiguration))
    (h : ∀ q ∈ pages, ∀ x ∈ q, aws.ToString x.SnapshotCopyConfigurationId ≠ ID) :
    pagesNeeded ID pages = pages.length := by
  induction pages with
  | nil => rfl
  | cons q pages ih =>
    have hq : q.find? (fun item => aws.ToString item.SnapshotCopyConfigurationId == ID)
        = none := by
      rw [List.find?_eq_none]
      intro x hx
      simpa using h q (by simp) x hx
    unfold pagesNeeded
    rw [hq, ih (fun q1 h1 => h q1 (by simp [h1]))]
    simp only [Option.isSome_none, Bool.false_eq_true, if_false, List.length_cons]
    omega

/-- C27: over a remote that lists a finite, non-empty sequence of pages, and
with fuel for one request per page, `findSnapshotCopyConfigurationByID` returns;
it returns a `NotFoundError` exactly when no item of any page has the
identifier `ID`, and then it has requested every page; otherwise it returns,
without error, the first item with that identifier of the first page that
holds one, and it has requested the pages up to that one and no page after
it. -/
theorem findSnapshotCopyConfigurationByID_paged
    (pages : List (List SnapshotCopyConfiguration)) (namespaceName ID : String) (fuel : Nat)
    (hp : pages ≠ []) (hf : pages.length ≤ fuel) :
    ∃ (configuration : Option SnapshotCopyConfiguration) (err : Option GoError)
      (journal : List ListSnapshotCopyConfigurationsInput),
      findSnapshotCopyConfigurationByID (pagedConn pages) fuel namespaceName ID [] =
          some ((configuration, err), journal) ∧
        (err = some (GoError.notFoundError "") ↔
          ∀ page ∈ pages, ∀ item ∈ page, aws.ToString item.SnapshotCopyConfigurationId ≠ ID) ∧
        ((∀ page ∈ pages, ∀ item ∈ page,
            aws.ToString item.SnapshotCopyConfigurationId ≠ ID) →
          configuration = none ∧
            journal = (List.range pages.length).map (inputAt namespaceName)) ∧
        (∀ front page rest item, pages = front ++ page :: rest →
          (∀ q ∈ front, ∀ x ∈ q, aws.ToString x.SnapshotCopyConfigurationId ≠ ID) →
          page.find? (fun x => aws.ToString x.SnapshotCopyConfigurationId == ID) = some item →
          configuration = some item ∧ err = none ∧
            journal = (List.range (front.length + 1)).map (inputAt namespaceName)) := by
  have hloop := findSnapshotCopyConfigurationByIDLoop_paged pages namespaceName ID pages 0 fuel
    [] hp rfl hf
  have hin : ListSnapshotCopyConfigurationsInput.mk (aws.String namespaceName) (some 100) none =
      inputAt namespaceName 0 := rfl
  have hnone : pages.flatten.find?
      (fun item => aws.ToString item.SnapshotCopyConfigurationId == ID) = none ↔
      ∀ page ∈ pages, ∀ item ∈ page, aws.ToString item.SnapshotCopyConfigurationId ≠ ID := by
    rw [List.find?_eq_none]
    constructor
    · intro h page hpage item hitem
      simpa using h item (List.mem_flatten.mpr ⟨page, hpage, hitem⟩)
    · intro h item hitem
      rcases List.mem_flatten.mp hitem with ⟨page, hpage, hi⟩
      simpa using h page hpage item hi
  have hfront : ∀ front page rest item, pages = front ++ page :: rest →
      (∀ q ∈ front, ∀ x ∈ q, aws.ToString x.SnapshotCopyConfigurationId ≠ ID) →
      page.find? (fun x => aws.ToString x.SnapshotCopyConfigurationId == ID) = some item →
      pages.flatten.find? (fun item => aws.ToString item.SnapshotCopyConfigurationId == ID)
          = some item ∧
        pagesNeeded ID pages = front.length + 1 := by
    intro front page rest item hpages hq hitem
    subst hpages
    constructor
    · rw [flatten_find?_of_front _ front page rest (fun q hq1 x hx => by
        simpa using hq q hq1 x hx), hitem]
      rfl
    · exact pagesNeeded_of_front ID front page rest hq (by rw [hitem]; rfl)
  cases hfind : pages.flatten.find?
      (fun item => aws.ToString item.SnapshotCopyConfigurationId == ID) with
  | none =>
    have hall := hnone.mp hfind
    refine ⟨none, some (GoError.notFoundError ""),
      (List.range (pagesNeeded ID pages)).map (inputAt namespaceName), ?_, ?_, ?_, ?_⟩
    · unfold findSnapshotCopyConfigurationByID
      simp only [hin, hloop, hfind, List.nil_append, List.range_eq_range']
    · exact ⟨fun _ => hall, fun _ => rfl⟩
    · intro _
      rw [pagesNeeded_of_none ID pages hall]
      exact ⟨rfl, rfl⟩
    · intro front page rest item hpages hq hitem
      have h1 := (hfront front page rest item hpages hq hitem).1
      rw [hfind] at h1
      cases h1
  | some c =>
    refine ⟨some c, none,
      (List.range (pagesNeeded ID pages)).map (inputAt namespaceName), ?_, ?_, ?_, ?_⟩
    · unfold findSnapshotCopyConfigurationByID
      simp only [hin, hloop, hfind, List.nil_append, List.range_eq_range']
    · constructor
      · intro h
        cases h
      · intro h
        rw [hnone.mpr h] at hfind
        cases hfind
    · intro h
      rw [hnone.mpr h] at hfind
      cases hfind
    · intro front page rest item hpages hq hitem
      have h1 := hfront front page rest item hpages hq hitem
      rw [hfind] at h1
      rw [h1.2]
      exact ⟨h1.1, rfl, rfl⟩

/-- C27 at a listing of three pages and the identifier `b`, which two items of
the second page have: the first of them is returned, after two requests. -/
theorem findSnapshotCopyConfigurationByID_paged_example :
    (threePages ≠ [] ∧ threePages.length ≤ 3) ∧
      findSnapshotCopyConfigurationByID (pagedConn threePages) 3 "ns" "b" [] =
        some ((some { SnapshotCopyConfigurationId := some "b", DestinationRegion := some "r1" },
          none), [inputAt "ns" 0, inputAt "ns" 1]) := by
  refine ⟨⟨by decide, by decide⟩, ?_⟩
  obtain ⟨configuration, err, journal, h, _, _, hfound⟩ :=
    findSnapshotCopyConfigurationByID_paged threePages "ns" "b" 3 (by decide) (by decide)
  obtain ⟨h1, h2, h3⟩ := hfound
    [[{ SnapshotCopyConfigurationId := some "a", DestinationRegion := none }]]
    [{ SnapshotCopyConfigurationId := some "b", DestinationRegion := some "r1" },
      { SnapshotCopyConfigurationId := some "b", DestinationRegion := some "r2" }]
    [[{ SnapshotCopyConfigurationId := some "c", DestinationRegion := none }]]
    { SnapshotCopyConfigurationId := some "b", DestinationRegion := some "r1" }
    rfl (by decide) (by decide)
  rw [h, h1, h2, h3]
  rfl

end redshiftserverless
